import Mathlib

/-!
# Nutrack: the Dropbox synchronisation engine

A shallow embedding of `backend/settings/local_settings.go`,
`backend/service/token_store.go` and `backend/service/dropbox_service.go`.

Every Go function that touches the outside world becomes a function on an explicit
`World`: the in-memory settings store, the files on disk, the remote Dropbox file, the
clock, and the traffic the process produced (HTTP requests sent, messages handed to the
notification bus).  What the outside world does to one call (an I/O error, a transport
error, an HTTP status other than 200) is read from two scripts carried by the world,
`fsFaults` for local file operations and `netFaults` for HTTP calls; each fallible step
consumes one entry, and an exhausted script means "no fault".  One call of a Go function
runs to completion without another goroutine or another device interleaving.
-/

namespace Nutrack

abbrev Byte := Fin 256

abbrev Bytes := List Byte

/-! ## `settings/local_settings.go` -/

/-- Go struct `settings.ScannerSettings`. -/
structure ScannerSettings where
  VendorID : String
  ProductID : String
  Name : String
  Path : String
deriving DecidableEq

/-- Go struct `settings.Settings`. -/
structure Settings where
  AutoSyncDropbox : Bool
  LastHashCheck : Int
  StoredHash : String
  Synced : Bool
  WeightTracking : Bool
  ActiveScanner : Option ScannerSettings
  ActiveProfileID : String
  AutoRecalculateNutritionValues : Bool
deriving DecidableEq

/-- Go struct `settings.Store` (the path is a constant and the mutex has no sequential
content). -/
structure Store where
  settings : Settings
  dirty : Bool
deriving DecidableEq

/-- The default settings `GetStore` installs when no settings file exists. -/
def defaultSettings : Settings :=
  { AutoSyncDropbox := false
    LastHashCheck := 0
    StoredHash := ""
    Synced := false
    WeightTracking := false
    ActiveScanner := none
    ActiveProfileID := ""
    AutoRecalculateNutritionValues := false }

/-! ## `service/token_store.go` and the Dropbox wire types -/

/-- Go struct `DropboxTokens`; `ExpiresAt` is in nanoseconds since the Unix epoch. -/
structure DropboxTokens where
  AccessToken : String
  RefreshToken : String
  ExpiresAt : Int
deriving DecidableEq

/-- Go struct `TokenResponse`. -/
structure TokenResponse where
  AccessToken : String
  RefreshToken : String
  ExpiresIn : Int
deriving DecidableEq

/-- Go struct `DropboxMetadata`. -/
structure DropboxMetadata where
  ContentHash : String
  PathDisplay : String
  Size : Int
  ServerModified : String
deriving DecidableEq

/-- Go struct `OperationResult`. -/
structure OperationResult where
  Success : Bool
  Status : String
deriving DecidableEq

/-! ## The outside world -/

/-- The file held by the remote store under the fixed path, with the metadata the store
reports for it. -/
structure RemoteFile where
  content : Bytes
  metadata : DropboxMetadata
deriving DecidableEq

/-- What the file system does to one local I/O step: it succeeds, or it fails with an
error message after `written` bytes (only a copy looks at `written`). -/
inductive FsFault where
  | ok
  | fail (msg : String) (written : Nat)
deriving DecidableEq

/-- What the network does to one HTTP call: the remote serves it from its state as the
world records it; the transport fails (`client.Do` returns an error); or the caller
receives a reply with the given status and body that does not come from the recorded
state: the answer of a gateway, or of a remote store that another client has changed since
the state was recorded.  Where the caller expects JSON, a scripted 200 body is one that
does not decode. -/
inductive NetFault where
  | served
  | transport (msg : String)
  | status (code : Nat) (body : Bytes)
deriving DecidableEq

/-- An HTTP request the process sent. -/
inductive Request where
  | refreshToken (refresh : String)
  | exchangeToken (code : String) (codeVerifier : String)
  | getMetadata (access : String) (path : String)
  | upload (access : String) (path : String) (mode : String) (content : Bytes)
  | download (access : String) (path : String)
deriving DecidableEq

/-- The two transfer primitives, for the record of which of them were entered. -/
inductive Call where
  | UploadDatabase
  | DownloadDatabase
deriving DecidableEq

/-- Primitives of the platform that are not part of the repository: the SHA-256 digest,
and the metadata the remote store assigns to bytes it has just stored. -/
structure Externals where
  sha256 : Bytes → Bytes
  stored : Bytes → DropboxMetadata

/-- What `encoding/json` makes of the body of a scripted reply, which the model does not
parse: `decodeError` is the text of the decoder's error for a body that does not decode
into the struct the caller expects, and `errorSummary` gives, for the body of a 409 reply
to `get_metadata`, either such an error text or the `error_summary` of the error object the
body holds. -/
structure Decoder where
  decodeError : Bytes → String
  errorSummary : Bytes → Except String String

/-- State of the process and of its environment.

* `store`, `settingsFile`: the settings store in memory and its file on disk;
* `vault`: the decrypted content of the token file (`none`: no file);
* `localDB`: the bytes of the local database file;
* `remote`: the remote file (`none`: nothing under the path);
* `tokenEndpoint`: what the OAuth token endpoint answers to a refresh or to a code
  exchange it serves, as decoded, and `tokenBody`: the body of that answer as sent (the
  model does not parse it; only an error text of `ExchangeToken` quotes it);
* `decoder`: the JSON decoder on the bodies of scripted replies;
* `now`: the clock, nanoseconds since the Unix epoch;
* `fsFaults`, `netFaults`: the fault scripts;
* `jitterDraws`: the values `randGen.Float64()` returns next, float64 numbers in `[0, 1)`
  (rationals whose denominator is a power of two);
* `http`, `bus`: requests sent and messages handed to `messaging.BroadcastMessage`,
  oldest first;
* `calls`: which transfer primitives were entered, oldest first;
* `currentBackoff`, `uploadTimer`, `syncTimer`: the package-level scheduler state, timers
  as the deadline of the pending callback;
* `syncedSnapshot`: the bytes of the local database file when `MarkAsSynced` last ran
  (a history variable, never read by the program). -/
structure World where
  store : Store
  settingsFile : Option Settings
  vault : Option DropboxTokens
  localDB : Bytes
  remote : Option RemoteFile
  tokenEndpoint : TokenResponse
  tokenBody : Bytes
  decoder : Decoder
  now : Int
  fsFaults : List FsFault
  netFaults : List NetFault
  jitterDraws : List Rat
  http : List Request
  bus : List String
  calls : List Call
  currentBackoff : Int
  uploadTimer : Option Int
  syncTimer : Option Int
  syncedSnapshot : Option Bytes

/-- Take the outcome of the next local I/O step from the script. -/
def popFs (w : World) : FsFault × World :=
  match w.fsFaults with
  | [] => (FsFault.ok, w)
  | f :: rest => (f, { w with fsFaults := rest })

/-- Take the outcome of the next HTTP call from the script. -/
def popNet (w : World) : NetFault × World :=
  match w.netFaults with
  | [] => (NetFault.served, w)
  | f :: rest => (f, { w with netFaults := rest })

/-- Record a request as sent. -/
def send (r : Request) (w : World) : World :=
  { w with http := w.http ++ [r] }

/-- Go `messaging.BroadcastMessage`: the message is handed to the notification bus. -/
def BroadcastMessage (message : String) (w : World) : World :=
  { w with bus := w.bus ++ [message] }

/-! ## Constants of `dropbox_service.go` (durations in nanoseconds) -/

def second : Int := 1000000000

def minute : Int := 60 * second

def hour : Int := 60 * minute

def blockSize : Nat := 4 * 1024 * 1024

def dbFileName : String := "nutrack.db"

def checkInterval : Int := 5 * minute

def regularSyncInterval : Int := 5 * minute

def initialBackoff : Int := 1 * minute

def maxBackoff : Int := 60 * minute

/-- Go `string(body)`: a Go string is a byte string, shown here one character per byte. -/
def bodyText (body : Bytes) : String :=
  String.mk (body.map fun b => Char.ofNat b.val)

/-- Go int64 arithmetic wraps around. -/
def wrapInt64 (x : Int) : Int :=
  (x + 2 ^ 63) % 2 ^ 64 - 2 ^ 63

/-! ## `settings.Store` methods -/

/-- Go `(*Store).saveToFile`. -/
def saveToFile (w : World) : Option String × World :=
  if !w.store.dirty then (none, w)
  else
    match popFs w with
    | (FsFault.fail msg _, w1) => (some ("error writing settings file: " ++ msg), w1)
    | (FsFault.ok, w1) =>
      (none, { w1 with settingsFile := some w1.store.settings
                       store := { w1.store with dirty := false } })

/-- Go `(*Store).Save`. -/
def Store.Save (settings : Settings) (w : World) : Option String × World :=
  saveToFile { w with store := { settings := settings, dirty := true } }

/-- Go `(*Store).Load`: a copy of the settings in memory; it never fails. -/
def Store.Load (w : World) : Settings :=
  w.store.settings

/-- Go `(*Store).SaveToFile`. -/
def Store.SaveToFile (w : World) : Option String × World :=
  saveToFile w

/-- Go `(*Store).MarkAsUnsynced`; a failed write is only logged. -/
def Store.MarkAsUnsynced (w : World) : World :=
  (saveToFile { w with store := { settings := { w.store.settings with Synced := false }
                                  dirty := true } }).2

/-- Go `(*Store).MarkAsSynced`; a failed write is only logged. -/
def Store.MarkAsSynced (hash : String) (w : World) : World :=
  (saveToFile { w with store := { settings := { w.store.settings with Synced := true
                                                                      StoredHash := hash }
                                  dirty := true }
                       syncedSnapshot := some w.localDB }).2

/-! ## `TokenStore` methods -/

/-- Go `(*TokenStore).LoadTokens`: `nil, nil` when the file does not exist; reading an
existing file is the fallible step, and a file that was read holds what `SaveTokens` wrote,
so that it decrypts and parses to the record saved. -/
def LoadTokens (w : World) : Except String (Option DropboxTokens) × World :=
  match w.vault with
  | none => (Except.ok none, w)
  | some t =>
    match popFs w with
    | (FsFault.fail msg _, w1) => (Except.error ("failed to read tokens: " ++ msg), w1)
    | (FsFault.ok, w1) => (Except.ok (some t), w1)

/-- Go `(*TokenStore).SaveTokens`: encrypting and writing the file is one fallible step. -/
def SaveTokens (tokens : DropboxTokens) (w : World) : Option String × World :=
  match popFs w with
  | (FsFault.fail msg _, w1) => (some ("failed to save tokens: " ++ msg), w1)
  | (FsFault.ok, w1) => (none, { w1 with vault := some tokens })

/-! ## Content hasher -/

/-- One lowercase hexadecimal digit. -/
def hexDigit (n : Nat) : Char :=
  if n < 10 then Char.ofNat (48 + n) else Char.ofNat (87 + n)

/-- Go `hex.EncodeToString`. -/
def hexEncode (b : Bytes) : String :=
  String.mk (b.flatMap fun x => [hexDigit (x.val / 16), hexDigit (x.val % 16)])

/-- The `file.Read` loop of `calculateDropboxHash`: each round reads up to `blockSize`
bytes and the loop stops on an empty read. -/
def readBlocksAux : Nat → Bytes → List Bytes
  | 0, _ => []
  | fuel + 1, c =>
    if c = [] then [] else c.take blockSize :: readBlocksAux fuel (c.drop blockSize)

/-- The blocks of a file; every round consumes a byte, so `c.length` rounds are enough. -/
def readBlocks (c : Bytes) : List Bytes :=
  readBlocksAux c.length c

/-- The value `calculateDropboxHash` computes from the bytes of a file. -/
def dropboxHash (X : Externals) (c : Bytes) : String :=
  let blockHashes := (readBlocks c).map X.sha256
  if blockHashes.length = 0 then hexEncode (X.sha256 [])
  else hexEncode (X.sha256 blockHashes.flatten)

/-- Go `calculateDropboxHash` applied to the local database file: opening and reading
are fallible steps. -/
def calculateDropboxHash (X : Externals) (w : World) : Except String String × World :=
  match popFs w with
  | (FsFault.fail msg _, w1) => (Except.error ("error opening file: " ++ msg), w1)
  | (FsFault.ok, w1) =>
    match popFs w1 with
    | (FsFault.fail msg _, w2) => (Except.error ("error reading file: " ++ msg), w2)
    | (FsFault.ok, w2) => (Except.ok (dropboxHash X w2.localDB), w2)

/-! ## Token lifecycle -/

/-- Go `refreshAccessToken`. -/
def refreshAccessToken (refreshToken : String) (w : World) :
    Except String TokenResponse × World :=
  match popNet (send (Request.refreshToken refreshToken) w) with
  | (NetFault.transport msg, w1) =>
    (Except.error ("error making refresh token request: " ++ msg), w1)
  | (NetFault.status code body, w1) =>
    if code ≠ 200 then
      (Except.error ("refresh token request failed with status " ++ toString code ++ ": "
        ++ bodyText body), w1)
    else (Except.error ("error decoding response: " ++ w1.decoder.decodeError body), w1)
  | (NetFault.served, w1) => (Except.ok w1.tokenEndpoint, w1)

/-- Go `ensureValidToken`.  `time.Until` saturates at the ends of the int64 range, which
does not change a comparison with thirty minutes. -/
def ensureValidToken (tokens : Option DropboxTokens) (w : World) :
    Except String DropboxTokens × World :=
  match tokens with
  | none => (Except.error "no valid tokens available", w)
  | some t =>
    if t.AccessToken = "" then (Except.error "no valid tokens available", w)
    else if t.ExpiresAt - w.now > 30 * minute then (Except.ok t, w)
    else if t.RefreshToken = "" then (Except.error "no refresh token available", w)
    else
      match refreshAccessToken t.RefreshToken w with
      | (Except.error e, w1) => (Except.error ("error refreshing token: " ++ e), w1)
      | (Except.ok newTokens, w1) =>
        let expiresIn0 := wrapInt64 (newTokens.ExpiresIn * second)
        let expiresIn := if expiresIn0 = 0 then 4 * hour else expiresIn0
        let expiresAt := w1.now + expiresIn
        let refreshToken :=
          if newTokens.RefreshToken = "" then t.RefreshToken else newTokens.RefreshToken
        let tokensToSave : DropboxTokens :=
          { AccessToken := newTokens.AccessToken
            RefreshToken := refreshToken
            ExpiresAt := expiresAt }
        match SaveTokens tokensToSave w1 with
        | (some e, w2) => (Except.error ("error saving refreshed tokens: " ++ e), w2)
        | (none, w2) => (Except.ok tokensToSave, w2)

/-- Go `GetValidTokens`. -/
def GetValidTokens (w : World) : Except String DropboxTokens × World :=
  match LoadTokens w with
  | (Except.error e, w1) => (Except.error ("error loading tokens: " ++ e), w1)
  | (Except.ok tokens, w1) =>
    match ensureValidToken tokens w1 with
    | (Except.error e, w2) => (Except.error ("error ensuring valid token: " ++ e), w2)
    | (Except.ok valid, w2) => (Except.ok valid, w2)

/-- The record `ensureValidToken` saves after a refresh answered with `newTokens` at time
`now`, in place of the stored record `t`. -/
def tokensToSave (t : DropboxTokens) (newTokens : TokenResponse) (now : Int) : DropboxTokens :=
  let expiresIn0 := wrapInt64 (newTokens.ExpiresIn * second)
  let expiresIn := if expiresIn0 = 0 then 4 * hour else expiresIn0
  { AccessToken := newTokens.AccessToken
    RefreshToken := if newTokens.RefreshToken = "" then t.RefreshToken else newTokens.RefreshToken
    ExpiresAt := now + expiresIn }

/-- Go `ExchangeToken`.  A served exchange is answered with the body `tokenBody`, which
parses to `tokenEndpoint`; a scripted reply with status 200 has a body that cannot be
parsed; reading the body of a reply that has arrived does not fail.  `expiresIn * 9` is an
int64 product, and the division by ten truncates. -/
def ExchangeToken (code codeVerifier : String) (w : World) :
    Except String TokenResponse × World :=
  match popNet (send (Request.exchangeToken code codeVerifier) w) with
  | (NetFault.transport msg, w1) =>
    (Except.error ("error making token request: " ++ msg), w1)
  | (NetFault.status status body, w1) =>
    if status ≠ 200 then
      (Except.error ("token request failed with status " ++ toString status ++ ": "
        ++ bodyText body), w1)
    else
      (Except.error ("error parsing JSON response: " ++ w1.decoder.decodeError body
        ++ ", body: " ++ bodyText body), w1)
  | (NetFault.served, w1) =>
    let tokenResp := w1.tokenEndpoint
    if tokenResp.AccessToken = "" then
      (Except.error ("no access token received in response: " ++ bodyText w1.tokenBody), w1)
    else
      let expiresIn0 := wrapInt64 (tokenResp.ExpiresIn * second)
      let expiresIn := if expiresIn0 = 0 then 4 * hour else expiresIn0
      let expiresAt := w1.now + Int.tdiv (wrapInt64 (expiresIn * 9)) 10
      match SaveTokens { AccessToken := tokenResp.AccessToken
                         RefreshToken := tokenResp.RefreshToken
                         ExpiresAt := expiresAt } w1 with
      | (some e, w2) => (Except.error ("failed to save tokens: " ++ e), w2)
      | (none, w2) => (Except.ok tokenResp, w2)

/-! ## Remote metadata and hash comparison -/

/-- Go `getRemoteFileMetadata`.  A served request is answered from the remote state: 409
`path/not_found` when nothing is stored under the path (the `nil, nil` result), 200 with
the metadata otherwise.  A scripted 409 carries a body that does not decode, or an error
object other than `path/not_found`. -/
def getRemoteFileMetadata (tokens : DropboxTokens) (path : String) (w : World) :
    Except String (Option DropboxMetadata) × World :=
  match popNet (send (Request.getMetadata tokens.AccessToken path) w) with
  | (NetFault.transport msg, w1) => (Except.error ("error making request: " ++ msg), w1)
  | (NetFault.status code body, w1) =>
    if code = 409 then
      match w1.decoder.errorSummary body with
      | Except.error e => (Except.error ("error decoding error response: " ++ e), w1)
      | Except.ok summary => (Except.error ("metadata request failed: " ++ summary), w1)
    else if code ≠ 200 then
      (Except.error ("metadata request failed with status " ++ toString code ++ ": "
        ++ bodyText body), w1)
    else (Except.error ("error decoding response: " ++ w1.decoder.decodeError body), w1)
  | (NetFault.served, w1) =>
    match w1.remote with
    | none => (Except.ok none, w1)
    | some f => (Except.ok (some f.metadata), w1)

/-- Go `hashComparison` for the local database file: the result is
`(needs transfer, localHash, remoteHash)`. -/
def hashComparison (X : Externals) (tokens : DropboxTokens) (remotePath : String)
    (w : World) : Except String (Bool × String × String) × World :=
  match calculateDropboxHash X w with
  | (Except.error e, w1) => (Except.error ("error calculating local hash: " ++ e), w1)
  | (Except.ok localHash, w1) =>
    match getRemoteFileMetadata tokens remotePath w1 with
    | (Except.error e, w2) =>
      (Except.error ("error getting remote file metadata: " ++ e), w2)
    | (Except.ok none, w2) => (Except.ok (true, localHash, ""), w2)
    | (Except.ok (some metadata), w2) =>
      (Except.ok (metadata.ContentHash != localHash, localHash, metadata.ContentHash), w2)

/-! ## Transfer operations -/

/-- Go `UploadDatabase`.  A served upload replaces the remote file by the bytes sent. -/
def UploadDatabase (X : Externals) (w0 : World) : Except String OperationResult × World :=
  let w := { w0 with calls := w0.calls ++ [Call.UploadDatabase] }
  match GetValidTokens w with
  | (Except.error e, w1) => (Except.error ("failed to get valid tokens: " ++ e), w1)
  | (Except.ok tokens, w1) =>
    match hashComparison X tokens ("/" ++ dbFileName) w1 with
    | (Except.error e, w2) =>
      (Except.error ("error checking if upload is needed: " ++ e), w2)
    | (Except.ok (needsUpload, localHash, _), w2) =>
      if !needsUpload then
        match Store.SaveToFile (Store.MarkAsSynced localHash w2) with
        | (some e, w3) => (Except.error ("error saving settings: " ++ e), w3)
        | (none, w3) => (Except.ok { Success := true, Status := "upToDate" }, w3)
      else
        match popFs w2 with
        | (FsFault.fail msg _, w3) => (Except.error ("error opening file: " ++ msg), w3)
        | (FsFault.ok, w3) =>
          match popNet (send (Request.upload tokens.AccessToken ("/" ++ dbFileName)
              "overwrite" w3.localDB) w3) with
          | (NetFault.transport msg, w4) =>
            (Except.error ("error making request: " ++ msg), w4)
          | (NetFault.status code body, w4) =>
            if code ≠ 200 then
              (Except.error ("upload failed with status " ++ toString code ++ ": "
                ++ bodyText body), w4)
            else
              match Store.SaveToFile (Store.MarkAsSynced localHash w4) with
              | (some e, w5) => (Except.error ("error saving settings: " ++ e), w5)
              | (none, w5) => (Except.ok { Success := true, Status := "uploaded" }, w5)
          | (NetFault.served, w4) =>
            let file : RemoteFile := { content := w4.localDB, metadata := X.stored w4.localDB }
            match Store.SaveToFile (Store.MarkAsSynced localHash
                { w4 with remote := some file }) with
            | (some e, w5) => (Except.error ("error saving settings: " ++ e), w5)
            | (none, w5) => (Except.ok { Success := true, Status := "uploaded" }, w5)

/-- The part of `DownloadDatabase` after a 200 reply with body `body`: the body goes to a
temporary file, which is then copied over the local database file. -/
def installDownload (remoteHash : String) (body : Bytes) (w : World) :
    Except String OperationResult × World :=
  match popFs w with
  | (FsFault.fail msg _, w1) => (Except.error ("error creating temp file: " ++ msg), w1)
  | (FsFault.ok, w1) =>
    match popFs w1 with
    | (FsFault.fail msg _, w2) =>
      (Except.error ("error copying response to temp file: " ++ msg), w2)
    | (FsFault.ok, w2) =>
      match popFs w2 with
      | (FsFault.fail msg _, w3) => (Except.error ("error opening temp file: " ++ msg), w3)
      | (FsFault.ok, w3) =>
        match popFs w3 with
        | (FsFault.fail msg _, w4) =>
          (Except.error ("error creating target file: " ++ msg), w4)
        | (FsFault.ok, w4) =>
          match popFs { w4 with localDB := [] } with
          | (FsFault.fail msg written, w5) =>
            (Except.error ("error copying file contents: " ++ msg),
              { w5 with localDB := body.take written })
          | (FsFault.ok, w5) =>
            match popFs { w5 with localDB := body } with
            | (FsFault.fail msg _, w6) =>
              (Except.error ("error syncing file to disk: " ++ msg), w6)
            | (FsFault.ok, w6) =>
              match Store.SaveToFile (Store.MarkAsSynced remoteHash w6) with
              | (some e, w7) => (Except.error ("error saving settings: " ++ e), w7)
              | (none, w7) =>
                (Except.ok { Success := true, Status := "downloaded" },
                  BroadcastMessage "food_items_updated"
                    (BroadcastMessage "consumed_food_items_updated"
                      (BroadcastMessage "REMOTE_FILE_UPDATED" w7)))

/-- Go `DownloadDatabase`.  A served download is answered with the bytes of the remote
file, or with 409 when nothing is stored under the path. -/
def DownloadDatabase (X : Externals) (w0 : World) : Except String OperationResult × World :=
  let w := { w0 with calls := w0.calls ++ [Call.DownloadDatabase] }
  match GetValidTokens w with
  | (Except.error e, w1) => (Except.error ("failed to get valid tokens: " ++ e), w1)
  | (Except.ok tokens, w1) =>
    match hashComparison X tokens ("/" ++ dbFileName) w1 with
    | (Except.error e, w2) =>
      (Except.error ("error checking if download is needed: " ++ e), w2)
    | (Except.ok (needsDownload, _, remoteHash), w2) =>
      if remoteHash = "" then (Except.ok { Success := false, Status := "notFound" }, w2)
      else if !needsDownload then
        match Store.SaveToFile (Store.MarkAsSynced remoteHash w2) with
        | (some e, w3) => (Except.error ("error saving settings: " ++ e), w3)
        | (none, w3) => (Except.ok { Success := true, Status := "upToDate" }, w3)
      else
        match popNet (send (Request.download tokens.AccessToken ("/" ++ dbFileName)) w2) with
        | (NetFault.transport msg, w3) =>
          (Except.error ("error making request: " ++ msg), w3)
        | (NetFault.status code body, w3) =>
          if code ≠ 200 then
            (Except.error ("download failed with status " ++ toString code ++ ": "
              ++ bodyText body), w3)
          else installDownload remoteHash body w3
        | (NetFault.served, w3) =>
          match w3.remote with
          | none =>
            (Except.error ("download failed with status 409: path/not_found/"), w3)
          | some f => installDownload remoteHash f.content w3

/-! ## Reconciliation -/

/-- The `err` of a Go `(result, err)` pair. -/
def errOf {α : Type} (r : Except String α × World) : Option String × World :=
  match r with
  | (Except.error e, w) => (some e, w)
  | (Except.ok _, w) => (none, w)

/-- Go `GetAutoSync` (`Load` never fails). -/
def GetAutoSync (w : World) : Bool :=
  (Store.Load w).AutoSyncDropbox

/-- Go `time.Now().UnixMilli()`. -/
def unixMilli (w : World) : Int :=
  w.now / 1000000

/-- Go `shouldSync` (`Load` never fails, and the error result is always nil). -/
def shouldSync (w : World) : Bool :=
  if (Store.Load w).LastHashCheck = 0 then true
  else decide (unixMilli w - (Store.Load w).LastHashCheck ≥ checkInterval / 1000000)

/-- Go `updateLastCheckTime`. -/
def updateLastCheckTime (w : World) : Option String × World :=
  match Store.Save { Store.Load w with LastHashCheck := unixMilli w } w with
  | (some e, w1) => (some ("error saving settings: " ++ e), w1)
  | (none, w1) => (none, w1)

/-- Go `SyncToDropbox`; the result is the returned error. -/
def SyncToDropbox (X : Externals) (force : Bool) (w : World) : Option String × World :=
  if !GetAutoSync w then (none, w)
  else if !force && !shouldSync w then (none, w)
  else
    match GetValidTokens w with
    | (Except.error e, w1) => (some ("no valid tokens available: " ++ e), w1)
    | (Except.ok tokens, w1) =>
      match getRemoteFileMetadata tokens ("/" ++ dbFileName) w1 with
      | (Except.error e, w2) => (some ("failed to get remote file metadata: " ++ e), w2)
      | (Except.ok none, w2) => (none, w2)
      | (Except.ok (some metadata), w2) =>
        if metadata.ContentHash = "" then (none, w2)
        else
          let remoteHash := metadata.ContentHash
          let settingsData := Store.Load w2
          if settingsData.StoredHash = "" then errOf (DownloadDatabase X w2)
          else if settingsData.StoredHash = remoteHash then
            if !settingsData.Synced then errOf (UploadDatabase X w2)
            else (none, w2)
          else if settingsData.StoredHash ≠ remoteHash then
            if !settingsData.Synced then
              (some "remote file changed but local is not synced",
                BroadcastMessage "SHOW_SYNC_CONFLICT" w2)
            else errOf (DownloadDatabase X w2)
          else (none, (updateLastCheckTime w2).2)

/-- Go `checkRemoteChanged` (`Load` never fails and never yields nil). -/
def checkRemoteChanged (tokens : DropboxTokens) (w : World) : Except String Bool × World :=
  match getRemoteFileMetadata tokens ("/" ++ dbFileName) w with
  | (Except.error e, w1) => (Except.error ("error checking remote file: " ++ e), w1)
  | (Except.ok none, w1) => (Except.ok false, w1)
  | (Except.ok (some metadata), w1) =>
    let remoteHash := metadata.ContentHash
    if remoteHash = "" then
      (Except.error "no content hash available in remote metadata", w1)
    else
      let settingsData := Store.Load w1
      if settingsData.StoredHash = "" then (Except.ok true, w1)
      else if settingsData.StoredHash = remoteHash && settingsData.Synced then
        (Except.ok false, w1)
      else if settingsData.StoredHash != remoteHash && settingsData.Synced then
        (Except.ok true, w1)
      else if settingsData.StoredHash != remoteHash && !settingsData.Synced then
        (Except.ok false, w1)
      else (Except.ok false, w1)

/-! ## Background scheduler -/

/-- Go `strings.Contains`. -/
def stringsContains (s substr : String) : Bool :=
  s.toList.tails.any fun t => substr.toList.isPrefixOf t

/-- The number of binary digits of `n`, by halving at most `fuel` times. -/
def bitLengthAux : Nat → Nat → Nat
  | 0, _ => 0
  | fuel + 1, n => if n = 0 then 0 else bitLengthAux fuel (n / 2) + 1

/-- The number of binary digits of `n`; `n` halvings are enough. -/
def bitLength (n : Nat) : Nat :=
  bitLengthAux n n

/-- Rounding of a float64 operation: among the multiples of the unit with at most 53
significant binary digits, the one nearest to `n` units, the even one on a tie (the
exponent range is left aside). -/
def roundFloat64 (n : Nat) : Nat :=
  if bitLength n ≤ 53 then n
  else
    let shift := bitLength n - 53
    let q := n / 2 ^ shift
    let rest := n % 2 ^ shift
    let half := 2 ^ (shift - 1)
    if rest > half ∨ (rest = half ∧ q % 2 = 1) then (q + 1) * 2 ^ shift else q * 2 ^ shift

/-- The float64 constant `0.85`, in units of `2 ^ -53`. -/
def jitterBase : Nat := 7656119366529843

/-- The float64 constant `0.3`, in units of `2 ^ -54`. -/
def jitterSpan : Nat := 5404319552844595

/-- Go `time.Duration(float64(duration) * (0.85 + (0.3 * r)))` for the float64
`r = num / den`, `den` a power of two.  Each float64 operation (the conversion of the
duration, the two products and the sum) is the exact operation followed by rounding; the
values are counted in units of `2 ^ -54 / den`, and the conversion back to a duration
truncates toward zero. -/
def jittered (duration : Int) (num den : Nat) : Int :=
  let product := roundFloat64 (jitterSpan * num)
  let jitterFactor := roundFloat64 (jitterBase * (2 * den) + product)
  let result : Nat :=
    roundFloat64 (roundFloat64 duration.natAbs * jitterFactor) / (2 ^ 54 * den)
  if 0 ≤ duration then (result : Int) else -(result : Int)

/-- The closure `applyJitter` of `calculateNextBackoff`, on the next draw of
`randGen.Float64()`; without a scripted draw the draw is one half. -/
def applyJitter (duration : Int) (w : World) : Int × World :=
  match w.jitterDraws with
  | [] => (jittered duration 1 2, w)
  | r :: rest => (jittered duration r.num.toNat r.den, { w with jitterDraws := rest })

/-- Go `calculateNextBackoff`.  The float64 products by `2.0` and `1.5` are exact for
durations below `2 ^ 51` nanoseconds, far above `maxBackoff`; the conversion back to a
duration truncates toward zero, as does Go integer division. -/
def calculateNextBackoff (apiLimitHit : Bool) (w : World) : Int × World :=
  if apiLimitHit then
    let b := w.currentBackoff * 2
    let b1 := if b > maxBackoff then maxBackoff else b
    applyJitter b1 { w with currentBackoff := b1 }
  else if w.currentBackoff > regularSyncInterval * 2 then
    let b := Int.tdiv w.currentBackoff 2
    let b1 := if b < regularSyncInterval then regularSyncInterval else b
    applyJitter b1 { w with currentBackoff := b1 }
  else
    let b := Int.tdiv (w.currentBackoff * 3) 2
    let b1 := if b > regularSyncInterval * 2 then regularSyncInterval * 2 else b
    applyJitter b1 { w with currentBackoff := b1 }

/-- The test `checkForChanges` applies to an error message. -/
def isRateLimit (e : String) : Bool :=
  stringsContains e "429" || stringsContains e "too many requests"

/-- Go `time.AfterFunc` on `syncTimer`. -/
def armSyncTimer (d : Int) (w : World) : World :=
  { w with syncTimer := some (w.now + d) }

/-- The closure `checkForChanges` of `StartAutoSyncMonitor`: one iteration of the poll
loop, up to and including the rearming of `syncTimer`. -/
def checkForChanges (X : Externals) (w : World) : World :=
  if !GetAutoSync w then armSyncTimer regularSyncInterval w
  else
    match GetValidTokens w with
    | (Except.error e, w1) =>
      match calculateNextBackoff (isRateLimit e) w1 with
      | (nextInterval, w2) => armSyncTimer nextInterval w2
    | (Except.ok tokens, w1) =>
      match checkRemoteChanged tokens w1 with
      | (Except.error e, w2) =>
        match calculateNextBackoff (isRateLimit e) w2 with
        | (nextInterval, w3) => armSyncTimer nextInterval w3
      | (Except.ok hasChanged, w2) =>
        let step : Int × World :=
          if hasChanged then
            match DownloadDatabase X w2 with
            | (Except.error e, w3) =>
              if isRateLimit e then calculateNextBackoff true w3
              else calculateNextBackoff false w3
            | (Except.ok _, w3) =>
              (regularSyncInterval,
                { BroadcastMessage "food_items_updated"
                    (BroadcastMessage "consumed_food_items_updated"
                      (BroadcastMessage "REMOTE_FILE_UPDATED" w3)) with
                  currentBackoff := initialBackoff })
          else (regularSyncInterval, { w2 with currentBackoff := initialBackoff })
        armSyncTimer step.1 (updateLastCheckTime step.2).2

/-- Go `ScheduleDelayedUpload`: the pending timer, if any, is replaced. -/
def ScheduleDelayedUpload (w : World) : World :=
  if !GetAutoSync w then w
  else { w with uploadTimer := some (w.now + 10 * second) }

/-! ## The reconciliation table of the specification -/

/-- The actions of the decision table. -/
inductive Action where
  | NoOp
  | Upload
  | Download
  | Conflict
  | AwaitInitialDownload
deriving DecidableEq

/-- The decision table as the specification words it, rows in order; an absent remote
file is `remoteHash = none`. -/
def reconcileSpec (storedHash : String) (remoteHash : Option String) (synced : Bool) :
    Action :=
  match remoteHash with
  | none => Action.Upload
  | some h =>
    if storedHash = "" then Action.AwaitInitialDownload
    else if storedHash = h then (if synced then Action.NoOp else Action.Upload)
    else (if synced then Action.Download else Action.Conflict)

/-- Whether the decision table asks for a download: its action is `Download` or
`AwaitInitialDownload` (which the table treats as a download). -/
def tableSaysDownload (storedHash : String) (remoteHash : Option String) (synced : Bool) :
    Bool :=
  decide (reconcileSpec storedHash remoteHash synced = Action.Download ∨
    reconcileSpec storedHash remoteHash synced = Action.AwaitInitialDownload)

/-! ## Vocabulary of the theorems -/

/-- Requests that transfer the database file. -/
def Request.isTransfer : Request → Bool
  | Request.upload _ _ _ _ => true
  | Request.download _ _ => true
  | _ => false

/-- The transfer requests sent so far, oldest first. -/
def transfersSent (w : World) : List Request :=
  w.http.filter Request.isTransfer

/-- The ledger of the specification: `(storedHash, synced)`. -/
def ledger (w : World) : String × Bool :=
  (w.store.settings.StoredHash, w.store.settings.Synced)

/-- Two worlds that differ at most in the token vault, the fault scripts and the
requests sent, none of the latter a transfer request; the network script of the second is
what is left of the script of the first. -/
structure Quiet (w w1 : World) : Prop where
  store : w1.store = w.store
  settingsFile : w1.settingsFile = w.settingsFile
  localDB : w1.localDB = w.localDB
  remote : w1.remote = w.remote
  tokenEndpoint : w1.tokenEndpoint = w.tokenEndpoint
  now : w1.now = w.now
  jitterDraws : w1.jitterDraws = w.jitterDraws
  bus : w1.bus = w.bus
  calls : w1.calls = w.calls
  currentBackoff : w1.currentBackoff = w.currentBackoff
  uploadTimer : w1.uploadTimer = w.uploadTimer
  syncTimer : w1.syncTimer = w.syncTimer
  syncedSnapshot : w1.syncedSnapshot = w.syncedSnapshot
  transfers : transfersSent w1 = transfersSent w
  netSuffix : w1.netFaults <:+ w.netFaults
  tokenBody : w1.tokenBody = w.tokenBody
  decoder : w1.decoder = w.decoder

/-- The worlds before and after `MarkAsSynced hash` followed by `SaveToFile`: the ledger is
`(hash, true)`, the history variable holds the local database file, and apart from the
settings file, the dirty flag and the file-system script nothing else differs. -/
structure Marked (hash : String) (w w1 : World) : Prop where
  settings : w1.store.settings =
    { w.store.settings with Synced := true, StoredHash := hash }
  syncedSnapshot : w1.syncedSnapshot = some w.localDB
  vault : w1.vault = w.vault
  localDB : w1.localDB = w.localDB
  remote : w1.remote = w.remote
  tokenEndpoint : w1.tokenEndpoint = w.tokenEndpoint
  now : w1.now = w.now
  netFaults : w1.netFaults = w.netFaults
  jitterDraws : w1.jitterDraws = w.jitterDraws
  http : w1.http = w.http
  bus : w1.bus = w.bus
  calls : w1.calls = w.calls
  currentBackoff : w1.currentBackoff = w.currentBackoff
  uploadTimer : w1.uploadTimer = w.uploadTimer
  syncTimer : w1.syncTimer = w.syncTimer

/-- The content hash the remote store reports, `none` when it holds no file. -/
def remoteContentHash (w : World) : Option String :=
  w.remote.map fun f => f.metadata.ContentHash

/-- The remote store is honest: the content hash it reports for the file it holds, and
for bytes it has just stored, is the content hash of those bytes. -/
def HonestRemote (X : Externals) (w : World) : Prop :=
  (∀ b : Bytes, (X.stored b).ContentHash = dropboxHash X b) ∧
  ∀ f : RemoteFile, w.remote = some f → f.metadata.ContentHash = dropboxHash X f.content

/-- Every reply with status 200 comes from the remote state the world records: during the
calls to come no other client replaces the remote file between two requests, and no
gateway answers 200 in place of the remote store. -/
def NoForgedOk (w : World) : Prop :=
  ∀ f ∈ w.netFaults, ∀ body : Bytes, f ≠ NetFault.status 200 body

/-- The scripts hold no fault, and the vault holds an access token that stays valid for
more than thirty minutes. -/
def Calm (w : World) : Prop :=
  w.fsFaults = [] ∧ w.netFaults = [] ∧
  ∃ t : DropboxTokens, w.vault = some t ∧ t.AccessToken ≠ "" ∧ t.ExpiresAt - w.now > 30 * minute

/-- The synced invariant: when `synced` is set, `storedHash` is the content hash of the
local database file as it was when `synced` was last set. -/
def SyncedInvariant (X : Externals) (w : World) : Prop :=
  w.store.settings.Synced = true →
    ∃ b : Bytes, w.syncedSnapshot = some b ∧ w.store.settings.StoredHash = dropboxHash X b

/-- What one run of `MarkAsSynced` leaves behind: the ledger says synced, and its stored
hash is the content hash of the local database file, which the history variable holds. -/
def FreshlyMarked (X : Externals) (w1 : World) : Prop :=
  w1.store.settings.Synced = true ∧ w1.syncedSnapshot = some w1.localDB ∧
  w1.store.settings.StoredHash = dropboxHash X w1.localDB

/-- The ledger and the history variable are as before. -/
def LedgerUntouched (w w1 : World) : Prop :=
  w1.store.settings = w.store.settings ∧ w1.syncedSnapshot = w.syncedSnapshot

/-- States reached by the transfer operations.  A run starts unsynced; between calls the
environment may change anything except the settings store and the history variable, the
remote file included; `DownloadDatabase` runs against an honest remote store whose file
does not change during the call. -/
inductive Reachable (X : Externals) : World → Prop where
  | start (w : World) (h : w.store.settings.Synced = false) : Reachable X w
  | environment (w w1 : World) (hw : Reachable X w) (hstore : w1.store = w.store)
      (hsnap : w1.syncedSnapshot = w.syncedSnapshot) : Reachable X w1
  | unsynced (w : World) (hw : Reachable X w) : Reachable X (Store.MarkAsUnsynced w)
  | upload (w : World) (hw : Reachable X w) : Reachable X (UploadDatabase X w).2
  | download (w : World) (hw : Reachable X w) (hremote : HonestRemote X w)
      (hforged : NoForgedOk w) : Reachable X (DownloadDatabase X w).2

/-! ## Sample worlds -/

/-- A stand-in digest (the identity) and a remote store that reports the content hash of
what it stores. -/
def sampleExternals : Externals :=
  { sha256 := fun b => b
    stored := fun b =>
      { ContentHash := dropboxHash { sha256 := fun c => c, stored := fun _ => ⟨"", "", 0, ""⟩ } b
        PathDisplay := "/nutrack.db"
        Size := b.length
        ServerModified := "2024-01-01T00:00:00Z" } }

/-- An access token that stays valid for two hours from time zero. -/
def sampleTokens : DropboxTokens :=
  { AccessToken := "access", RefreshToken := "refresh", ExpiresAt := 2 * hour }

/-- A remote file with the given reported content hash. -/
def sampleRemote (hash : String) (content : Bytes) : RemoteFile :=
  { content := content
    metadata := { ContentHash := hash, PathDisplay := "/nutrack.db", Size := content.length,
                  ServerModified := "2024-01-01T00:00:00Z" } }

/-- A decoder for the sample worlds: every body that does not decode is reported as
truncated, and the body of a scripted 409 reply is taken as its own `error_summary`. -/
def sampleDecoder : Decoder :=
  { decodeError := fun _ => "unexpected end of JSON input"
    errorSummary := fun body => Except.ok (bodyText body) }

/-- The body `{"access_token": "access2", "expires_in": 14400}`. -/
def sampleTokenBody : Bytes :=
  [123, 34, 97, 99, 99, 101, 115, 115, 95, 116, 111, 107, 101, 110, 34, 58, 32, 34, 97, 99, 99,
   101, 115, 115, 50, 34, 44, 32, 34, 101, 120, 112, 105, 114, 101, 115, 95, 105, 110, 34, 58,
   32, 49, 52, 52, 48, 48, 125]

/-- The body `{"expires_in": 14400}`, which has no `access_token` field. -/
def emptyAccessBody : Bytes :=
  [123, 34, 101, 120, 112, 105, 114, 101, 115, 95, 105, 110, 34, 58, 32, 49, 52, 52, 48, 48,
   125]

/-- A fresh install (`GetStore` defaults) that has logged in to Dropbox: a three-byte local
database, no fault scripted. -/
def freshInstall (remote : Option RemoteFile) : World :=
  { store := { settings := defaultSettings, dirty := false }
    settingsFile := some defaultSettings
    vault := some sampleTokens
    localDB := [1, 2, 3]
    remote := remote
    tokenEndpoint := { AccessToken := "access2", RefreshToken := "", ExpiresIn := 14400 }
    tokenBody := sampleTokenBody
    decoder := sampleDecoder
    now := 0
    fsFaults := []
    netFaults := []
    jitterDraws := []
    http := []
    bus := []
    calls := []
    currentBackoff := initialBackoff
    uploadTimer := none
    syncTimer := none
    syncedSnapshot := none }

/-- The same install with auto-sync switched on and the given ledger. -/
def syncingWorld (stored : String) (synced : Bool) (remote : Option RemoteFile) : World :=
  { freshInstall remote with
    store := { settings := { defaultSettings with AutoSyncDropbox := true, StoredHash := stored,
                                                  Synced := synced },
               dirty := false } }

/-- A world whose remote file has the content hash of the local file, and whose settings
file cannot be written: the first three file operations (reading the vault, opening and
reading the database file) succeed, the next two (the writes of the settings file) fail. -/
def diskFullWorld : World :=
  { syncingWorld "abc" false (some (sampleRemote "010203" [1, 2, 3])) with
    fsFaults := [FsFault.ok, FsFault.ok, FsFault.ok, FsFault.fail "disk full" 0,
      FsFault.fail "disk full" 0] }

/-- The world `syncingWorld` after the metadata request of `SyncToDropbox`. -/
def afterMetadata (stored : String) (synced : Bool) (remote : Option RemoteFile) : World :=
  { syncingWorld stored synced remote with
    http := [Request.getMetadata "access" "/nutrack.db"] }

/-- A world with no remote file and a settings file that cannot be written: the first four
file operations (reading the vault, opening and reading the database file for the hash,
opening it for the upload) succeed, the next two (the writes of the settings file) fail. -/
def diskFullUploadWorld : World :=
  { syncingWorld "abc" false none with
    fsFaults := [FsFault.ok, FsFault.ok, FsFault.ok, FsFault.ok, FsFault.fail "disk full" 0,
      FsFault.fail "disk full" 0] }

/-- The byte strings `calculateDropboxHash` feeds to SHA-256 for the content `c`: the
blocks, then the concatenation of their digests. -/
def digestInputs (X : Externals) (c : Bytes) : List Bytes :=
  readBlocks c ++ [((readBlocks c).map X.sha256).flatten]

/-- SHA-256 has no collision among the given byte strings. -/
def CollisionFree (X : Externals) (inputs : List Bytes) : Prop :=
  ∀ a ∈ inputs, ∀ b ∈ inputs, X.sha256 a = X.sha256 b → a = b

/-- A stand-in digest of 32 bytes: the length of the input as one byte, then the input,
cut or padded with zeros to 32 bytes. -/
def paddedExternals : Externals :=
  { sha256 := fun b =>
      ((⟨b.length % 256, Nat.mod_lt _ (by decide)⟩ : Byte) :: b ++ List.replicate 32 0).take 32
    stored := sampleExternals.stored }

/-- An access token that expires ten minutes after time zero. -/
def expiringTokens : DropboxTokens :=
  { AccessToken := "access", RefreshToken := "refresh", ExpiresAt := 10 * minute }

/-- The install `freshInstall none` with a stored access token that expires in ten minutes;
the token endpoint answers a refresh with a new access token, no refresh token, and a
lifetime of four hours. -/
def expiringWorld : World :=
  { freshInstall none with vault := some expiringTokens }

/-- The world `expiringWorld` with a token endpoint that announces a lifetime of
`expiresIn` seconds. -/
def lifetimeWorld (expiresIn : Int) : World :=
  { expiringWorld with
    tokenEndpoint := { AccessToken := "access2", RefreshToken := "", ExpiresIn := expiresIn } }

/-- The world after `n` failures in a row that hit the API rate limit, as far as the
backoff goes: `calculateNextBackoff(true)` has run `n` times. -/
def rateLimited (n : Nat) (w : World) : World :=
  Nat.iterate (fun v => (calculateNextBackoff true v).2) n w

/-- The interval from now to the pending poll, `none` when no poll is pending. -/
def scheduledInterval (w : World) : Option Int :=
  w.syncTimer.map fun deadline => deadline - w.now

/-- Two worlds with the same scheduler inputs: stored backoff, clock and jitter draws. -/
def SameSchedule (w w1 : World) : Prop :=
  w1.currentBackoff = w.currentBackoff ∧ w1.now = w.now ∧ w1.jitterDraws = w.jitterDraws

/-- A synced install whose poll loop has backed off to twenty minutes; the remote file is
the one the ledger knows. -/
def backedOffWorld : World :=
  { syncingWorld "010203" true (some (sampleRemote "010203" [1, 2, 3])) with
    currentBackoff := 20 * minute }

/-- The world five minutes after the successful poll of `backedOffWorld`, with a network
that fails the next request. -/
def failingAfterSuccess (msg : String) : World :=
  { checkForChanges sampleExternals backedOffWorld with
    now := 5 * minute
    netFaults := [NetFault.transport msg] }

/-- The poll iteration takes one of the branches that keep the regular interval: the
credentials are valid, the remote check succeeds, and the download, if one is due, returns
without error. -/
def PollSucceeds (X : Externals) (w : World) : Prop :=
  ∃ tokens w1 changed w2, GetValidTokens w = (Except.ok tokens, w1) ∧
    checkRemoteChanged tokens w1 = (Except.ok changed, w2) ∧
    (changed = true → ∃ r w3, DownloadDatabase X w2 = (Except.ok r, w3))

/-- The poll iteration takes one of the branches that call `calculateNextBackoff`: the
credentials, the remote check or the download fail. -/
def PollFails (X : Externals) (w : World) : Prop :=
  (∃ e w1, GetValidTokens w = (Except.error e, w1)) ∨
  (∃ tokens w1 e w2, GetValidTokens w = (Except.ok tokens, w1) ∧
    checkRemoteChanged tokens w1 = (Except.error e, w2)) ∨
  (∃ tokens w1 w2 e w3, GetValidTokens w = (Except.ok tokens, w1) ∧
    checkRemoteChanged tokens w1 = (Except.ok true, w2) ∧
    DownloadDatabase X w2 = (Except.error e, w3))

/-- The Go runtime runs the callback of the upload timer at its deadline: the timer is no
longer pending, and the callback set by `ScheduleDelayedUpload` calls `UploadDatabase`. -/
def fireUploadTimer (X : Externals) (deadline : Int) (w : World) : World :=
  (UploadDatabase X { w with now := deadline, uploadTimer := none }).2

/-- The clock advances to `t`; a pending upload timer whose deadline has come fires on the
way. -/
def advanceTo (X : Externals) (t : Int) (w : World) : World :=
  match w.uploadTimer with
  | some deadline =>
    if deadline ≤ t then { fireUploadTimer X deadline w with now := t }
    else { w with now := t }
  | none => { w with now := t }

/-- `ScheduleDelayedUpload` is called at each of the given times, in turn. -/
def scheduleAt (X : Externals) : List Int → World → World
  | [], w => w
  | t :: rest, w => scheduleAt X rest (ScheduleDelayedUpload (advanceTo X t w))

/-- Each call comes no earlier than the previous one and less than ten seconds after it. -/
def Burst (a b : Int) : Prop :=
  a ≤ b ∧ b < a + 10 * second

/-- A fresh install (auto-sync off) with an upload timer still pending. -/
def switchedOffWorld : World :=
  { freshInstall (some (sampleRemote "xyz" [7, 7])) with uploadTimer := some (7 * second) }

/-- A poll loop that has backed off to the maximum of sixty minutes. -/
def maxBackoffWorld : World :=
  { freshInstall none with currentBackoff := 60 * minute }

/-- The conflict ledger: stored hash `abc`, unsynced, against a remote file of hash `xyz`. -/
def conflictWorld : World :=
  syncingWorld "abc" false (some (sampleRemote "xyz" [7, 7]))

/-- The world `expiringWorld` with a token endpoint whose 200 reply to a refresh carries no
access token (`{"expires_in": 14400}`). -/
def emptyAccessWorld : World :=
  { expiringWorld with
    tokenEndpoint := { AccessToken := "", RefreshToken := "", ExpiresIn := 14400 }
    tokenBody := emptyAccessBody }

/-- Go `StartAutoSyncMonitor`, as far as the poll loop goes: the pending poll timer is
stopped and replaced by one due in five seconds, and the stored backoff is reset.  The daily
cleanup it also starts runs in a goroutine and on a timer of its own and is not
modelled. -/
def StartAutoSyncMonitor (w : World) : World :=
  { w with currentBackoff := initialBackoff, syncTimer := some (w.now + 5 * second) }

/-- States of the stored backoff after the monitor was started: since then any number of
`calculateNextBackoff` calls, of success resets, of whole poll iterations, and of steps of
the rest of the program, which never writes the stored backoff. -/
inductive BackoffReachable : World → Prop where
  | start (w : World) : BackoffReachable (StartAutoSyncMonitor w)
  | rateLimit (w : World) (hw : BackoffReachable w) :
      BackoffReachable (calculateNextBackoff true w).2
  | failure (w : World) (hw : BackoffReachable w) :
      BackoffReachable (calculateNextBackoff false w).2
  | success (w : World) (hw : BackoffReachable w) :
      BackoffReachable { w with currentBackoff := initialBackoff }
  | poll (X : Externals) (w : World) (hw : BackoffReachable w) :
      BackoffReachable (checkForChanges X w)
  | other (w w1 : World) (hw : BackoffReachable w)
      (hsame : w1.currentBackoff = w.currentBackoff) : BackoffReachable w1

/-! ## The data layer and the service operations on food items -/

/-- Go struct `data.PersistentFoodItem`; the float64 fields hold rationals, the times
nanoseconds since the Unix epoch. -/
structure PersistentFoodItem where
  Barcode : String
  Name : String
  CaloriesPer100g : Rat
  ProteinPer100g : Rat
  CarbsPer100g : Rat
  FatPer100g : Rat
  ServingQuantity : Rat
  ServingQuantityUnit : String
  CreatedAt : Int
  LastUpdated : Int
deriving DecidableEq

/-- A Go `interface{}` value of an update map: a string, a float64, or a value of another
dynamic type. -/
inductive Value where
  | text (s : String)
  | number (x : Rat)
  | other
deriving DecidableEq

/-- The statements the data layer gives to `db.Exec`, by what they do and with their
arguments; the SQL text is not modelled. -/
inductive Statement where
  | updateFoodItem (columns : List (String × Value)) (lastUpdated : Int) (barcode : String)
  | deleteFoodItem (barcode : String)
deriving DecidableEq

/-- The product fields `GetProductData` reads from an OpenFoodFacts response, numbers after
its `parseFloat`. -/
structure OffProduct where
  ProductName : String
  EnergyKcal100g : Rat
  EnergyKj100g : Rat
  Proteins100g : Rat
  Carbohydrates100g : Rat
  Fat100g : Rat
  ServingQuantity : Rat
  ServingQuantityUnit : String
deriving DecidableEq

/-- What `http.Get` on the OpenFoodFacts product address yields: an error, a body that
cannot be decoded, or a decoded response (`success`: its status is `"success"` or `1`). -/
inductive ProductReply where
  | unreachable
  | undecodable (msg : String)
  | decoded (success : Bool) (product : OffProduct)
deriving DecidableEq

/-- Primitives of the platform behind the data layer and the validators, not part of the
repository: the SQL driver (the database file after a statement, with the number of rows
affected, and the rows of the food item query), the OpenFoodFacts service, and the parsers
of `time` and `uuid`. -/
structure Platform where
  exec : Statement → Bytes → Bytes × Int
  foodItems : Bytes → List PersistentFoodItem
  product : String → ProductReply
  validDate : String → Bool
  validTime : String → Bool
  validUUID : String → Bool

/-- Go `ValidateBarcode`. -/
def ValidateBarcode (barcode : String) : Option String :=
  if barcode = "" then some "barcode is required" else none

/-- Go `ValidateServingQuantity`. -/
def ValidateServingQuantity (servingQuantity : Rat) : Option String :=
  if servingQuantity < 0 then some "serving quantity cannot be negative" else none

/-- Go `ValidateServingQuantityUnit`. -/
def ValidateServingQuantityUnit (servingQuantityUnit : String) : Option String :=
  if servingQuantityUnit = "g" ∨ servingQuantityUnit = "ml" then none
  else some "serving quantity unit must be either 'g' or 'ml'"

/-- Go `ValidateConsumedQuantity`. -/
def ValidateConsumedQuantity (consumedQuantity : Rat) : Option String :=
  if consumedQuantity ≤ 0 then some "consumed quantity must be positive" else none

/-- Go `ValidateDate`. -/
def ValidateDate (P : Platform) (date : String) : Option String :=
  if P.validDate date then none else some "invalid date format: use YYYY-MM-DD"

/-- Go `ValidateTime`. -/
def ValidateTime (P : Platform) (timeStr : String) : Option String :=
  if P.validTime timeStr then none else some "invalid time format: use HH:MM:SS"

/-- Go `ValidateUUID`. -/
def ValidateUUID (P : Platform) (id : String) : Option String :=
  if P.validUUID id then none else some "invalid UUID format"

/-- Go `ValidateName`: a placeholder without any check. -/
def ValidateName (_name : String) : Option String :=
  none

/-- Go `ValidateNutrientValue`. -/
def ValidateNutrientValue (value : Rat) (fieldName : String) : Option String :=
  if value < 0 then some (fieldName ++ " cannot be negative") else none

/-- Go `ValidateField`. -/
def ValidateField (P : Platform) (fieldName : String) (value : Value) : Option String :=
  if fieldName = "name" then
    match value with
    | Value.text s => ValidateName s
    | _ => some "invalid type for name: expected string"
  else if fieldName = "energy-kcal_100g" ∨ fieldName = "proteins_100g" ∨
      fieldName = "carbohydrates_100g" ∨ fieldName = "fat_100g" then
    match value with
    | Value.number x => ValidateNutrientValue x fieldName
    | _ => some ("invalid type for " ++ fieldName ++ ": expected float64")
  else if fieldName = "serving_quantity" then
    match value with
    | Value.number x => ValidateServingQuantity x
    | _ => some "invalid type for serving_quantity: expected float64"
  else if fieldName = "serving_quantity_unit" then
    match value with
    | Value.text s => ValidateServingQuantityUnit s
    | _ => some "invalid type for serving_quantity_unit: expected string"
  else if fieldName = "consumed_quantity" then
    match value with
    | Value.number x => ValidateConsumedQuantity x
    | _ => some "invalid type for consumed_quantity: expected float64"
  else if fieldName = "date" then
    match value with
    | Value.text s => ValidateDate P s
    | _ => some "invalid type for date: expected string"
  else if fieldName = "time" then
    match value with
    | Value.text s => ValidateTime P s
    | _ => some "invalid type for time: expected string"
  else if fieldName = "profile_id" then
    match value with
    | Value.text s => ValidateUUID P s
    | _ => some "invalid type for profile_id: expected string"
  else some ("unknown field: " ++ fieldName)

/-- Go `ModifyPersistentFoodItem`. -/
def ModifyPersistentFoodItem (item : PersistentFoodItem) : PersistentFoodItem :=
  { item with
    Name := if item.Name = "" then "No product name" else item.Name
    ServingQuantity := if item.ServingQuantity = 0 then 100 else item.ServingQuantity
    ServingQuantityUnit := if item.ServingQuantityUnit = "" then "g"
      else item.ServingQuantityUnit }

/-- Go `math.Round`: to the nearest integer, halves away from zero. -/
def mathRound (x : Rat) : Rat :=
  if 0 ≤ x then ((x + 1 / 2).floor : Rat) else -(((-x + 1 / 2).floor : Int) : Rat)

/-- Go `GetProductData`; the conversion from kJ is computed over the rationals. -/
def GetProductData (P : Platform) (barcode : String) : Except String PersistentFoodItem :=
  match ValidateBarcode barcode with
  | some e => Except.error e
  | none =>
    match P.product barcode with
    | ProductReply.unreachable =>
      Except.ok { Barcode := barcode, Name := barcode, CaloriesPer100g := 0,
                  ProteinPer100g := 0, CarbsPer100g := 0, FatPer100g := 0,
                  ServingQuantity := 100, ServingQuantityUnit := "g",
                  CreatedAt := 0, LastUpdated := 0 }
    | ProductReply.undecodable msg =>
      Except.error ("failed to parse OpenFoodFacts response: " ++ msg)
    | ProductReply.decoded success product =>
      if !success then Except.error "no product found in OpenFoodFacts"
      else
        let calories :=
          if product.EnergyKcal100g = 0 then mathRound (product.EnergyKj100g * (239006 / 1000000))
          else product.EnergyKcal100g
        Except.ok { Barcode := barcode, Name := product.ProductName,
                    CaloriesPer100g := calories,
                    ProteinPer100g := product.Proteins100g,
                    CarbsPer100g := product.Carbohydrates100g,
                    FatPer100g := product.Fat100g,
                    ServingQuantity := product.ServingQuantity,
                    ServingQuantityUnit := product.ServingQuantityUnit,
                    CreatedAt := 0, LastUpdated := 0 }

/-- Go `markDatabaseAsUnsynced`: the settings store exists by the time the data layer
runs, so `GetStore` returns it. -/
def markDatabaseAsUnsynced (w : World) : World :=
  Store.MarkAsUnsynced w

/-- Go `db.Exec` on the local database file: one fallible step; when it succeeds the file
is what the driver makes of it, and the result is the number of rows affected. -/
def dbExec (P : Platform) (s : Statement) (w : World) : Except String Int × World :=
  match popFs w with
  | (FsFault.fail msg _, w1) => (Except.error msg, w1)
  | (FsFault.ok, w1) =>
    (Except.ok (P.exec s w1.localDB).2, { w1 with localDB := (P.exec s w1.localDB).1 })

/-- Go `data.GetAllFoodItems`: the query is one fallible step, reading its rows another (a
fault after fewer bytes than there are rows is a failed `rows.Scan`, a later one is
`rows.Err`). -/
def data.GetAllFoodItems (P : Platform) (w : World) :
    Except String (List PersistentFoodItem) × World :=
  match popFs w with
  | (FsFault.fail msg _, w1) => (Except.error ("failed to query food items: " ++ msg), w1)
  | (FsFault.ok, w1) =>
    match popFs w1 with
    | (FsFault.fail msg n, w2) =>
      if n < (P.foodItems w2.localDB).length then
        (Except.error ("failed to scan food item: " ++ msg), w2)
      else (Except.error ("error iterating food items: " ++ msg), w2)
    | (FsFault.ok, w2) => (Except.ok (P.foodItems w2.localDB), w2)

/-- The column names `data.UpdateFoodItem` knows. -/
def foodItemColumns : List String :=
  ["name", "energy-kcal_100g", "proteins_100g", "carbohydrates_100g", "fat_100g",
    "serving_quantity", "serving_quantity_unit"]

/-- Go `data.UpdateFoodItem`; `updateData` lists the map in the order of its iteration. -/
def data.UpdateFoodItem (P : Platform) (barcode : String)
    (updateData : List (String × Value)) (w : World) : Option String × World :=
  let args := updateData.filter fun p => decide (p.1 ∈ foodItemColumns)
  if args.length = 0 then (some "no valid fields to update", w)
  else
    match dbExec P (Statement.updateFoodItem args w.now barcode) w with
    | (Except.error e, w1) => (some ("failed to update food item: " ++ e), w1)
    | (Except.ok _, w1) =>
      (none, BroadcastMessage "food_items_updated" (markDatabaseAsUnsynced w1))

/-- Go `data.DeleteFoodItem` (`RowsAffected` of the SQLite driver does not fail). -/
def data.DeleteFoodItem (P : Platform) (barcode : String) (w : World) :
    Option String × World :=
  match dbExec P (Statement.deleteFoodItem barcode) w with
  | (Except.error e, w1) => (some ("failed to delete food item: " ++ e), w1)
  | (Except.ok rowsAffected, w1) =>
    if rowsAffected = 0 then (some ("no food item found with barcode " ++ barcode), w1)
    else (none, BroadcastMessage "food_items_updated" (markDatabaseAsUnsynced w1))

/-- Go `(*FoodService).GetAllFoodItems`. -/
def GetAllFoodItems (X : Externals) (P : Platform) (w : World) :
    Except String (List PersistentFoodItem) × World :=
  match SyncToDropbox X false w with
  | (some e, w1) => (Except.error ("failed to sync with Dropbox: " ++ e), w1)
  | (none, w1) =>
    match data.GetAllFoodItems P w1 with
    | (Except.error e, w2) => (Except.error e, w2)
    | (Except.ok foodItems, w2) => (Except.ok foodItems, w2)

/-- Go `(*FoodService).UpdateFoodItem`. -/
def UpdateFoodItem (X : Externals) (P : Platform) (barcode : String)
    (updateData : List (String × Value)) (w : World) : Option String × World :=
  match SyncToDropbox X false w with
  | (some e, w1) => (some ("failed to sync with Dropbox: " ++ e), w1)
  | (none, w1) =>
    match ValidateBarcode barcode with
    | some e => (some e, w1)
    | none =>
      match updateData.findSome? fun p => ValidateField P p.1 p.2 with
      | some e => (some e, w1)
      | none =>
        match data.UpdateFoodItem P barcode updateData w1 with
        | (some e, w2) => (some e, w2)
        | (none, w2) => (none, ScheduleDelayedUpload w2)

/-- Go `(*FoodService).DeleteFoodItem`. -/
def DeleteFoodItem (X : Externals) (P : Platform) (barcode : String) (w : World) :
    Option String × World :=
  match SyncToDropbox X false w with
  | (some e, w1) => (some ("failed to sync with Dropbox: " ++ e), w1)
  | (none, w1) =>
    match ValidateBarcode barcode with
    | some e => (some e, w1)
    | none =>
      match data.DeleteFoodItem P barcode w1 with
      | (some e, w2) => (some e, w2)
      | (none, w2) => (none, ScheduleDelayedUpload w2)

/-- Go `(*FoodService).ResetFoodItem`. -/
def ResetFoodItem (X : Externals) (P : Platform) (barcode : String) (w : World) :
    Option String × World :=
  match SyncToDropbox X false w with
  | (some e, w1) => (some ("failed to sync with Dropbox: " ++ e), w1)
  | (none, w1) =>
    match ValidateBarcode barcode with
    | some e => (some e, w1)
    | none =>
      match GetProductData P barcode with
      | Except.error e => (some e, w1)
      | Except.ok fetched =>
        let newFoodData := ModifyPersistentFoodItem fetched
        let updateData : List (String × Value) :=
          [("name", Value.text newFoodData.Name),
            ("energy-kcal_100g", Value.number newFoodData.CaloriesPer100g),
            ("proteins_100g", Value.number newFoodData.ProteinPer100g),
            ("carbohydrates_100g", Value.number newFoodData.CarbsPer100g),
            ("fat_100g", Value.number newFoodData.FatPer100g),
            ("serving_quantity", Value.number newFoodData.ServingQuantity),
            ("serving_quantity_unit", Value.text newFoodData.ServingQuantityUnit)]
        match data.UpdateFoodItem P barcode updateData w1 with
        | (some e, w2) => (some e, w2)
        | (none, w2) => (none, w2)

/-- A food item of the local store. -/
def sampleItem : PersistentFoodItem :=
  { Barcode := "4001", Name := "Oat flakes", CaloriesPer100g := 370, ProteinPer100g := 13,
    CarbsPer100g := 59, FatPer100g := 7, ServingQuantity := 40, ServingQuantityUnit := "g",
    CreatedAt := 0, LastUpdated := 0 }

/-- A platform whose database holds `sampleItem`, whose statements each affect one row and
append a byte to the file, and whose OpenFoodFacts knows every product. -/
def samplePlatform : Platform :=
  { exec := fun _ b => (b ++ [9], 1)
    foodItems := fun _ => [sampleItem]
    product := fun _ => ProductReply.decoded true
      { ProductName := "Oat flakes", EnergyKcal100g := 372, EnergyKj100g := 1556,
        Proteins100g := 13, Carbohydrates100g := 59, Fat100g := 7, ServingQuantity := 40,
        ServingQuantityUnit := "g" }
    validDate := fun _ => true
    validTime := fun _ => true
    validUUID := fun _ => true }

/-- A synced install with auto-sync enabled whose remote file is the one the ledger
knows, so that a sync has nothing to do; no upload timer is pending. -/
def syncedWorld : World :=
  syncingWorld "010203" true (some (sampleRemote "010203" [1, 2, 3]))

/-- The poll iteration fails with the error `e`: `e` is the error of the credentials, of
the remote check or of the download, the one `checkForChanges` tests for a rate limit. -/
def PollError (X : Externals) (w : World) (e : String) : Prop :=
  (∃ w1, GetValidTokens w = (Except.error e, w1)) ∨
  (∃ tokens w1 w2, GetValidTokens w = (Except.ok tokens, w1) ∧
    checkRemoteChanged tokens w1 = (Except.error e, w2)) ∨
  (∃ tokens w1 w2 w3, GetValidTokens w = (Except.ok tokens, w1) ∧
    checkRemoteChanged tokens w1 = (Except.ok true, w2) ∧
    DownloadDatabase X w2 = (Except.error e, w3))

/-- The world `w` with the ledger replaced by `(stored, synced)`. -/
def withLedger (stored : String) (synced : Bool) (w : World) : World :=
  { w with store := { w.store with
      settings := { w.store.settings with StoredHash := stored, Synced := synced } } }

/-- The part of `DownloadDatabase` after `hashComparison` has returned, from the test
`remoteHash == ""` on. -/
def downloadAfterComparison (tokens : DropboxTokens) (needsDownload : Bool)
    (remoteHash : String) (w2 : World) : Except String OperationResult × World :=
  if remoteHash = "" then (Except.ok { Success := false, Status := "notFound" }, w2)
  else if !needsDownload then
    match Store.SaveToFile (Store.MarkAsSynced remoteHash w2) with
    | (some e, w3) => (Except.error ("error saving settings: " ++ e), w3)
    | (none, w3) => (Except.ok { Success := true, Status := "upToDate" }, w3)
  else
    match popNet (send (Request.download tokens.AccessToken ("/" ++ dbFileName)) w2) with
    | (NetFault.transport msg, w3) =>
      (Except.error ("error making request: " ++ msg), w3)
    | (NetFault.status code body, w3) =>
      if code ≠ 200 then
        (Except.error ("download failed with status " ++ toString code ++ ": "
          ++ bodyText body), w3)
      else installDownload remoteHash body w3
    | (NetFault.served, w3) =>
      match w3.remote with
      | none =>
        (Except.error ("download failed with status 409: path/not_found/"), w3)
      | some f => installDownload remoteHash f.content w3

/-- A first device that has never synced, against a remote file `[7, 7]` with its true
content hash `0707`; the metadata request is served from that state, and the download
request is answered with `[9, 9]`, the bytes a second device has uploaded in between. -/
def raceWorld : World :=
  { syncingWorld "abc" false (some (sampleRemote "0707" [7, 7])) with
    netFaults := [NetFault.served, NetFault.status 200 [9, 9]] }

/-- The world of the first device when `hashComparison` has returned in a call of
`DownloadDatabase` against the remote file `[7, 7]`. -/
def comparedWorld : World :=
  (hashComparison sampleExternals sampleTokens ("/" ++ dbFileName)
    (GetValidTokens
      { syncingWorld "abc" false (some (sampleRemote "0707" [7, 7])) with
        calls := [Call.DownloadDatabase] }).2).2

/-- The world `comparedWorld` after a second device has replaced the remote file by
`[9, 9]`, for which the remote store reports the true content hash `0909`. -/
def overtakenWorld : World :=
  { comparedWorld with remote := some (sampleRemote "0909" [9, 9]) }

/-! ## Frame lemmas: steps that leave the ledger, the files and the bus alone -/

theorem Quiet.refl (w : World) : Quiet w w := by
  constructor <;> rfl

theorem Quiet.trans {a b c : World} (h1 : Quiet a b) (h2 : Quiet b c) : Quiet a c := by
  constructor
  · exact h2.store.trans h1.store
  · exact h2.settingsFile.trans h1.settingsFile
  · exact h2.localDB.trans h1.localDB
  · exact h2.remote.trans h1.remote
  · exact h2.tokenEndpoint.trans h1.tokenEndpoint
  · exact h2.now.trans h1.now
  · exact h2.jitterDraws.trans h1.jitterDraws
  · exact h2.bus.trans h1.bus
  · exact h2.calls.trans h1.calls
  · exact h2.currentBackoff.trans h1.currentBackoff
  · exact h2.uploadTimer.trans h1.uploadTimer
  · exact h2.syncTimer.trans h1.syncTimer
  · exact h2.syncedSnapshot.trans h1.syncedSnapshot
  · exact h2.transfers.trans h1.transfers
  · exact h2.netSuffix.trans h1.netSuffix
  · exact h2.tokenBody.trans h1.tokenBody
  · exact h2.decoder.trans h1.decoder

theorem Quiet.setVault {w w1 : World} (h : Quiet w w1) (v : Option DropboxTokens) :
    Quiet w { w1 with vault := v } :=
  ⟨h.store, h.settingsFile, h.localDB, h.remote, h.tokenEndpoint, h.now, h.jitterDraws,
    h.bus, h.calls, h.currentBackoff, h.uploadTimer, h.syncTimer, h.syncedSnapshot,
    h.transfers, h.netSuffix, h.tokenBody, h.decoder⟩

theorem popFs_quiet {w w1 : World} {f : FsFault} (h : popFs w = (f, w1)) : Quiet w w1 := by
  unfold popFs at h
  split at h <;> cases h <;> constructor <;> rfl

theorem popNet_quiet {w w1 : World} {f : NetFault} (h : popNet w = (f, w1)) : Quiet w w1 := by
  unfold popNet at h
  split at h <;> cases h
  · exact Quiet.refl w
  · rename_i heq
    constructor <;> first | rfl | (rw [heq]; exact List.suffix_cons _ _)

theorem send_quiet (r : Request) (w : World) (h : r.isTransfer = false) :
    Quiet w (send r w) := by
  constructor <;> first | rfl | simp [send, transfersSent, List.filter_append, h]

theorem LoadTokens_quiet {w w1 : World} {r : Except String (Option DropboxTokens)}
    (h : LoadTokens w = (r, w1)) : Quiet w w1 := by
  unfold LoadTokens at h
  split at h
  · cases h
    exact Quiet.refl w
  · split at h <;> cases h <;> exact popFs_quiet (by assumption)

theorem SaveTokens_quiet {t : DropboxTokens} {w w1 : World} {r : Option String}
    (h : SaveTokens t w = (r, w1)) : Quiet w w1 := by
  unfold SaveTokens at h
  split at h <;> cases h
  · exact popFs_quiet (by assumption)
  · exact (popFs_quiet (by assumption)).setVault _

theorem refreshAccessToken_quiet {rt : String} {w w1 : World} {r : Except String TokenResponse}
    (h : refreshAccessToken rt w = (r, w1)) : Quiet w w1 := by
  unfold refreshAccessToken at h
  have hs := send_quiet (Request.refreshToken rt) w rfl
  split at h
  · cases h
    exact hs.trans (popNet_quiet (by assumption))
  · split at h <;> cases h <;> exact hs.trans (popNet_quiet (by assumption))
  · cases h
    exact hs.trans (popNet_quiet (by assumption))

theorem ensureValidToken_quiet {t : Option DropboxTokens} {w w1 : World}
    {r : Except String DropboxTokens} (h : ensureValidToken t w = (r, w1)) : Quiet w w1 := by
  unfold ensureValidToken at h
  split at h
  · cases h
    exact Quiet.refl w
  · split at h
    · cases h
      exact Quiet.refl w
    · split at h
      · cases h
        exact Quiet.refl w
      · split at h
        · cases h
          exact Quiet.refl w
        · split at h
          · cases h
            exact refreshAccessToken_quiet (by assumption)
          · simp only [] at h
            split at h <;> cases h <;>
              exact (refreshAccessToken_quiet (by assumption)).trans
                (SaveTokens_quiet (by assumption))

theorem GetValidTokens_quiet {w w1 : World} {r : Except String DropboxTokens}
    (h : GetValidTokens w = (r, w1)) : Quiet w w1 := by
  unfold GetValidTokens at h
  split at h
  · cases h
    exact LoadTokens_quiet (by assumption)
  · split at h <;> cases h <;>
      exact (LoadTokens_quiet (by assumption)).trans (ensureValidToken_quiet (by assumption))

theorem getRemoteFileMetadata_quiet {t : DropboxTokens} {path : String} {w w1 : World}
    {r : Except String (Option DropboxMetadata)}
    (h : getRemoteFileMetadata t path w = (r, w1)) : Quiet w w1 := by
  unfold getRemoteFileMetadata at h
  have hs := send_quiet (Request.getMetadata t.AccessToken path) w rfl
  split at h
  · cases h
    exact hs.trans (popNet_quiet (by assumption))
  · split at h
    · split at h <;> cases h <;> exact hs.trans (popNet_quiet (by assumption))
    · split at h <;> cases h <;> exact hs.trans (popNet_quiet (by assumption))
  · split at h <;> cases h <;> exact hs.trans (popNet_quiet (by assumption))

theorem calculateDropboxHash_quiet {X : Externals} {w w1 : World} {r : Except String String}
    (h : calculateDropboxHash X w = (r, w1)) : Quiet w w1 := by
  unfold calculateDropboxHash at h
  split at h
  · cases h
    exact popFs_quiet (by assumption)
  · split at h <;> cases h <;>
      exact (popFs_quiet (by assumption : popFs w = _)).trans (popFs_quiet (by assumption))

theorem hashComparison_quiet {X : Externals} {t : DropboxTokens} {path : String}
    {w w1 : World} {r : Except String (Bool × String × String)}
    (h : hashComparison X t path w = (r, w1)) : Quiet w w1 := by
  unfold hashComparison at h
  split at h
  · cases h
    exact calculateDropboxHash_quiet (by assumption)
  · split at h <;> cases h <;>
      exact (calculateDropboxHash_quiet (by assumption)).trans
        (getRemoteFileMetadata_quiet (by assumption))

/-! ## What the steps return -/

theorem Quiet.exists_eq {w w1 : World} (h : Quiet w w1) :
    ∃ v fs nf hs, w1 = { w with vault := v, fsFaults := fs, netFaults := nf, http := hs } ∧
      hs.filter Request.isTransfer = w.http.filter Request.isTransfer := by
  refine ⟨w1.vault, w1.fsFaults, w1.netFaults, w1.http, ?_, h.transfers⟩
  obtain ⟨a1, a2, a3, a4, a5, a6, a7, a8, a9, a10, a11, a12, a13, _, _, a14, a15⟩ := h
  cases w1
  cases w
  simp_all

theorem popFs_snd {w w1 : World} {f : FsFault} (h : popFs w = (f, w1)) :
    w1 = { w with fsFaults := w.fsFaults.tail } := by
  unfold popFs at h
  split at h <;> cases h <;> cases w <;> simp_all

theorem popNet_snd {w w1 : World} {f : NetFault} (h : popNet w = (f, w1)) :
    w1 = { w with netFaults := w.netFaults.tail } := by
  unfold popNet at h
  split at h <;> cases h <;> cases w <;> simp_all

theorem popNet_fst {w w1 : World} {f : NetFault} (h : popNet w = (f, w1)) :
    w.netFaults.head? = some f ∨ (w.netFaults = [] ∧ f = NetFault.served) := by
  unfold popNet at h
  split at h <;> cases h <;> simp_all

theorem saveToFile_snd {w w1 : World} {r : Option String} (h : saveToFile w = (r, w1)) :
    ∃ d sf fs, w1 = { w with store := { settings := w.store.settings, dirty := d },
                             settingsFile := sf, fsFaults := fs } := by
  unfold saveToFile at h
  split at h
  · cases h
    exact ⟨w.store.dirty, w.settingsFile, w.fsFaults, rfl⟩
  · split at h <;> cases h <;> (rename_i hp; cases popFs_snd hp)
    · exact ⟨w.store.dirty, w.settingsFile, _, rfl⟩
    · exact ⟨false, _, _, rfl⟩

theorem saveToFile_snd2 (w : World) :
    ∃ d sf fs, (saveToFile w).2 = { w with store := { settings := w.store.settings, dirty := d },
                                           settingsFile := sf, fsFaults := fs } :=
  saveToFile_snd Prod.mk.eta.symm

theorem MarkAsSynced_snd (hash : String) (w : World) :
    ∃ d sf fs, Store.MarkAsSynced hash w =
      { w with
        store := { settings := { w.store.settings with Synced := true, StoredHash := hash },
                   dirty := d },
        settingsFile := sf, fsFaults := fs, syncedSnapshot := some w.localDB } := by
  unfold Store.MarkAsSynced
  exact saveToFile_snd2 _

theorem markSave {hash : String} {w w1 : World} {r : Option String}
    (h : Store.SaveToFile (Store.MarkAsSynced hash w) = (r, w1)) : Marked hash w w1 := by
  unfold Store.SaveToFile at h
  obtain ⟨d0, sf0, fs0, h0⟩ := MarkAsSynced_snd hash w
  rw [h0] at h
  obtain ⟨d1, sf1, fs1, h1⟩ := saveToFile_snd h
  subst h1
  constructor <;> rfl

theorem getRemoteFileMetadata_ok {t : DropboxTokens} {path : String} {w w1 : World}
    {m : Option DropboxMetadata} (h : getRemoteFileMetadata t path w = (Except.ok m, w1)) :
    m = w.remote.map fun f => f.metadata := by
  unfold getRemoteFileMetadata at h
  split at h
  · cases h
  · split at h
    · split at h <;> cases h
    · split at h <;> cases h
  · rename_i hp
    cases popNet_snd hp
    split at h <;> cases h <;> simp_all [send]

theorem calculateDropboxHash_ok {X : Externals} {w w1 : World} {lh : String}
    (h : calculateDropboxHash X w = (Except.ok lh, w1)) : lh = dropboxHash X w.localDB := by
  unfold calculateDropboxHash at h
  split at h
  · cases h
  · rename_i hp
    cases popFs_snd hp
    split at h <;> cases h
    rename_i hp2
    cases popFs_snd hp2
    rfl

theorem hashComparison_ok {X : Externals} {t : DropboxTokens} {path : String} {w w1 : World}
    {needs : Bool} {lh rh : String}
    (h : hashComparison X t path w = (Except.ok (needs, lh, rh), w1)) :
    lh = dropboxHash X w.localDB ∧
    ((w.remote = none ∧ needs = true ∧ rh = "") ∨
      ∃ f, w.remote = some f ∧ rh = f.metadata.ContentHash ∧
        needs = (f.metadata.ContentHash != dropboxHash X w.localDB)) := by
  unfold hashComparison at h
  split at h
  · cases h
  · rename_i lh0 w0 hc
    have hl := calculateDropboxHash_ok hc
    have hq := calculateDropboxHash_quiet hc
    split at h
    · cases h
    · rename_i hm
      cases h
      have hmd := getRemoteFileMetadata_ok hm
      rw [hq.remote] at hmd
      refine ⟨hl, Or.inl ⟨?_, rfl, rfl⟩⟩
      cases hr : w.remote with
      | none => rfl
      | some f =>
        rw [hr] at hmd
        simp at hmd
    · rename_i md w2 hm
      cases h
      have hmd := getRemoteFileMetadata_ok hm
      rw [hq.remote] at hmd
      cases hr : w.remote with
      | none =>
        rw [hr] at hmd
        simp at hmd
      | some f =>
        rw [hr] at hmd
        simp only [Option.map_some', Option.some.injEq] at hmd
        subst hmd
        exact ⟨hl, Or.inr ⟨f, rfl, rfl, by rw [hl]⟩⟩

/-- Every way `UploadDatabase` can run. -/
theorem UploadDatabase_cases {X : Externals} {w w1 : World} {r : Except String OperationResult}
    (h : UploadDatabase X w = (r, w1)) :
    ∃ wq, Quiet { w with calls := w.calls ++ [Call.UploadDatabase] } wq ∧
      ((∃ e, r = Except.error e ∧ w1 = wq) ∨
       ((¬ ∃ f, w.remote = some f ∧ f.metadata.ContentHash = dropboxHash X w.localDB) ∧
          ∃ e tok, r = Except.error e ∧
          w1 = { wq with http := wq.http ++ [Request.upload tok ("/" ++ dbFileName)
                            "overwrite" w.localDB],
                         netFaults := wq.netFaults.tail }) ∨
       ((∃ f, w.remote = some f ∧ f.metadata.ContentHash = dropboxHash X w.localDB) ∧
          Marked (dropboxHash X w.localDB) wq w1 ∧
          (r = Except.ok { Success := true, Status := "upToDate" } ∨
            ∃ e, r = Except.error ("error saving settings: " ++ e))) ∨
       ((¬ ∃ f, w.remote = some f ∧ f.metadata.ContentHash = dropboxHash X w.localDB) ∧
          (∃ tok rem,
            Marked (dropboxHash X w.localDB)
              { wq with http := wq.http ++ [Request.upload tok ("/" ++ dbFileName)
                                  "overwrite" w.localDB],
                        netFaults := wq.netFaults.tail, remote := rem } w1 ∧
            (rem = some { content := w.localDB, metadata := X.stored w.localDB } ∨
              (rem = w.remote ∧ ∃ body, wq.netFaults.head? = some (NetFault.status 200 body)))) ∧
          (r = Except.ok { Success := true, Status := "uploaded" } ∨
            ∃ e, r = Except.error ("error saving settings: " ++ e)))) := by
  unfold UploadDatabase at h
  simp only [] at h
  split at h
  · rename_i ht
    cases h
    exact ⟨_, GetValidTokens_quiet ht, Or.inl ⟨_, rfl, rfl⟩⟩
  · rename_i tok wa ht
    have q1 := GetValidTokens_quiet ht
    split at h
    · rename_i hc
      cases h
      exact ⟨_, q1.trans (hashComparison_quiet hc), Or.inl ⟨_, rfl, rfl⟩⟩
    · rename_i needs lh rh wb hc
      have q2 := q1.trans (hashComparison_quiet hc)
      obtain ⟨hl, hrem⟩ := hashComparison_ok hc
      rw [q1.localDB] at hl hrem
      rw [q1.remote] at hrem
      simp only [] at hl hrem
      subst hl
      split at h
      · rename_i hn
        have hex : ∃ f, w.remote = some f ∧
            f.metadata.ContentHash = dropboxHash X w.localDB := by
          rcases hrem with ⟨_, hn2, _⟩ | ⟨f, hf, _, hn2⟩
          · simp [hn2] at hn
          · exact ⟨f, hf, by simpa [hn2] using hn⟩
        split at h
        · rename_i hs
          cases h
          exact ⟨_, q2, Or.inr (Or.inr (Or.inl ⟨hex, markSave hs, Or.inr ⟨_, rfl⟩⟩))⟩
        · rename_i hs
          cases h
          exact ⟨_, q2, Or.inr (Or.inr (Or.inl ⟨hex, markSave hs, Or.inl rfl⟩))⟩
      · rename_i hn
        have hnex : ¬ ∃ f, w.remote = some f ∧
            f.metadata.ContentHash = dropboxHash X w.localDB := by
          rintro ⟨f, hf, hh⟩
          rcases hrem with ⟨hnone, _, _⟩ | ⟨g, hg, _, hn2⟩
          · simp [hnone] at hf
          · rw [hf] at hg
            cases hg
            simp [hn2, hh] at hn
        split at h
        · rename_i hp
          cases h
          exact ⟨_, q2.trans (popFs_quiet hp), Or.inl ⟨_, rfl, rfl⟩⟩
        · rename_i wc hp
          have q3 := q2.trans (popFs_quiet hp)
          have hldb : wc.localDB = w.localDB := q3.localDB
          rw [hldb] at h
          split at h
          · rename_i hn
            cases h
            cases popNet_snd hn
            exact ⟨_, q3, Or.inr (Or.inl ⟨hnex, _, tok.AccessToken, rfl, rfl⟩)⟩
          · rename_i code body wd hn
            cases popNet_snd hn
            split at h
            · cases h
              exact ⟨_, q3, Or.inr (Or.inl ⟨hnex, _, tok.AccessToken, rfl, rfl⟩)⟩
            · rename_i hcode
              have hcode2 : code = 200 := by simpa using hcode
              subst hcode2
              have hhead : wc.netFaults.head? = some (NetFault.status 200 body) := by
                rcases popNet_fst hn with h1 | ⟨_, h2⟩
                · simpa [send] using h1
                · cases h2
              split at h
              · rename_i hs
                cases h
                exact ⟨_, q3, Or.inr (Or.inr (Or.inr ⟨hnex, ⟨tok.AccessToken, _, markSave hs,
                  Or.inr ⟨q3.remote, body, hhead⟩⟩, Or.inr ⟨_, rfl⟩⟩))⟩
              · rename_i hs
                cases h
                exact ⟨_, q3, Or.inr (Or.inr (Or.inr ⟨hnex, ⟨tok.AccessToken, _, markSave hs,
                  Or.inr ⟨q3.remote, body, hhead⟩⟩, Or.inl rfl⟩))⟩
          · rename_i wd hn
            cases popNet_snd hn
            simp only [] at h
            split at h
            · rename_i hs
              cases h
              exact ⟨_, q3, Or.inr (Or.inr (Or.inr ⟨hnex, ⟨tok.AccessToken, _, markSave hs,
                Or.inl (by rw [← hldb]; rfl)⟩, Or.inr ⟨_, rfl⟩⟩))⟩
            · rename_i hs
              cases h
              exact ⟨_, q3, Or.inr (Or.inr (Or.inr ⟨hnex, ⟨tok.AccessToken, _, markSave hs,
                Or.inl (by rw [← hldb]; rfl)⟩, Or.inl rfl⟩))⟩

theorem popFs_snd_ex {w w1 : World} {f : FsFault} (h : popFs w = (f, w1)) :
    ∃ fs, w1 = { w with fsFaults := fs } :=
  ⟨_, popFs_snd h⟩

/-- Every way the installation of a downloaded body can run. -/
theorem installDownload_cases {rh : String} {body : Bytes} {w w1 : World}
    {r : Except String OperationResult} (h : installDownload rh body w = (r, w1)) :
    (∃ e fs, r = Except.error e ∧ w1 = { w with fsFaults := fs }) ∨
    (∃ e fs n, r = Except.error e ∧ w1 = { w with fsFaults := fs, localDB := body.take n }) ∨
    (∃ fs wm, Marked rh { w with fsFaults := fs, localDB := body } wm ∧
      ((∃ e, r = Except.error ("error saving settings: " ++ e) ∧ w1 = wm) ∨
       (r = Except.ok { Success := true, Status := "downloaded" } ∧
        w1 = { wm with bus := wm.bus ++ ["REMOTE_FILE_UPDATED", "consumed_food_items_updated",
                                        "food_items_updated"] }))) := by
  unfold installDownload at h
  split at h
  · rename_i h1
    obtain ⟨fs1, rfl⟩ := popFs_snd_ex h1
    cases h
    exact Or.inl ⟨_, _, rfl, rfl⟩
  · rename_i h1
    obtain ⟨fs1, rfl⟩ := popFs_snd_ex h1
    clear h1
    split at h
    · rename_i h2
      obtain ⟨fs2, rfl⟩ := popFs_snd_ex h2
      cases h
      exact Or.inl ⟨_, _, rfl, rfl⟩
    · rename_i h2
      obtain ⟨fs2, rfl⟩ := popFs_snd_ex h2
      clear h2
      dsimp only at h
      split at h
      · rename_i h3
        obtain ⟨fs3, rfl⟩ := popFs_snd_ex h3
        cases h
        exact Or.inl ⟨_, _, rfl, rfl⟩
      · rename_i h3
        obtain ⟨fs3, rfl⟩ := popFs_snd_ex h3
        clear h3
        dsimp only at h
        split at h
        · rename_i h4
          obtain ⟨fs4, rfl⟩ := popFs_snd_ex h4
          cases h
          exact Or.inl ⟨_, _, rfl, rfl⟩
        · rename_i h4
          obtain ⟨fs4, rfl⟩ := popFs_snd_ex h4
          clear h4
          dsimp only at h
          split at h
          · rename_i h5
            obtain ⟨fs5, rfl⟩ := popFs_snd_ex h5
            cases h
            exact Or.inr (Or.inl ⟨_, _, _, rfl, rfl⟩)
          · rename_i h5
            obtain ⟨fs5, rfl⟩ := popFs_snd_ex h5
            clear h5
            dsimp only at h
            split at h
            · rename_i h6
              obtain ⟨fs6, rfl⟩ := popFs_snd_ex h6
              cases h
              exact Or.inr (Or.inl ⟨_, _, body.length, rfl, by rw [List.take_length]⟩)
            · rename_i h6
              obtain ⟨fs6, rfl⟩ := popFs_snd_ex h6
              clear h6
              dsimp only at h
              split at h
              · rename_i hs
                cases h
                exact Or.inr (Or.inr ⟨fs6, _, markSave hs, Or.inl ⟨_, rfl, rfl⟩⟩)
              · rename_i hs
                cases h
                exact Or.inr (Or.inr ⟨fs6, _, markSave hs, Or.inr ⟨rfl, by
                  simp [BroadcastMessage]⟩⟩)

/-- Every way `DownloadDatabase` can run. -/
theorem DownloadDatabase_cases {X : Externals} {w w1 : World}
    {r : Except String OperationResult} (h : DownloadDatabase X w = (r, w1)) :
    ∃ wq, Quiet { w with calls := w.calls ++ [Call.DownloadDatabase] } wq ∧
      ((∃ e, r = Except.error e ∧ w1 = wq) ∨
       (r = Except.ok { Success := false, Status := "notFound" } ∧ w1 = wq ∧
          ∀ f, w.remote = some f → f.metadata.ContentHash = "") ∨
       (∃ f, w.remote = some f ∧ f.metadata.ContentHash ≠ "" ∧
          f.metadata.ContentHash = dropboxHash X w.localDB ∧
          Marked f.metadata.ContentHash wq w1 ∧
          (r = Except.ok { Success := true, Status := "upToDate" } ∨
            ∃ e, r = Except.error ("error saving settings: " ++ e))) ∨
       (∃ f tok, w.remote = some f ∧ f.metadata.ContentHash ≠ "" ∧
          f.metadata.ContentHash ≠ dropboxHash X w.localDB ∧
          ((∃ e, r = Except.error e ∧
              w1 = { wq with http := wq.http ++ [Request.download tok ("/" ++ dbFileName)],
                             netFaults := wq.netFaults.tail }) ∨
           (∃ body,
              installDownload f.metadata.ContentHash body
                { wq with http := wq.http ++ [Request.download tok ("/" ++ dbFileName)],
                          netFaults := wq.netFaults.tail } = (r, w1) ∧
              (body = f.content ∨
                wq.netFaults.head? = some (NetFault.status 200 body)))))) := by
  unfold DownloadDatabase at h
  simp only [] at h
  split at h
  · rename_i ht
    cases h
    exact ⟨_, GetValidTokens_quiet ht, Or.inl ⟨_, rfl, rfl⟩⟩
  · rename_i tok wa ht
    have q1 := GetValidTokens_quiet ht
    split at h
    · rename_i hc
      cases h
      exact ⟨_, q1.trans (hashComparison_quiet hc), Or.inl ⟨_, rfl, rfl⟩⟩
    · rename_i needs lh rh wb hc
      have q2 := q1.trans (hashComparison_quiet hc)
      obtain ⟨hl, hrem⟩ := hashComparison_ok hc
      rw [q1.localDB] at hl hrem
      rw [q1.remote] at hrem
      simp only [] at hl hrem
      subst hl
      split at h
      · rename_i hempty
        cases h
        refine ⟨_, q2, Or.inr (Or.inl ⟨rfl, rfl, ?_⟩)⟩
        intro f hf
        rcases hrem with ⟨hnone, _, _⟩ | ⟨g, hg, hrh, _⟩
        · simp [hnone] at hf
        · rw [hf] at hg
          cases hg
          rw [← hrh]
          exact hempty
      · rename_i hne
        rcases hrem with ⟨_, _, hrh⟩ | ⟨f, hf, hrh, hneeds⟩
        · exact absurd hrh hne
        · subst hrh
          split at h
          · rename_i hn
            have heq : f.metadata.ContentHash = dropboxHash X w.localDB := by
              simpa [hneeds] using hn
            split at h
            · rename_i hs
              cases h
              exact ⟨_, q2, Or.inr (Or.inr (Or.inl ⟨f, hf, hne, heq, markSave hs,
                Or.inr ⟨_, rfl⟩⟩))⟩
            · rename_i hs
              cases h
              exact ⟨_, q2, Or.inr (Or.inr (Or.inl ⟨f, hf, hne, heq, markSave hs,
                Or.inl rfl⟩))⟩
          · rename_i hn
            have hneq : f.metadata.ContentHash ≠ dropboxHash X w.localDB := by
              simpa [hneeds] using hn
            refine ⟨_, q2, Or.inr (Or.inr (Or.inr ⟨f, tok.AccessToken, hf, hne, hneq, ?_⟩))⟩
            split at h
            · rename_i hp
              cases popNet_snd hp
              cases h
              exact Or.inl ⟨_, rfl, rfl⟩
            · rename_i code body wc hp
              cases popNet_snd hp
              split at h
              · cases h
                exact Or.inl ⟨_, rfl, rfl⟩
              · rename_i hcode
                have hcode2 : code = 200 := by simpa using hcode
                subst hcode2
                have hhead : wb.netFaults.head? = some (NetFault.status 200 body) := by
                  rcases popNet_fst hp with h1 | ⟨_, h2⟩
                  · simpa [send] using h1
                  · cases h2
                exact Or.inr ⟨body, h, Or.inr hhead⟩
            · rename_i wc hp
              cases popNet_snd hp
              have hrem2 : wb.remote = some f := by rw [q2.remote]; exact hf
              split at h
              · rename_i hnone
                have hnone2 : wb.remote = none := hnone
                rw [hrem2] at hnone2
                cases hnone2
              · rename_i g hg
                have hg2 : wb.remote = some g := hg
                rw [hrem2] at hg2
                cases hg2
                exact Or.inr ⟨f.content, h, Or.inl rfl⟩


/-! ## Which transfer primitives were entered -/

theorem errOf_snd {α : Type} (r : Except String α × World) : (errOf r).2 = r.2 := by
  unfold errOf
  split <;> rfl

theorem UploadDatabase_calls_eq {X : Externals} {w w1 : World}
    {r : Except String OperationResult} (h : UploadDatabase X w = (r, w1)) :
    w1.calls = w.calls ++ [Call.UploadDatabase] := by
  obtain ⟨wq, q, h⟩ := UploadDatabase_cases h
  rcases h with ⟨_, _, h⟩ | ⟨_, _, _, _, h⟩ | ⟨_, m, _⟩ | ⟨_, ⟨_, _, m, _⟩, _⟩
  · rw [h, q.calls]
  · rw [h]
    exact q.calls
  · rw [m.calls, q.calls]
  · rw [m.calls]
    exact q.calls

theorem UploadDatabase_calls (X : Externals) (w : World) :
    (UploadDatabase X w).2.calls = w.calls ++ [Call.UploadDatabase] :=
  UploadDatabase_calls_eq Prod.mk.eta.symm

theorem installDownload_calls {rh : String} {body : Bytes} {w w1 : World}
    {r : Except String OperationResult} (h : installDownload rh body w = (r, w1)) :
    w1.calls = w.calls := by
  rcases installDownload_cases h with ⟨_, _, _, h⟩ | ⟨_, _, _, _, h⟩ | ⟨_, wm, m, h⟩
  · rw [h]
  · rw [h]
  · rcases h with ⟨_, _, h⟩ | ⟨_, h⟩
    · rw [h, m.calls]
    · rw [h]
      exact m.calls

theorem DownloadDatabase_calls_eq {X : Externals} {w w1 : World}
    {r : Except String OperationResult} (h : DownloadDatabase X w = (r, w1)) :
    w1.calls = w.calls ++ [Call.DownloadDatabase] := by
  obtain ⟨wq, q, h⟩ := DownloadDatabase_cases h
  rcases h with ⟨_, _, h⟩ | ⟨_, h, _⟩ | ⟨_, _, _, _, m, _⟩ | ⟨_, _, _, _, _, h⟩
  · rw [h, q.calls]
  · rw [h, q.calls]
  · rw [m.calls, q.calls]
  · rcases h with ⟨_, _, h⟩ | ⟨_, h, _⟩
    · rw [h]
      exact q.calls
    · rw [installDownload_calls h]
      exact q.calls

theorem DownloadDatabase_calls (X : Externals) (w : World) :
    (DownloadDatabase X w).2.calls = w.calls ++ [Call.DownloadDatabase] :=
  DownloadDatabase_calls_eq Prod.mk.eta.symm

/-! ## The comparison of `SyncToDropbox` -/

/-- What `SyncToDropbox` does once the metadata of an existing remote file with a content
hash has been fetched. -/
theorem SyncToDropbox_reached {X : Externals} {force : Bool} {w w1 w2 : World}
    {tokens : DropboxTokens} {md : DropboxMetadata}
    (hauto : GetAutoSync w = true) (hdue : force = true ∨ shouldSync w = true)
    (htok : GetValidTokens w = (Except.ok tokens, w1))
    (hmeta : getRemoteFileMetadata tokens ("/" ++ dbFileName) w1 = (Except.ok (some md), w2))
    (hremote : md.ContentHash ≠ "") :
    SyncToDropbox X force w =
      (if w.store.settings.StoredHash = "" then errOf (DownloadDatabase X w2)
      else if w.store.settings.StoredHash = md.ContentHash then
        (if !w.store.settings.Synced then errOf (UploadDatabase X w2) else (none, w2))
      else if !w.store.settings.Synced then
        (some "remote file changed but local is not synced",
          BroadcastMessage "SHOW_SYNC_CONFLICT" w2)
      else errOf (DownloadDatabase X w2)) := by
  have q := (GetValidTokens_quiet htok).trans (getRemoteFileMetadata_quiet hmeta)
  have hdue2 : (!force && !shouldSync w) = false := by
    rcases hdue with h | h <;> simp [h]
  unfold SyncToDropbox
  simp only [hauto, hdue2, htok, hmeta, hremote, Store.Load, q.store]
  by_cases h0 : w.store.settings.StoredHash = ""
  · simp [h0]
  · by_cases he : w.store.settings.StoredHash = md.ContentHash <;> simp [h0, he]

/-- What `SyncToDropbox` does when the metadata lookup reports no remote file. -/
theorem SyncToDropbox_absent {X : Externals} {force : Bool} {w w1 w2 : World}
    {tokens : DropboxTokens}
    (hauto : GetAutoSync w = true) (hdue : force = true ∨ shouldSync w = true)
    (htok : GetValidTokens w = (Except.ok tokens, w1))
    (hmeta : getRemoteFileMetadata tokens ("/" ++ dbFileName) w1 = (Except.ok none, w2)) :
    SyncToDropbox X force w = (none, w2) := by
  have hdue2 : (!force && !shouldSync w) = false := by
    rcases hdue with h | h <;> simp [h]
  unfold SyncToDropbox
  simp [hauto, hdue2, htok, hmeta]

/-- The three broadcasts of a completed download. -/
theorem installDownload_ok {rh : String} {body : Bytes} {w w1 : World} {r : OperationResult}
    (h : installDownload rh body w = (Except.ok r, w1)) :
    r = { Success := true, Status := "downloaded" } ∧
    ∃ fs wm, Marked rh { w with fsFaults := fs, localDB := body } wm ∧
      w1 = { wm with bus := wm.bus ++ ["REMOTE_FILE_UPDATED", "consumed_food_items_updated",
                                      "food_items_updated"] } := by
  rcases installDownload_cases h with ⟨_, _, h1, _⟩ | ⟨_, _, _, h1, _⟩ | ⟨fs, wm, m, h1⟩
  · cases h1
  · cases h1
  · rcases h1 with ⟨_, h2, _⟩ | ⟨h2, h3⟩
    · cases h2
    · cases h2
      exact ⟨rfl, fs, wm, m, h3⟩

/-- A scripted 200 reply in what is left of the script was in the script. -/
theorem Quiet.noForged {w w1 : World} (q : Quiet w w1) (h : NoForgedOk w) {body : Bytes} :
    w1.netFaults.head? ≠ some (NetFault.status 200 body) := by
  intro hh
  have hmem : NetFault.status 200 body ∈ w1.netFaults := List.mem_of_mem_head? hh
  exact h _ (q.netSuffix.subset hmem) body rfl

/-- Every way `DownloadDatabase` can return without error. -/
theorem DownloadDatabase_ok {X : Externals} {w w1 : World} {r : OperationResult}
    (h : DownloadDatabase X w = (Except.ok r, w1)) :
    (r = { Success := false, Status := "notFound" } ∧
      (∀ f, w.remote = some f → f.metadata.ContentHash = "") ∧
      Quiet { w with calls := w.calls ++ [Call.DownloadDatabase] } w1) ∨
    (∃ f, w.remote = some f ∧ f.metadata.ContentHash ≠ "" ∧
      w1.store.settings =
        { w.store.settings with Synced := true, StoredHash := f.metadata.ContentHash } ∧
      w1.syncedSnapshot = some w1.localDB ∧ w1.remote = w.remote ∧
      ((r = { Success := true, Status := "upToDate" } ∧
          f.metadata.ContentHash = dropboxHash X w.localDB ∧ w1.localDB = w.localDB ∧
          transfersSent w1 = transfersSent w ∧ w1.bus = w.bus) ∨
       (r = { Success := true, Status := "downloaded" } ∧
          f.metadata.ContentHash ≠ dropboxHash X w.localDB ∧
          (NoForgedOk w → w1.localDB = f.content) ∧
          (∃ tok, transfersSent w1 =
            transfersSent w ++ [Request.download tok ("/" ++ dbFileName)]) ∧
          w1.bus = w.bus ++ ["REMOTE_FILE_UPDATED", "consumed_food_items_updated",
                             "food_items_updated"]))) := by
  obtain ⟨wq, q, hc⟩ := DownloadDatabase_cases h
  rcases hc with ⟨_, h1, _⟩ | ⟨h1, h2, h3⟩ | ⟨f, hf, hne, heq, m, h1⟩ |
    ⟨f, tok, hf, hne, hneq, h1⟩
  · cases h1
  · cases h1
    subst h2
    exact Or.inl ⟨rfl, h3, q⟩
  · rcases h1 with h1 | ⟨_, h1⟩
    · cases h1
      refine Or.inr ⟨f, hf, hne, ?_, ?_, ?_, Or.inl ⟨rfl, heq, ?_, ?_, ?_⟩⟩
      · rw [m.settings, q.store]
      · rw [m.syncedSnapshot, m.localDB]
      · rw [m.remote, q.remote]
      · rw [m.localDB, q.localDB]
      · have := q.transfers
        unfold transfersSent at this ⊢
        rw [m.http]
        exact this
      · rw [m.bus, q.bus]
    · cases h1
  · rcases h1 with ⟨_, h1, _⟩ | ⟨body, h1, hb⟩
    · cases h1
    · obtain ⟨hr, fs, wm, m, hw⟩ := installDownload_ok h1
      subst hw
      have qs : wq.store = w.store := q.store
      have qr : wq.remote = w.remote := q.remote
      have qb : wq.bus = w.bus := q.bus
      have qt : wq.http.filter Request.isTransfer = w.http.filter Request.isTransfer :=
        q.transfers
      have ms : wm.store.settings =
          { wq.store.settings with Synced := true, StoredHash := f.metadata.ContentHash } :=
        m.settings
      have ml : wm.localDB = body := m.localDB
      have mn : wm.syncedSnapshot = some body := m.syncedSnapshot
      have mr : wm.remote = wq.remote := m.remote
      have mb : wm.bus = wq.bus := m.bus
      have mh : wm.http = wq.http ++ [Request.download tok ("/" ++ dbFileName)] := m.http
      refine Or.inr ⟨f, hf, hne, ?_, ?_, ?_, Or.inr ⟨hr, hneq, ?_, ⟨tok, ?_⟩, ?_⟩⟩
      · show wm.store.settings = _
        rw [ms, qs]
      · show wm.syncedSnapshot = some wm.localDB
        rw [mn, ml]
      · show wm.remote = w.remote
        rw [mr, qr]
      · intro hforged
        show wm.localDB = f.content
        rw [ml]
        rcases hb with hb | hb
        · exact hb
        · exact absurd hb (q.noForged hforged)
      · show List.filter _ wm.http = List.filter _ w.http ++ _
        rw [mh, List.filter_append, qt]
        rfl
      · show wm.bus ++ _ = _
        rw [mb, qb]

/-- When `DownloadDatabase` leaves the local database file alone. -/
theorem DownloadDatabase_keeps_localDB {X : Externals} {w w1 : World}
    {r : Except String OperationResult} (h : DownloadDatabase X w = (r, w1))
    (hsame : ∀ f, w.remote = some f →
      f.metadata.ContentHash = "" ∨ f.metadata.ContentHash = dropboxHash X w.localDB) :
    w1.localDB = w.localDB := by
  obtain ⟨wq, q, hc⟩ := DownloadDatabase_cases h
  have ql : wq.localDB = w.localDB := q.localDB
  rcases hc with ⟨_, _, h1⟩ | ⟨_, h1, _⟩ | ⟨_, _, _, _, m, _⟩ | ⟨f, _, hf, hne, hneq, _⟩
  · rw [h1, ql]
  · rw [h1, ql]
  · rw [m.localDB, ql]
  · rcases hsame f hf with h0 | h0
    · exact absurd h0 hne
    · exact absurd h0 hneq

/-! ## The poll iteration -/

theorem applyJitter_calls (d : Int) (w : World) : (applyJitter d w).2.calls = w.calls := by
  unfold applyJitter
  split <;> rfl

theorem calculateNextBackoff_calls (b : Bool) (w : World) :
    (calculateNextBackoff b w).2.calls = w.calls := by
  unfold calculateNextBackoff
  split
  · simp only [applyJitter_calls]
  · split <;> simp only [applyJitter_calls]

theorem updateLastCheckTime_calls (w : World) : (updateLastCheckTime w).2.calls = w.calls := by
  unfold updateLastCheckTime Store.Save
  split
  · rename_i h
    obtain ⟨_, _, _, h1⟩ := saveToFile_snd h
    rw [h1]
  · rename_i h
    obtain ⟨_, _, _, h1⟩ := saveToFile_snd h
    rw [h1]

/-- The answer of `checkRemoteChanged` once the metadata lookup has succeeded. -/
theorem checkRemoteChanged_reached {tokens : DropboxTokens} {w w1 : World}
    {m : Option DropboxMetadata}
    (hmeta : getRemoteFileMetadata tokens ("/" ++ dbFileName) w = (Except.ok m, w1))
    (hhash : ∀ md, m = some md → md.ContentHash ≠ "") :
    checkRemoteChanged tokens w =
      (Except.ok (tableSaysDownload w.store.settings.StoredHash
        (m.map fun md => md.ContentHash) w.store.settings.Synced), w1) := by
  have q := getRemoteFileMetadata_quiet hmeta
  unfold checkRemoteChanged
  rw [hmeta]
  cases m with
  | none => rfl
  | some md =>
    have hne := hhash md rfl
    simp only [hne, if_false, Store.Load, q.store]
    unfold tableSaysDownload reconcileSpec
    simp only [Option.map_some']
    by_cases h0 : w.store.settings.StoredHash = ""
    · simp [h0]
    · by_cases he : w.store.settings.StoredHash = md.ContentHash <;>
        cases hs : w.store.settings.Synced <;> simp [h0, he, hs, hne]

/-- Which transfer primitive one poll iteration enters once it has valid credentials and a
metadata answer. -/
theorem checkForChanges_calls {X : Externals} {w w1 w2 : World} {tokens : DropboxTokens}
    {changed : Bool}
    (hauto : GetAutoSync w = true) (htok : GetValidTokens w = (Except.ok tokens, w1))
    (hcheck : checkRemoteChanged tokens w1 = (Except.ok changed, w2))
    (hcalls : w2.calls = w.calls) :
    (checkForChanges X w).calls =
      w.calls ++ (if changed then [Call.DownloadDatabase] else []) := by
  unfold checkForChanges
  simp only [hauto, htok, hcheck, Bool.not_true, Bool.false_eq_true, if_false]
  show (updateLastCheckTime _).2.calls = _
  rw [updateLastCheckTime_calls]
  cases changed with
  | false => simp [hcalls]
  | true =>
    simp only [if_true]
    have hd := DownloadDatabase_calls X w2
    split
    · rename_i e w3 heq
      rw [heq] at hd
      have hd3 : w3.calls = w2.calls ++ [Call.DownloadDatabase] := hd
      split <;> simp [calculateNextBackoff_calls, hd3, hcalls]
    · rename_i r w3 heq
      rw [heq] at hd
      have hd3 : w3.calls = w2.calls ++ [Call.DownloadDatabase] := hd
      simp [BroadcastMessage, hd3, hcalls]

/-- Every way `UploadDatabase` can return without error. -/
theorem UploadDatabase_ok {X : Externals} {w w1 : World} {r : OperationResult}
    (h : UploadDatabase X w = (Except.ok r, w1)) :
    w1.store.settings =
      { w.store.settings with Synced := true, StoredHash := dropboxHash X w.localDB } ∧
    w1.localDB = w.localDB ∧ w1.syncedSnapshot = some w.localDB ∧ w1.bus = w.bus ∧
    ((r = { Success := true, Status := "upToDate" } ∧
        (∃ f, w.remote = some f ∧ f.metadata.ContentHash = dropboxHash X w.localDB) ∧
        w1.remote = w.remote ∧ transfersSent w1 = transfersSent w) ∨
     (r = { Success := true, Status := "uploaded" } ∧
        (¬ ∃ f, w.remote = some f ∧ f.metadata.ContentHash = dropboxHash X w.localDB) ∧
        (NoForgedOk w →
          w1.remote = some { content := w.localDB, metadata := X.stored w.localDB }) ∧
        ∃ tok, transfersSent w1 =
          transfersSent w ++ [Request.upload tok ("/" ++ dbFileName) "overwrite" w.localDB])) := by
  obtain ⟨wq, q, hc⟩ := UploadDatabase_cases h
  have qs : wq.store = w.store := q.store
  have ql : wq.localDB = w.localDB := q.localDB
  have qr : wq.remote = w.remote := q.remote
  have qb : wq.bus = w.bus := q.bus
  have qt : wq.http.filter Request.isTransfer = w.http.filter Request.isTransfer :=
    q.transfers
  rcases hc with ⟨_, h1, _⟩ | ⟨_, _, _, h1, _⟩ | ⟨hex, m, h1⟩ | ⟨hnex, ⟨tok, rem, m, hrem⟩, h1⟩
  · cases h1
  · cases h1
  · rcases h1 with h1 | ⟨_, h1⟩
    · cases h1
      refine ⟨?_, ?_, ?_, ?_, Or.inl ⟨rfl, hex, ?_, ?_⟩⟩
      · rw [m.settings, qs]
      · rw [m.localDB, ql]
      · rw [m.syncedSnapshot, ql]
      · rw [m.bus, qb]
      · rw [m.remote, qr]
      · show List.filter _ w1.http = _
        rw [m.http]
        exact qt
    · cases h1
  · rcases h1 with h1 | ⟨_, h1⟩
    · cases h1
      have ms : w1.store.settings =
          { wq.store.settings with Synced := true, StoredHash := dropboxHash X w.localDB } :=
        m.settings
      have ml : w1.localDB = wq.localDB := m.localDB
      have mn : w1.syncedSnapshot = some wq.localDB := m.syncedSnapshot
      have mr : w1.remote = rem := m.remote
      have mb : w1.bus = wq.bus := m.bus
      have mh : w1.http = wq.http ++
          [Request.upload tok ("/" ++ dbFileName) "overwrite" w.localDB] := m.http
      refine ⟨?_, ?_, ?_, ?_, Or.inr ⟨rfl, hnex, ?_, tok, ?_⟩⟩
      · rw [ms, qs]
      · rw [ml, ql]
      · rw [mn, ql]
      · rw [mb, qb]
      · intro hforged
        rw [mr]
        rcases hrem with hrem | ⟨_, body, hb⟩
        · exact hrem
        · exact absurd hb (q.noForged hforged)
      · show List.filter _ w1.http = List.filter _ w.http ++ _
        rw [mh, List.filter_append, qt]
        rfl
    · cases h1

/-! ## Calm worlds -/

theorem popFs_calm {w : World} (h : w.fsFaults = []) : popFs w = (FsFault.ok, w) := by
  unfold popFs
  rw [h]

theorem popNet_calm {w : World} (h : w.netFaults = []) : popNet w = (NetFault.served, w) := by
  unfold popNet
  rw [h]

theorem GetValidTokens_calm {w : World} {t : DropboxTokens} (hfs : w.fsFaults = [])
    (hv : w.vault = some t) (ht : t.AccessToken ≠ "")
    (hexp : t.ExpiresAt - w.now > 30 * minute) :
    GetValidTokens w = (Except.ok t, w) := by
  unfold GetValidTokens LoadTokens ensureValidToken
  simp [hv, popFs_calm hfs, ht, hexp]

theorem hashComparison_calm {X : Externals} {w : World} (t : DropboxTokens) (path : String)
    (hfs : w.fsFaults = []) (hnet : w.netFaults = []) :
    hashComparison X t path w =
      (Except.ok (match w.remote with
        | none => (true, dropboxHash X w.localDB, "")
        | some f => (f.metadata.ContentHash != dropboxHash X w.localDB,
            dropboxHash X w.localDB, f.metadata.ContentHash)),
        send (Request.getMetadata t.AccessToken path) w) := by
  unfold hashComparison calculateDropboxHash getRemoteFileMetadata
  have hn : (send (Request.getMetadata t.AccessToken path) w).netFaults = [] := hnet
  simp only [popFs_calm hfs, popNet_calm hn]
  cases hr : w.remote with
  | none =>
    have : (send (Request.getMetadata t.AccessToken path) w).remote = none := hr
    simp [this]
  | some f =>
    have : (send (Request.getMetadata t.AccessToken path) w).remote = some f := hr
    simp [this]

theorem markSave_calm {w : World} (hash : String) (hfs : w.fsFaults = []) :
    ∃ w1, Store.SaveToFile (Store.MarkAsSynced hash w) = (none, w1) ∧ w1.fsFaults = [] := by
  unfold Store.SaveToFile Store.MarkAsSynced saveToFile
  simp [popFs, hfs]

/-- In a calm world `UploadDatabase` returns without error and leaves a calm world. -/
theorem UploadDatabase_calm (X : Externals) {w : World} (hcalm : Calm w) :
    ∃ r w1, UploadDatabase X w = (Except.ok r, w1) ∧ Calm w1 := by
  obtain ⟨hfs, hnet, t, hv, ht, hexp⟩ := hcalm
  unfold UploadDatabase
  simp only []
  generalize hw0 : ({ w with calls := w.calls ++ [Call.UploadDatabase] } : World) = w0
  have hfs0 : w0.fsFaults = [] := by rw [← hw0]; exact hfs
  have hnet0 : w0.netFaults = [] := by rw [← hw0]; exact hnet
  have hv0 : w0.vault = some t := by rw [← hw0]; exact hv
  have hexp0 : t.ExpiresAt - w0.now > 30 * minute := by rw [← hw0]; exact hexp
  rw [GetValidTokens_calm hfs0 hv0 ht hexp0]
  simp only []
  rw [hashComparison_calm t _ hfs0 hnet0]
  generalize hw1 : send (Request.getMetadata t.AccessToken ("/" ++ dbFileName)) w0 = wm
  have hfs1 : wm.fsFaults = [] := by rw [← hw1]; exact hfs0
  have hnet1 : wm.netFaults = [] := by rw [← hw1]; exact hnet0
  have hv1 : wm.vault = some t := by rw [← hw1]; exact hv0
  have hnow1 : wm.now = w0.now := by rw [← hw1]; rfl
  have hcalm_of : ∀ (wa wb : World) (h : String) (r : Option String),
      Store.SaveToFile (Store.MarkAsSynced h wa) = (r, wb) → wa.netFaults = [] →
      wa.vault = some t → wa.now = w0.now → wb.fsFaults = [] → Calm wb := by
    intro wa wb h r hs hn hva hnow hfb
    have m := markSave hs
    exact ⟨hfb, by rw [m.netFaults, hn], t, by rw [m.vault, hva], ht, by rw [m.now, hnow]; exact hexp0⟩
  generalize (match w0.remote with
      | none => (true, dropboxHash X w0.localDB, "")
      | some f => (f.metadata.ContentHash != dropboxHash X w0.localDB,
          dropboxHash X w0.localDB, f.metadata.ContentHash)) = triple
  obtain ⟨needs, lh, rh⟩ := triple
  cases needs with
  | false =>
    simp only [Bool.not_false, if_true]
    obtain ⟨w1, hs, hf1⟩ := markSave_calm lh hfs1
    rw [hs]
    exact ⟨_, _, rfl, hcalm_of _ _ _ _ hs hnet1 hv1 hnow1 hf1⟩
  | true =>
    simp only [Bool.not_true, Bool.false_eq_true, if_false]
    rw [popFs_calm hfs1]
    simp only []
    generalize hw2 : send (Request.upload t.AccessToken ("/" ++ dbFileName) "overwrite"
      wm.localDB) wm = wu
    have hfs2 : wu.fsFaults = [] := by rw [← hw2]; exact hfs1
    have hnet2 : wu.netFaults = [] := by rw [← hw2]; exact hnet1
    have hv2 : wu.vault = some t := by rw [← hw2]; exact hv1
    have hnow2 : wu.now = w0.now := by rw [← hw2]; exact hnow1
    rw [popNet_calm hnet2]
    simp only []
    generalize hw3 :
      ({ wu with remote := some ⟨wu.localDB, X.stored wu.localDB⟩ } : World) = wr
    have hfs3 : wr.fsFaults = [] := by rw [← hw3]; exact hfs2
    have hnet3 : wr.netFaults = [] := by rw [← hw3]; exact hnet2
    have hv3 : wr.vault = some t := by rw [← hw3]; exact hv2
    have hnow3 : wr.now = w0.now := by rw [← hw3]; exact hnow2
    obtain ⟨w1, hs, hf1⟩ := markSave_calm lh hfs3
    rw [hs]
    exact ⟨_, _, rfl, hcalm_of _ _ _ _ hs hnet3 hv3 hnow3 hf1⟩

/-- A call of `UploadDatabase` that finds the remote file with the content hash of the local
file sends no transfer request and can only answer `upToDate`. -/
theorem UploadDatabase_same_hash {X : Externals} {w w1 : World}
    {r : Except String OperationResult} (h : UploadDatabase X w = (r, w1))
    (hex : ∃ f, w.remote = some f ∧ f.metadata.ContentHash = dropboxHash X w.localDB) :
    transfersSent w1 = transfersSent w ∧
    (r = Except.ok { Success := true, Status := "upToDate" } ∨ ∃ e, r = Except.error e) := by
  obtain ⟨wq, q, hc⟩ := UploadDatabase_cases h
  have qt : transfersSent wq = transfersSent w := q.transfers
  rcases hc with ⟨e, h1, h2⟩ | ⟨hnex, _⟩ | ⟨_, m, h1⟩ | ⟨hnex, _⟩
  · rw [h2]
    exact ⟨qt, Or.inr ⟨e, h1⟩⟩
  · exact absurd hex hnex
  · refine ⟨?_, h1.imp id fun ⟨e, he⟩ => ⟨_, he⟩⟩
    unfold transfersSent at qt ⊢
    rw [m.http]
    exact qt
  · exact absurd hex hnex

/-! ## The ledger after a transfer operation -/

theorem UploadDatabase_marks {X : Externals} {w w1 : World}
    {r : Except String OperationResult} (h : UploadDatabase X w = (r, w1)) :
    LedgerUntouched w w1 ∨ FreshlyMarked X w1 := by
  obtain ⟨wq, q, hc⟩ := UploadDatabase_cases h
  have qs : wq.store = w.store := q.store
  have ql : wq.localDB = w.localDB := q.localDB
  have qn : wq.syncedSnapshot = w.syncedSnapshot := q.syncedSnapshot
  rcases hc with ⟨_, _, h1⟩ | ⟨_, _, _, _, h1⟩ | ⟨_, m, _⟩ | ⟨_, ⟨_, _, m, _⟩, _⟩
  · subst h1
    exact Or.inl ⟨by rw [qs], qn⟩
  · subst h1
    exact Or.inl ⟨by rw [← qs], qn⟩
  · refine Or.inr ⟨?_, ?_, ?_⟩
    · rw [m.settings]
    · rw [m.syncedSnapshot, m.localDB]
    · rw [m.settings, m.localDB, ql]
  · have ml : w1.localDB = wq.localDB := m.localDB
    have mn : w1.syncedSnapshot = some wq.localDB := m.syncedSnapshot
    refine Or.inr ⟨?_, ?_, ?_⟩
    · rw [m.settings]
    · rw [mn, ml]
    · rw [m.settings, ml, ql]

theorem DownloadDatabase_marks {X : Externals} {w w1 : World}
    {r : Except String OperationResult} (h : DownloadDatabase X w = (r, w1))
    (hremote : HonestRemote X w) (hforged : NoForgedOk w) :
    LedgerUntouched w w1 ∨ FreshlyMarked X w1 := by
  obtain ⟨wq, q, hc⟩ := DownloadDatabase_cases h
  have qs : wq.store = w.store := q.store
  have ql : wq.localDB = w.localDB := q.localDB
  have qn : wq.syncedSnapshot = w.syncedSnapshot := q.syncedSnapshot
  rcases hc with ⟨_, _, h1⟩ | ⟨_, h1, _⟩ | ⟨f, _, _, heq, m, _⟩ | ⟨f, tok, hf, _, _, h1⟩
  · subst h1
    exact Or.inl ⟨by rw [qs], qn⟩
  · subst h1
    exact Or.inl ⟨by rw [qs], qn⟩
  · refine Or.inr ⟨?_, ?_, ?_⟩
    · rw [m.settings]
    · rw [m.syncedSnapshot, m.localDB]
    · rw [m.settings, m.localDB, ql]
      exact heq
  · rcases h1 with ⟨_, _, h1⟩ | ⟨body, h1, hb⟩
    · subst h1
      exact Or.inl ⟨by rw [← qs], qn⟩
    · have hbody : body = f.content := by
        rcases hb with hb | hb
        · exact hb
        · exact absurd hb (q.noForged hforged)
      subst hbody
      rcases installDownload_cases h1 with ⟨_, _, _, h2⟩ | ⟨_, _, _, _, h2⟩ | ⟨fs, wm, m, h2⟩
      · subst h2
        exact Or.inl ⟨by rw [← qs], qn⟩
      · subst h2
        exact Or.inl ⟨by rw [← qs], qn⟩
      · have ml : wm.localDB = f.content := m.localDB
        have mn : wm.syncedSnapshot = some f.content := m.syncedSnapshot
        have hm : FreshlyMarked X wm := by
          refine ⟨?_, ?_, ?_⟩
          · rw [m.settings]
          · rw [mn, ml]
          · rw [m.settings, ml]
            exact hremote.2 f hf
        rcases h2 with ⟨_, _, h2⟩ | ⟨_, h2⟩
        · subst h2
          exact Or.inr hm
        · subst h2
          exact Or.inr hm

theorem MarkAsUnsynced_synced (w : World) :
    (Store.MarkAsUnsynced w).store.settings.Synced = false := by
  unfold Store.MarkAsUnsynced
  obtain ⟨d, sf, fs, h⟩ := saveToFile_snd2
    { w with store := { settings := { w.store.settings with Synced := false }, dirty := true } }
  rw [h]

/-! ## The ledger when a transfer operation fails -/

theorem Quiet.ledger_eq {w w1 : World} (q : Quiet w w1) : ledger w1 = ledger w := by
  unfold ledger
  rw [q.store]

theorem Marked.ledger_marked {hash : String} {w w1 : World} (m : Marked hash w w1) :
    ledger w1 = (hash, true) := by
  unfold ledger
  rw [m.settings]

/-- A failed `UploadDatabase` leaves the ledger alone, unless what failed is the write of
the settings after `MarkAsSynced`. -/
theorem UploadDatabase_error_ledger {X : Externals} {w w1 : World} {e : String}
    (h : UploadDatabase X w = (Except.error e, w1)) :
    ledger w1 = ledger w ∨
    ((∃ cause, e = "error saving settings: " ++ cause) ∧
      ledger w1 = (dropboxHash X w.localDB, true)) := by
  obtain ⟨wq, q, hc⟩ := UploadDatabase_cases h
  have hq : ledger wq = ledger w := q.ledger_eq
  rcases hc with ⟨_, _, h2⟩ | ⟨_, _, _, _, h2⟩ | ⟨_, m, h1⟩ | ⟨_, ⟨_, _, m, _⟩, h1⟩
  · rw [h2]
    exact Or.inl hq
  · rw [h2]
    exact Or.inl hq
  · rcases h1 with h1 | ⟨cause, h1⟩
    · cases h1
    · cases h1
      exact Or.inr ⟨⟨_, rfl⟩, m.ledger_marked⟩
  · rcases h1 with h1 | ⟨cause, h1⟩
    · cases h1
    · cases h1
      exact Or.inr ⟨⟨_, rfl⟩, m.ledger_marked⟩

/-- A failed `DownloadDatabase` leaves the ledger alone, unless what failed is the write of
the settings after `MarkAsSynced`. -/
theorem DownloadDatabase_error_ledger {X : Externals} {w w1 : World} {e : String}
    (h : DownloadDatabase X w = (Except.error e, w1)) :
    ledger w1 = ledger w ∨
    ((∃ cause, e = "error saving settings: " ++ cause) ∧
      ∃ f, w.remote = some f ∧ ledger w1 = (f.metadata.ContentHash, true)) := by
  obtain ⟨wq, q, hc⟩ := DownloadDatabase_cases h
  have hq : ledger wq = ledger w := q.ledger_eq
  rcases hc with ⟨_, _, h2⟩ | ⟨h1, _⟩ | ⟨f, hf, _, _, m, h1⟩ | ⟨f, tok, hf, _, _, h1⟩
  · rw [h2]
    exact Or.inl hq
  · cases h1
  · rcases h1 with h1 | ⟨cause, h1⟩
    · cases h1
    · cases h1
      exact Or.inr ⟨⟨_, rfl⟩, f, hf, m.ledger_marked⟩
  · rcases h1 with ⟨_, _, h2⟩ | ⟨body, hi, _⟩
    · rw [h2]
      exact Or.inl hq
    · rcases installDownload_cases hi with ⟨_, _, _, h2⟩ | ⟨_, _, _, _, h2⟩ | ⟨_, wm, m, h3⟩
      · rw [h2]
        exact Or.inl hq
      · rw [h2]
        exact Or.inl hq
      · rcases h3 with ⟨cause, h3, h4⟩ | ⟨h3, _⟩
        · cases h3
          rw [h4]
          exact Or.inr ⟨⟨_, rfl⟩, f, hf, m.ledger_marked⟩
        · cases h3

/-! ## The blocks of the content hash -/

theorem blockSize_pos : 0 < blockSize := by
  unfold blockSize
  norm_num

theorem readBlocksAux_nil (fuel : Nat) : readBlocksAux fuel [] = [] := by
  cases fuel <;> simp [readBlocksAux]

theorem readBlocksAux_cons (fuel : Nat) (c : Bytes) (h : c ≠ []) :
    readBlocksAux (fuel + 1) c = c.take blockSize :: readBlocksAux fuel (c.drop blockSize) := by
  simp [readBlocksAux, h]

theorem drop_fuel {fuel : Nat} {c : Bytes} (h : c.length ≤ fuel + 1) :
    (c.drop blockSize).length ≤ fuel := by
  have := blockSize_pos
  rw [List.length_drop]
  omega

/-- The blocks, put end to end, are the content. -/
theorem readBlocksAux_flatten (fuel : Nat) (c : Bytes) (h : c.length ≤ fuel) :
    (readBlocksAux fuel c).flatten = c := by
  induction fuel generalizing c with
  | zero =>
    have : c = [] := List.length_eq_zero.mp (Nat.le_zero.mp h)
    subst this
    rfl
  | succ fuel ih =>
    by_cases hc : c = []
    · subst hc
      rfl
    · rw [readBlocksAux_cons fuel c hc, List.flatten_cons, ih _ (drop_fuel h),
        List.take_append_drop]

/-- The number of blocks is the length divided by the block size, rounded up. -/
theorem readBlocksAux_length (fuel : Nat) (c : Bytes) (h : c.length ≤ fuel) :
    (readBlocksAux fuel c).length = (c.length + blockSize - 1) / blockSize := by
  have hpos := blockSize_pos
  induction fuel generalizing c with
  | zero =>
    have : c = [] := List.length_eq_zero.mp (Nat.le_zero.mp h)
    subst this
    simp only [readBlocksAux, List.length_nil, Nat.zero_add]
    exact (Nat.div_eq_of_lt (by omega)).symm
  | succ fuel ih =>
    by_cases hc : c = []
    · subst hc
      simp only [readBlocksAux_nil, List.length_nil, Nat.zero_add]
      exact (Nat.div_eq_of_lt (by omega)).symm
    · have hlen : 0 < c.length := List.length_pos.mpr hc
      rw [readBlocksAux_cons fuel c hc, List.length_cons, ih _ (drop_fuel h),
        List.length_drop]
      by_cases hle : c.length ≤ blockSize
      · have h1 : (c.length - blockSize + blockSize - 1) / blockSize = 0 :=
          Nat.div_eq_of_lt (by omega)
        have h2 : (c.length + blockSize - 1) / blockSize = 1 := by
          apply Nat.div_eq_of_lt_le <;> omega
        rw [h1, h2]
      · have h3 : c.length + blockSize - 1 = (c.length - blockSize + blockSize - 1) + blockSize := by
          omega
        rw [h3, Nat.add_div_right _ hpos]

/-- Every block is non-empty and at most a block size long. -/
theorem readBlocksAux_mem (fuel : Nat) (c : Bytes) :
    ∀ b ∈ readBlocksAux fuel c, 0 < b.length ∧ b.length ≤ blockSize := by
  induction fuel generalizing c with
  | zero =>
    intro b hb
    simp [readBlocksAux] at hb
  | succ fuel ih =>
    intro b hb
    by_cases hc : c = []
    · subst hc
      simp [readBlocksAux] at hb
    · rw [readBlocksAux_cons fuel c hc, List.mem_cons] at hb
      rcases hb with hb | hb
      · subst hb
        have hlen : 0 < c.length := List.length_pos.mpr hc
        have := blockSize_pos
        rw [List.length_take]
        omega
      · exact ih _ b hb

/-- Every block but the last is exactly a block size long. -/
theorem readBlocksAux_dropLast (fuel : Nat) (c : Bytes) :
    ∀ b ∈ (readBlocksAux fuel c).dropLast, b.length = blockSize := by
  induction fuel generalizing c with
  | zero =>
    intro b hb
    simp [readBlocksAux] at hb
  | succ fuel ih =>
    intro b hb
    by_cases hc : c = []
    · subst hc
      simp [readBlocksAux] at hb
    · rw [readBlocksAux_cons fuel c hc] at hb
      by_cases hrest : readBlocksAux fuel (c.drop blockSize) = []
      · rw [hrest] at hb
        simp at hb
      · rw [List.dropLast_cons_of_ne_nil hrest, List.mem_cons] at hb
        rcases hb with hb | hb
        · subst hb
          have hd : c.drop blockSize ≠ [] := by
            intro hnil
            rw [hnil, readBlocksAux_nil] at hrest
            exact hrest rfl
          have hdl : 0 < (c.drop blockSize).length := List.length_pos.mpr hd
          rw [List.length_drop] at hdl
          rw [List.length_take]
          omega
        · exact ih _ b hb

/-- The table of lowercase hexadecimal digits. -/
theorem hexDigit_table :
    ∀ n : Fin 16, "0123456789abcdef".data.get? n.val = some (hexDigit n.val) := by
  decide

/-- The emptiness test of `calculateDropboxHash` does not change the value: with no block
the concatenation of the digests is empty. -/
theorem dropboxHash_eq (X : Externals) (c : Bytes) :
    dropboxHash X c = hexEncode (X.sha256 ((readBlocks c).map X.sha256).flatten) := by
  unfold dropboxHash
  simp only []
  split
  · rename_i h
    rw [List.length_eq_zero.mp h]
    rfl
  · rfl

/-! ## Injectivity of the content hash -/

theorem hexDigit_inj : ∀ a b : Fin 16, hexDigit a.val = hexDigit b.val → a = b := by
  decide

theorem hexEncode_data (b : Bytes) :
    (hexEncode b).data = b.flatMap fun x => [hexDigit (x.val / 16), hexDigit (x.val % 16)] :=
  rfl

theorem hexEncode_injective {b1 b2 : Bytes} (h : hexEncode b1 = hexEncode b2) : b1 = b2 := by
  have hd : (hexEncode b1).data = (hexEncode b2).data := by rw [h]
  rw [hexEncode_data, hexEncode_data] at hd
  clear h
  induction b1 generalizing b2 with
  | nil =>
    cases b2 with
    | nil => rfl
    | cons y ys => simp at hd
  | cons x xs ih =>
    cases b2 with
    | nil => simp at hd
    | cons y ys =>
      simp only [List.flatMap_cons, List.cons_append, List.nil_append, List.cons.injEq] at hd
      obtain ⟨hhi, hlo, hrest⟩ := hd
      have h1 := hexDigit_inj ⟨x.val / 16, by omega⟩ ⟨y.val / 16, by omega⟩ hhi
      have h2 := hexDigit_inj ⟨x.val % 16, by omega⟩ ⟨y.val % 16, by omega⟩ hlo
      have h1v : x.val / 16 = y.val / 16 := congrArg Fin.val h1
      have h2v : x.val % 16 = y.val % 16 := congrArg Fin.val h2
      have hxy : x = y := Fin.ext (by omega)
      rw [hxy, ih hrest]

/-- Byte strings of one common positive length can be read back from their
concatenation. -/
theorem flatten_injective {n : Nat} (hn : 0 < n) :
    ∀ l1 l2 : List Bytes, (∀ b ∈ l1, b.length = n) → (∀ b ∈ l2, b.length = n) →
      l1.flatten = l2.flatten → l1 = l2 := by
  intro l1
  induction l1 with
  | nil =>
    intro l2 _ h2 h
    cases l2 with
    | nil => rfl
    | cons b bs =>
      have hb := h2 b (List.mem_cons_self _ _)
      have hl := congrArg List.length h
      simp only [List.flatten_nil, List.length_nil, List.flatten_cons, List.length_append] at hl
      omega
  | cons a as ih =>
    intro l2 h1 h2 h
    have ha := h1 a (List.mem_cons_self _ _)
    cases l2 with
    | nil =>
      have hl := congrArg List.length h
      simp only [List.flatten_nil, List.length_nil, List.flatten_cons, List.length_append] at hl
      omega
    | cons b bs =>
      have hb := h2 b (List.mem_cons_self _ _)
      simp only [List.flatten_cons] at h
      obtain ⟨hab, hrest⟩ := List.append_inj h (by rw [ha, hb])
      rw [hab, ih bs (fun x hx => h1 x (List.mem_cons_of_mem _ hx))
        (fun x hx => h2 x (List.mem_cons_of_mem _ hx)) hrest]

/-- A map that has no collision between the members of two lists is injective on them. -/
theorem map_injective_on {f : Bytes → Bytes} :
    ∀ l1 l2 : List Bytes, (∀ a ∈ l1, ∀ b ∈ l2, f a = f b → a = b) →
      l1.map f = l2.map f → l1 = l2 := by
  intro l1
  induction l1 with
  | nil =>
    intro l2 _ h
    cases l2 with
    | nil => rfl
    | cons b bs => simp at h
  | cons a as ih =>
    intro l2 hf h
    cases l2 with
    | nil => simp at h
    | cons b bs =>
      simp only [List.map_cons, List.cons.injEq] at h
      rw [hf a (List.mem_cons_self _ _) b (List.mem_cons_self _ _) h.1,
        ih bs (fun x hx y hy => hf x (List.mem_cons_of_mem _ hx) y (List.mem_cons_of_mem _ hy))
          h.2]

/-- The content hash is injective, given 32-byte digests without a collision among the
byte strings that are digested for the two contents. -/
theorem dropboxHash_injective {X : Externals} {c1 c2 : Bytes}
    (hsize : ∀ b, (X.sha256 b).length = 32)
    (hfree : CollisionFree X (digestInputs X c1 ++ digestInputs X c2))
    (h : dropboxHash X c1 = dropboxHash X c2) : c1 = c2 := by
  rw [dropboxHash_eq, dropboxHash_eq] at h
  have h1 := hexEncode_injective h
  have h2 : ((readBlocks c1).map X.sha256).flatten = ((readBlocks c2).map X.sha256).flatten :=
    hfree _ (by simp [digestInputs]) _ (by simp [digestInputs]) h1
  have h3 : (readBlocks c1).map X.sha256 = (readBlocks c2).map X.sha256 := by
    apply flatten_injective (by decide : 0 < 32) _ _ _ _ h2
    · intro b hb
      obtain ⟨a, _, rfl⟩ := List.mem_map.mp hb
      exact hsize a
    · intro b hb
      obtain ⟨a, _, rfl⟩ := List.mem_map.mp hb
      exact hsize a
  have h4 : readBlocks c1 = readBlocks c2 := by
    apply map_injective_on _ _ _ h3
    intro a ha b hb hab
    exact hfree a (by simp [digestInputs, ha]) b (by simp [digestInputs, hb]) hab
  rw [← readBlocksAux_flatten c1.length c1 (Nat.le_refl _),
    ← readBlocksAux_flatten c2.length c2 (Nat.le_refl _)]
  exact congrArg List.flatten h4

theorem paddedExternals_size (b : Bytes) : (paddedExternals.sha256 b).length = 32 := by
  show ((_ :: b ++ List.replicate 32 0).take 32).length = 32
  rw [List.length_take, List.length_append, List.length_replicate]
  omega

/-! ## The token lifecycle -/

theorem refreshAccessToken_snd (rt : String) (w : World) :
    (refreshAccessToken rt w).2 =
      { w with http := w.http ++ [Request.refreshToken rt], netFaults := w.netFaults.tail } := by
  unfold refreshAccessToken
  split
  · rename_i hp
    exact popNet_snd hp
  · rename_i hp
    have := popNet_snd hp
    split <;> exact this
  · rename_i hp
    exact popNet_snd hp

/-- A refresh succeeds only when the token endpoint serves it, with what the endpoint
answers. -/
theorem refreshAccessToken_ok {rt : String} {w w1 : World} {nt : TokenResponse}
    (h : refreshAccessToken rt w = (Except.ok nt, w1)) : nt = w.tokenEndpoint := by
  unfold refreshAccessToken at h
  split at h
  · cases h
  · split at h <;> cases h
  · rename_i hp
    cases popNet_snd hp
    cases h
    rfl

/-- The branch of `ensureValidToken` below the thirty-minute test, for a record with both
tokens. -/
theorem ensureValidToken_refresh {t : DropboxTokens} {w : World} (hacc : t.AccessToken ≠ "")
    (hexp : t.ExpiresAt - w.now ≤ 30 * minute) (href : t.RefreshToken ≠ "") :
    ensureValidToken (some t) w =
      match refreshAccessToken t.RefreshToken w with
      | (Except.error e, w1) => (Except.error ("error refreshing token: " ++ e), w1)
      | (Except.ok newTokens, w1) =>
        match SaveTokens (tokensToSave t newTokens w1.now) w1 with
        | (some e, w2) => (Except.error ("error saving refreshed tokens: " ++ e), w2)
        | (none, w2) => (Except.ok (tokensToSave t newTokens w1.now), w2) := by
  unfold ensureValidToken
  simp only [if_neg hacc, if_neg (not_lt.mpr hexp), if_neg href, gt_iff_lt]
  rfl

theorem SaveTokens_vault {rec : DropboxTokens} {w w1 : World}
    (h : SaveTokens rec w = (none, w1)) : w1.vault = some rec := by
  unfold SaveTokens at h
  split at h <;> cases h
  rfl

theorem LoadTokens_fst (w : World) :
    (LoadTokens w).1.isOk = true → (LoadTokens w).1 = Except.ok w.vault := by
  unfold LoadTokens
  split
  · rename_i hv
    intro _
    rw [hv]
  · rename_i t hv
    split
    · intro h
      cases h
    · intro _
      rw [hv]

theorem LoadTokens_now (w : World) : (LoadTokens w).2.now = w.now :=
  (LoadTokens_quiet (Prod.mk.eta.symm)).now

/-- When `GetValidTokens` fails. -/
theorem GetValidTokens_isOk (w : World) :
    (GetValidTokens w).1.isOk =
      ((LoadTokens w).1.isOk && (ensureValidToken w.vault (LoadTokens w).2).1.isOk) := by
  unfold GetValidTokens
  split
  · rename_i e w1 hl
    rw [hl]
    rfl
  · rename_i tokens w1 hl
    have h1 := LoadTokens_fst w
    rw [hl] at h1 ⊢
    have h2 : tokens = w.vault := by
      have := h1 rfl
      cases this
      rfl
    subst h2
    split
    · rename_i he
      rw [he]
      rfl
    · rename_i he
      rw [he]
      rfl

/-- When `ensureValidToken` fails. -/
theorem ensureValidToken_isOk (tokens : Option DropboxTokens) (w : World) :
    (ensureValidToken tokens w).1.isOk = false ↔
      tokens = none ∨
      ∃ t, tokens = some t ∧
        (t.AccessToken = "" ∨
          (t.ExpiresAt - w.now ≤ 30 * minute ∧
            (t.RefreshToken = "" ∨
              (refreshAccessToken t.RefreshToken w).1.isOk = false ∨
              ∃ newTokens, (refreshAccessToken t.RefreshToken w).1 = Except.ok newTokens ∧
                (SaveTokens (tokensToSave t newTokens w.now)
                  (refreshAccessToken t.RefreshToken w).2).1 ≠ none))) := by
  cases tokens with
  | none => exact ⟨fun _ => Or.inl rfl, fun _ => rfl⟩
  | some t =>
    simp only [false_or, Option.some.injEq, exists_eq_left', reduceCtorEq]
    by_cases hacc : t.AccessToken = ""
    · simp [ensureValidToken, hacc, Except.isOk, Except.toBool]
    · by_cases hexp : t.ExpiresAt - w.now ≤ 30 * minute
      · by_cases href : t.RefreshToken = ""
        · simp [ensureValidToken, hacc, href, not_lt.mpr hexp, hexp, Except.isOk,
            Except.toBool]
        · rw [ensureValidToken_refresh hacc hexp href]
          have hnow : (refreshAccessToken t.RefreshToken w).2.now = w.now := by
            rw [refreshAccessToken_snd]
          rcases hr : refreshAccessToken t.RefreshToken w with ⟨r, w1⟩
          rw [hr] at hnow
          simp only at hnow
          cases r with
          | error e => simp [hacc, href, hexp, Except.isOk, Except.toBool]
          | ok nt =>
            simp only [hnow]
            rcases hs : SaveTokens (tokensToSave t nt w.now) w1 with ⟨s, w2⟩
            cases s with
            | none => simp [hacc, href, hs, Except.isOk, Except.toBool]
            | some e => simp [hacc, href, hexp, hs, Except.isOk, Except.toBool]
      · have hgt : t.ExpiresAt - w.now > 30 * minute := not_le.mp hexp
        simp [ensureValidToken, hacc, hgt, hexp, Except.isOk, Except.toBool]

theorem LoadTokens_snd (w : World) : ∃ fs, (LoadTokens w).2 = { w with fsFaults := fs } := by
  unfold LoadTokens
  split
  · exact ⟨w.fsFaults, rfl⟩
  · split <;> exact popFs_snd_ex (by assumption)

/-- Without a refresh token an expiring record is refused, and nothing happens. -/
theorem ensureValidToken_no_refresh {t : DropboxTokens} {w : World} (hacc : t.AccessToken ≠ "")
    (hexp : t.ExpiresAt - w.now ≤ 30 * minute) (href : t.RefreshToken = "") :
    ensureValidToken (some t) w = (Except.error "no refresh token available", w) := by
  unfold ensureValidToken
  simp only [if_neg hacc, if_neg (not_lt.mpr hexp), if_pos href, gt_iff_lt]

/-- Saving the tokens sends no request. -/
theorem SaveTokens_http (rec : DropboxTokens) (w : World) :
    (SaveTokens rec w).2.http = w.http := by
  unfold SaveTokens
  split <;> (rename_i hp; cases popFs_snd hp; rfl)

/-- On its refresh path `ensureValidToken` sends exactly the refresh request. -/
theorem ensureValidToken_http {t : DropboxTokens} {w : World} (hacc : t.AccessToken ≠ "")
    (hexp : t.ExpiresAt - w.now ≤ 30 * minute) (href : t.RefreshToken ≠ "") :
    (ensureValidToken (some t) w).2.http = w.http ++ [Request.refreshToken t.RefreshToken] := by
  rw [ensureValidToken_refresh hacc hexp href]
  have h1 := refreshAccessToken_snd t.RefreshToken w
  rcases hr : refreshAccessToken t.RefreshToken w with ⟨r, w1⟩
  rw [hr] at h1
  simp only at h1
  cases r with
  | error e =>
    simp only
    rw [h1]
  | ok nt =>
    simp only
    have h2 := SaveTokens_http (tokensToSave t nt w1.now) w1
    rcases hs : SaveTokens (tokensToSave t nt w1.now) w1 with ⟨s, w2⟩
    rw [hs] at h2
    simp only at h2
    cases s <;> (simp only; rw [h2, h1])

/-- What a successful run of the refresh path did: the endpoint served the refresh, and the
record built from its answer was saved and returned. -/
theorem ensureValidToken_refreshed {t t1 : DropboxTokens} {w w1 : World}
    (hacc : t.AccessToken ≠ "") (hexp : t.ExpiresAt - w.now ≤ 30 * minute)
    (h : ensureValidToken (some t) w = (Except.ok t1, w1)) :
    t.RefreshToken ≠ "" ∧
    (refreshAccessToken t.RefreshToken w).1 = Except.ok w.tokenEndpoint ∧
    t1 = tokensToSave t w.tokenEndpoint w.now ∧ w1.vault = some t1 := by
  by_cases href : t.RefreshToken = ""
  · rw [ensureValidToken_no_refresh hacc hexp href] at h
    cases h
  · rw [ensureValidToken_refresh hacc hexp href] at h
    have hnow := congrArg World.now (refreshAccessToken_snd t.RefreshToken w)
    rcases hr : refreshAccessToken t.RefreshToken w with ⟨r, wr⟩
    rw [hr] at h hnow
    simp only at h hnow
    cases r with
    | error e => cases h
    | ok nt =>
      simp only at h
      have hnt := refreshAccessToken_ok hr
      subst hnt
      rcases hs : SaveTokens (tokensToSave t w.tokenEndpoint wr.now) wr with ⟨s, ws⟩
      rw [hs] at h
      cases s with
      | some e => cases h
      | none =>
        simp only at h
        cases h
        have hn : wr.now = w.now := hnow
        rw [hn] at hs ⊢
        exact ⟨href, rfl, rfl, SaveTokens_vault hs⟩

/-- What a successful `ExchangeToken` did: the endpoint served the exchange with a non-empty
access token, and the record built from its answer was saved. -/
theorem ExchangeToken_ok {code codeVerifier : String} {w w1 : World} {resp : TokenResponse}
    (h : ExchangeToken code codeVerifier w = (Except.ok resp, w1)) :
    resp = w.tokenEndpoint ∧ resp.AccessToken ≠ "" ∧
    w1.vault = some
      { AccessToken := resp.AccessToken
        RefreshToken := resp.RefreshToken
        ExpiresAt := w.now + Int.tdiv (wrapInt64
          ((if wrapInt64 (resp.ExpiresIn * second) = 0 then 4 * hour
            else wrapInt64 (resp.ExpiresIn * second)) * 9)) 10 } := by
  unfold ExchangeToken at h
  split at h
  · cases h
  · split at h <;> cases h
  · rename_i wn hp
    cases popNet_snd hp
    simp only [send] at h
    split at h
    · cases h
    · rename_i hne
      split at h
      · cases h
      · rename_i hs
        cases h
        exact ⟨rfl, hne, SaveTokens_vault hs⟩

theorem wrapInt64_id {x : Int} (hlo : -(2 ^ 63) ≤ x) (hhi : x < 2 ^ 63) : wrapInt64 x = x := by
  unfold wrapInt64
  rw [Int.emod_eq_of_lt (by omega) (by omega)]
  omega

/-- The lifetime both token paths use: the announced seconds as an int64 number of
nanoseconds, or four hours when that is zero. -/
theorem lifetime_eq {e : Int} (hlo : -(2 ^ 63) ≤ e * 9 * second) (hhi : e * 9 * second < 2 ^ 63) :
    (if wrapInt64 (e * second) = 0 then 4 * hour else wrapInt64 (e * second)) =
      if e = 0 then 4 * hour else e * second := by
  have hs : second = 1000000000 := rfl
  rw [hs] at hlo hhi
  have hw : wrapInt64 (e * second) = e * second := by
    apply wrapInt64_id <;> rw [hs] <;> omega
  rw [hw]
  by_cases he : e = 0
  · subst he
    simp
  · have : e * second ≠ 0 := by
      rw [hs]
      omega
    rw [if_neg this, if_neg he]

/-- Nine tenths of that lifetime, in int64 arithmetic. -/
theorem nine_tenths {e : Int} (hlo : -(2 ^ 63) ≤ e * 9 * second) (hhi : e * 9 * second < 2 ^ 63) :
    Int.tdiv (wrapInt64 ((if e = 0 then 4 * hour else e * second) * 9)) 10 =
      if e = 0 then 12960 * second else e * 900000000 := by
  have hs : second = 1000000000 := rfl
  have hh : hour = 3600000000000 := rfl
  rw [hs] at hlo hhi
  by_cases he : e = 0
  · subst he
    rw [if_pos rfl, if_pos rfl, hh, hs]
    rfl
  · rw [if_neg he, if_neg he, hs]
    have hw : wrapInt64 (e * 1000000000 * 9) = e * 1000000000 * 9 := by
      apply wrapInt64_id <;> omega
    rw [hw]
    have : e * 1000000000 * 9 = e * 900000000 * 10 := by ring
    rw [this]
    exact Int.mul_tdiv_cancel _ (by decide)

/-! ## The backoff of the poll loop -/

theorem applyJitter_currentBackoff (d : Int) (w : World) :
    (applyJitter d w).2.currentBackoff = w.currentBackoff := by
  unfold applyJitter
  split <;> rfl

theorem bitLengthAux_le (fuel : Nat) : ∀ n k : Nat, n < 2 ^ k → bitLengthAux fuel n ≤ k := by
  induction fuel with
  | zero =>
    intro n k _
    exact Nat.zero_le k
  | succ fuel ih =>
    intro n k h
    unfold bitLengthAux
    split
    · exact Nat.zero_le k
    · rename_i hn
      cases k with
      | zero =>
        simp at h
        exact absurd h hn
      | succ k =>
        have h2 : n / 2 < 2 ^ k := by
          rw [pow_succ] at h
          omega
        exact Nat.succ_le_succ (ih _ _ h2)

theorem bitLength_le {n k : Nat} (h : n < 2 ^ k) : bitLength n ≤ k :=
  bitLengthAux_le n n k h

/-- A number of at most 53 binary digits is a float64. -/
theorem roundFloat64_small {n : Nat} (h : n < 2 ^ 53) : roundFloat64 n = n := by
  unfold roundFloat64
  rw [if_pos (bitLength_le h)]

/-- A number of at most 53 binary digits times a power of two is a float64. -/
theorem roundFloat64_shifted {n : Nat} (h : n < 2 ^ 53) :
    roundFloat64 (n * 2 ^ 55) = n * 2 ^ 55 := by
  have hm : n * 2 ^ 55 < 2 ^ 108 := by
    have : (2 : Nat) ^ 108 = 2 ^ 53 * 2 ^ 55 := by norm_num
    rw [this]
    exact Nat.mul_lt_mul_of_pos_right h (by norm_num)
  have hb := bitLength_le hm
  unfold roundFloat64
  split
  · rfl
  · have hs : bitLength (n * 2 ^ 55) - 53 ≤ 55 := by omega
    generalize bitLength (n * 2 ^ 55) - 53 = shift at hs
    have hdvd : 2 ^ shift ∣ n * 2 ^ 55 := Dvd.dvd.mul_left (pow_dvd_pow 2 hs) n
    have hrest : n * 2 ^ 55 % 2 ^ shift = 0 := Nat.mod_eq_zero_of_dvd hdvd
    have hhalf : 0 < 2 ^ (shift - 1) := Nat.pow_pos (by decide)
    simp only [hrest]
    rw [if_neg (by omega)]
    exact Nat.div_mul_cancel hdvd

/-- At the draw one half the jitter factor is exactly one: a duration below `2 ^ 53`
nanoseconds comes back unchanged. -/
theorem jittered_half (d : Int) (hd : d.natAbs < 2 ^ 53) : jittered d 1 2 = d := by
  have hf : roundFloat64 (jitterBase * (2 * 2) + roundFloat64 (jitterSpan * 1)) = 2 ^ 55 := by
    decide
  unfold jittered
  simp only [hf, roundFloat64_small hd, roundFloat64_shifted hd]
  have hdiv : d.natAbs * 2 ^ 55 / (2 ^ 54 * 2) = d.natAbs := by
    have : (2 : Nat) ^ 54 * 2 = 2 ^ 55 := by norm_num
    rw [this]
    exact Nat.mul_div_cancel _ (by norm_num)
  rw [hdiv]
  split <;> omega

/-- At the draw one quarter the float64 product of two minutes and the jitter factor is
just below 111 seconds, and the truncation loses a nanosecond. -/
theorem jittered_quarter : jittered 120000000000 1 4 = 110999999999 := by decide

/-- With no scripted draw the jitter factor is one. -/
theorem applyJitter_fst {d : Int} {w : World} (h : w.jitterDraws = [])
    (hd : d.natAbs < 2 ^ 53) : (applyJitter d w).1 = d := by
  unfold applyJitter
  rw [h]
  exact jittered_half d hd

/-- The backoff `calculateNextBackoff(true)` stores. -/
theorem calculateNextBackoff_true (w : World) :
    (calculateNextBackoff true w).2.currentBackoff = min (2 * w.currentBackoff) maxBackoff := by
  unfold calculateNextBackoff
  simp only [if_true, applyJitter_currentBackoff]
  split <;> omega

/-- The backoff `calculateNextBackoff(false)` stores. -/
theorem calculateNextBackoff_false (w : World) :
    (calculateNextBackoff false w).2.currentBackoff =
      if w.currentBackoff > regularSyncInterval * 2 then
        max (Int.tdiv w.currentBackoff 2) regularSyncInterval
      else min (Int.tdiv (w.currentBackoff * 3) 2) (regularSyncInterval * 2) := by
  unfold calculateNextBackoff
  simp only [Bool.false_eq_true, if_false]
  split
  · simp only [applyJitter_currentBackoff]
    split <;> omega
  · simp only [applyJitter_currentBackoff]
    split <;> omega

/-- What `calculateNextBackoff` returns is the stored backoff when the jitter factor is
one (and the stored backoff is below `2 ^ 53` nanoseconds). -/
theorem calculateNextBackoff_fst (a : Bool) {w : World} (h : w.jitterDraws = [])
    (hb : (calculateNextBackoff a w).2.currentBackoff.natAbs < 2 ^ 53) :
    (calculateNextBackoff a w).1 = (calculateNextBackoff a w).2.currentBackoff := by
  unfold calculateNextBackoff at hb ⊢
  cases a with
  | true =>
    simp only [if_true] at hb ⊢
    rw [applyJitter_currentBackoff] at hb ⊢
    exact applyJitter_fst h hb
  | false =>
    simp only [Bool.false_eq_true, if_false] at hb ⊢
    split at hb
    · rename_i hc
      rw [if_pos hc]
      rw [applyJitter_currentBackoff] at hb ⊢
      exact applyJitter_fst h hb
    · rename_i hc
      rw [if_neg hc]
      rw [applyJitter_currentBackoff] at hb ⊢
      exact applyJitter_fst h hb

theorem rateLimited_succ (n : Nat) (w : World) :
    (rateLimited (n + 1) w).currentBackoff =
      min (2 * (rateLimited n w).currentBackoff) maxBackoff := by
  unfold rateLimited
  rw [Function.iterate_succ_apply', calculateNextBackoff_true]

theorem rateLimited_zero (w : World) : rateLimited 0 w = w := rfl

/-- From the sixth rate-limited failure on, the backoff stays at the maximum. -/
theorem rateLimited_max (w : World) (h : w.currentBackoff = initialBackoff) (n : Nat) :
    (rateLimited (n + 6) w).currentBackoff = maxBackoff := by
  have hm : maxBackoff = 3600000000000 := rfl
  have hi : initialBackoff = 60000000000 := rfl
  induction n with
  | zero =>
    simp only [Nat.zero_add, rateLimited_succ, rateLimited_zero, h, hm, hi]
    decide
  | succ n ih =>
    rw [show n + 1 + 6 = (n + 6) + 1 from by omega, rateLimited_succ, ih, hm]
    decide

theorem SameSchedule.andThen {a b c : World} (h1 : SameSchedule a b) (h2 : SameSchedule b c) :
    SameSchedule a c :=
  ⟨h2.1.trans h1.1, h2.2.1.trans h1.2.1, h2.2.2.trans h1.2.2⟩

theorem Quiet.sameSchedule {w w1 : World} (q : Quiet w w1) : SameSchedule w w1 :=
  ⟨q.currentBackoff, q.now, q.jitterDraws⟩

theorem Marked.schedule_kept {hash : String} {w w1 : World} (m : Marked hash w w1) :
    SameSchedule w w1 :=
  ⟨m.currentBackoff, m.now, m.jitterDraws⟩

theorem checkRemoteChanged_quiet {tokens : DropboxTokens} {w w1 : World}
    {r : Except String Bool} (h : checkRemoteChanged tokens w = (r, w1)) : Quiet w w1 := by
  unfold checkRemoteChanged at h
  split at h
  · cases h
    exact getRemoteFileMetadata_quiet (by assumption)
  · cases h
    exact getRemoteFileMetadata_quiet (by assumption)
  · have q := getRemoteFileMetadata_quiet (by assumption)
    simp only at h
    repeat' split at h
    all_goals cases h; exact q

/-- The transfer operations do not touch the scheduler inputs. -/
theorem DownloadDatabase_sameSchedule {X : Externals} {w w1 : World}
    {r : Except String OperationResult} (h : DownloadDatabase X w = (r, w1)) :
    SameSchedule w w1 := by
  obtain ⟨wq, q, hc⟩ := DownloadDatabase_cases h
  have hq : SameSchedule w wq := by
    have := q.sameSchedule
    exact this
  rcases hc with ⟨_, _, h2⟩ | ⟨_, h2, _⟩ | ⟨f, _, _, _, m, _⟩ | ⟨f, tok, _, _, _, h1⟩
  · rw [h2]
    exact hq
  · rw [h2]
    exact hq
  · exact hq.andThen m.schedule_kept
  · rcases h1 with ⟨_, _, h2⟩ | ⟨body, hi, _⟩
    · rw [h2]
      exact hq
    · rcases installDownload_cases hi with ⟨_, _, _, h2⟩ | ⟨_, _, _, _, h2⟩ | ⟨_, wm, m, h3⟩
      · rw [h2]
        exact hq
      · rw [h2]
        exact hq
      · have hm : SameSchedule w wm := hq.andThen m.schedule_kept
        rcases h3 with ⟨_, _, h4⟩ | ⟨_, h4⟩
        · rw [h4]
          exact hm
        · rw [h4]
          exact hm

theorem updateLastCheckTime_currentBackoff (w : World) :
    (updateLastCheckTime w).2.currentBackoff = w.currentBackoff := by
  unfold updateLastCheckTime Store.Save
  split
  · rename_i h
    obtain ⟨_, _, _, h1⟩ := saveToFile_snd h
    rw [h1]
  · rename_i h
    obtain ⟨_, _, _, h1⟩ := saveToFile_snd h
    rw [h1]

theorem scheduledInterval_arm (d : Int) (w : World) :
    scheduledInterval (armSyncTimer d w) = some d := by
  unfold scheduledInterval armSyncTimer
  simp

theorem armSyncTimer_currentBackoff (d : Int) (w : World) :
    (armSyncTimer d w).currentBackoff = w.currentBackoff := rfl

/-- A successful poll iteration resets the stored backoff to the initial backoff and
schedules the next poll after the regular interval. -/
theorem checkForChanges_succeeds {X : Externals} {w : World} (hauto : GetAutoSync w = true)
    (hok : PollSucceeds X w) :
    (checkForChanges X w).currentBackoff = initialBackoff ∧
    scheduledInterval (checkForChanges X w) = some regularSyncInterval := by
  obtain ⟨tokens, w1, changed, w2, htok, hcheck, hdl⟩ := hok
  unfold checkForChanges
  simp only [hauto, htok, hcheck, Bool.not_true, Bool.false_eq_true, if_false]
  cases changed with
  | false =>
    simp only [Bool.false_eq_true, if_false]
    exact ⟨by rw [armSyncTimer_currentBackoff, updateLastCheckTime_currentBackoff],
      scheduledInterval_arm _ _⟩
  | true =>
    obtain ⟨r, w3, hd⟩ := hdl rfl
    simp only [if_true, hd]
    exact ⟨by rw [armSyncTimer_currentBackoff, updateLastCheckTime_currentBackoff],
      scheduledInterval_arm _ _⟩

/-- A failed poll iteration stores and schedules what `calculateNextBackoff` says, from the
backoff stored at its start. -/
theorem checkForChanges_fails {X : Externals} {v : World} (hauto : GetAutoSync v = true)
    (hfail : PollFails X v) :
    ∃ a v1, SameSchedule v v1 ∧
      (checkForChanges X v).currentBackoff = (calculateNextBackoff a v1).2.currentBackoff ∧
      scheduledInterval (checkForChanges X v) = some (calculateNextBackoff a v1).1 := by
  unfold checkForChanges
  simp only [hauto, Bool.not_true, Bool.false_eq_true, if_false]
  rcases hfail with ⟨e, v1, htok⟩ | ⟨tokens, v1, e, v2, htok, hcheck⟩ |
    ⟨tokens, v1, v2, e, v3, htok, hcheck, hd⟩
  · simp only [htok]
    exact ⟨isRateLimit e, v1, (GetValidTokens_quiet htok).sameSchedule, rfl,
      scheduledInterval_arm _ _⟩
  · simp only [htok, hcheck]
    exact ⟨isRateLimit e, v2,
      ((GetValidTokens_quiet htok).trans (checkRemoteChanged_quiet hcheck)).sameSchedule, rfl,
      scheduledInterval_arm _ _⟩
  · simp only [htok, hcheck, if_true, hd]
    have hs : SameSchedule v v3 :=
      (((GetValidTokens_quiet htok).trans (checkRemoteChanged_quiet hcheck)).sameSchedule).andThen
        (DownloadDatabase_sameSchedule hd)
    refine ⟨isRateLimit e, v3, hs, ?_, ?_⟩
    · rw [armSyncTimer_currentBackoff, updateLastCheckTime_currentBackoff]
      cases isRateLimit e <;> rfl
    · rw [scheduledInterval_arm]
      cases isRateLimit e <;> rfl

/-! ## The upload timer -/

theorem UploadDatabase_uploadTimer (X : Externals) (w : World) :
    (UploadDatabase X w).2.uploadTimer = w.uploadTimer := by
  obtain ⟨wq, q, h⟩ := UploadDatabase_cases (Prod.mk.eta.symm : UploadDatabase X w = _)
  have hq : wq.uploadTimer = w.uploadTimer := q.uploadTimer
  rcases h with ⟨_, _, h⟩ | ⟨_, _, _, _, h⟩ | ⟨_, m, _⟩ | ⟨_, ⟨_, _, m, _⟩, _⟩
  · rw [h, hq]
  · rw [h]
    exact hq
  · rw [m.uploadTimer, hq]
  · rw [m.uploadTimer]
    exact hq

/-- With no timer pending, only the clock moves. -/
theorem advanceTo_idle (X : Externals) (t : Int) (w : World) (h : w.uploadTimer = none) :
    advanceTo X t w = { w with now := t } := by
  unfold advanceTo
  rw [h]

/-- A call of `ScheduleDelayedUpload` at time `t`, with auto-sync enabled and no timer due
by then, leaves the timer set to `t + 10 s` and changes nothing else but the clock. -/
theorem schedule_step (X : Externals) (w : World) (t : Int) (hauto : GetAutoSync w = true)
    (hpending : ∀ d, w.uploadTimer = some d → t < d) :
    ScheduleDelayedUpload (advanceTo X t w) =
      { w with now := t, uploadTimer := some (t + 10 * second) } := by
  have hadv : advanceTo X t w = { w with now := t } := by
    unfold advanceTo
    split
    · rename_i d hd
      rw [if_neg (not_le.mpr (hpending d hd))]
    · rfl
  rw [hadv]
  unfold ScheduleDelayedUpload
  have hauto1 : GetAutoSync { w with now := t } = true := hauto
  rw [hauto1]
  rfl

/-- A burst of calls leaves the timer set ten seconds after the last call. -/
theorem scheduleAt_burst (X : Externals) (w0 : World) (hauto : GetAutoSync w0 = true) :
    ∀ (rest : List Int) (a : Int), List.Chain Burst a rest →
      scheduleAt X rest { w0 with now := a, uploadTimer := some (a + 10 * second) } =
        { w0 with now := (a :: rest).getLast (List.cons_ne_nil _ _),
                  uploadTimer := some ((a :: rest).getLast (List.cons_ne_nil _ _)
                    + 10 * second) } := by
  intro rest
  induction rest with
  | nil =>
    intro a _
    rfl
  | cons b rest ih =>
    intro a hchain
    obtain ⟨hab, hrest⟩ := List.chain_cons.mp hchain
    have hstep := schedule_step X { w0 with now := a, uploadTimer := some (a + 10 * second) } b
      hauto (by
        intro d hd
        cases hd
        exact hab.2)
    show scheduleAt X rest (ScheduleDelayedUpload (advanceTo X b _)) = _
    rw [hstep]
    have := ih b hrest
    rw [List.getLast_cons (List.cons_ne_nil _ _)]
    exact this

/-! ## Notifications and the poll timestamp -/

/-- What `updateLastCheckTime` changes: the timestamp in memory, and whatever the write of
the settings file changes. -/
theorem updateLastCheckTime_snd (w : World) :
    ∃ d sf fs, (updateLastCheckTime w).2 =
      { w with store := { settings := { w.store.settings with LastHashCheck := unixMilli w },
                          dirty := d },
               settingsFile := sf, fsFaults := fs } := by
  unfold updateLastCheckTime Store.Save Store.Load
  split
  · rename_i h
    obtain ⟨d, sf, fs, h1⟩ := saveToFile_snd h
    exact ⟨d, sf, fs, h1⟩
  · rename_i h
    obtain ⟨d, sf, fs, h1⟩ := saveToFile_snd h
    exact ⟨d, sf, fs, h1⟩

/-- The download publishes its three messages when it answers `downloaded`, and nothing on
any other outcome. -/
theorem DownloadDatabase_bus {X : Externals} {w w1 : World}
    {r : Except String OperationResult} (h : DownloadDatabase X w = (r, w1)) :
    (r = Except.ok { Success := true, Status := "downloaded" } ∧
      w1.bus = w.bus ++ ["REMOTE_FILE_UPDATED", "consumed_food_items_updated",
        "food_items_updated"]) ∨
    (r ≠ Except.ok { Success := true, Status := "downloaded" } ∧ w1.bus = w.bus) := by
  obtain ⟨wq, q, hc⟩ := DownloadDatabase_cases h
  have hq : wq.bus = w.bus := q.bus
  rcases hc with ⟨_, h1, h2⟩ | ⟨h1, h2, _⟩ | ⟨f, _, _, _, m, h1⟩ | ⟨f, tok, _, _, _, h1⟩
  · right
    rw [h1, h2]
    exact ⟨by simp, hq⟩
  · right
    rw [h1, h2]
    exact ⟨by simp, hq⟩
  · right
    refine ⟨?_, by rw [m.bus, hq]⟩
    rcases h1 with h1 | ⟨_, h1⟩ <;> rw [h1] <;> simp
  · rcases h1 with ⟨_, h1, h2⟩ | ⟨body, hi, _⟩
    · right
      rw [h1, h2]
      exact ⟨by simp, hq⟩
    · rcases installDownload_cases hi with ⟨_, _, h1, h2⟩ | ⟨_, _, _, h1, h2⟩ | ⟨_, wm, m, h3⟩
      · right
        rw [h1, h2]
        exact ⟨by simp, hq⟩
      · right
        rw [h1, h2]
        exact ⟨by simp, hq⟩
      · have hm : wm.bus = w.bus := by
          rw [m.bus]
          exact hq
        rcases h3 with ⟨_, h3, h4⟩ | ⟨h3, h4⟩
        · right
          rw [h3, h4]
          exact ⟨by simp, hm⟩
        · left
          rw [h4]
          exact ⟨h3, by rw [← hm]⟩

/-! ## The poll timestamp under `SyncToDropbox` -/

theorem Quiet.stamp {w w1 : World} (q : Quiet w w1) :
    w1.store.settings.LastHashCheck = w.store.settings.LastHashCheck := by
  rw [q.store]

theorem Marked.stamp_kept {hash : String} {w w1 : World} (m : Marked hash w w1) :
    w1.store.settings.LastHashCheck = w.store.settings.LastHashCheck := by
  rw [m.settings]

theorem UploadDatabase_stamp (X : Externals) (w : World) :
    (UploadDatabase X w).2.store.settings.LastHashCheck = w.store.settings.LastHashCheck := by
  obtain ⟨wq, q, hc⟩ := UploadDatabase_cases (Prod.mk.eta.symm : UploadDatabase X w = _)
  have hq : wq.store.settings.LastHashCheck = w.store.settings.LastHashCheck := q.stamp
  rcases hc with ⟨_, _, h⟩ | ⟨_, _, _, _, h⟩ | ⟨_, m, _⟩ | ⟨_, ⟨_, _, m, _⟩, _⟩
  · rw [h, hq]
  · rw [h]
    exact hq
  · rw [m.stamp_kept, hq]
  · rw [m.stamp_kept]
    exact hq

theorem DownloadDatabase_stamp (X : Externals) (w : World) :
    (DownloadDatabase X w).2.store.settings.LastHashCheck = w.store.settings.LastHashCheck := by
  obtain ⟨wq, q, hc⟩ := DownloadDatabase_cases (Prod.mk.eta.symm : DownloadDatabase X w = _)
  have hq : wq.store.settings.LastHashCheck = w.store.settings.LastHashCheck := q.stamp
  rcases hc with ⟨_, _, h2⟩ | ⟨_, h2, _⟩ | ⟨f, _, _, _, m, _⟩ | ⟨f, tok, _, _, _, h1⟩
  · rw [h2, hq]
  · rw [h2, hq]
  · rw [m.stamp_kept, hq]
  · rcases h1 with ⟨_, _, h2⟩ | ⟨body, hi, _⟩
    · rw [h2]
      exact hq
    · rcases installDownload_cases hi with ⟨_, _, _, h2⟩ | ⟨_, _, _, _, h2⟩ | ⟨_, wm, m, h3⟩
      · rw [h2]
        exact hq
      · rw [h2]
        exact hq
      · have hm : wm.store.settings.LastHashCheck = w.store.settings.LastHashCheck := by
          rw [m.stamp_kept]
          exact hq
        rcases h3 with ⟨_, _, h4⟩ | ⟨_, h4⟩
        · rw [h4]
          exact hm
        · rw [h4]
          exact hm

/-- No path through `SyncToDropbox` reaches `updateLastCheckTime`: the timestamp of the last
hash check is the same after the call as before it. -/
theorem SyncToDropbox_stamp (X : Externals) (force : Bool) (w : World) :
    (SyncToDropbox X force w).2.store.settings.LastHashCheck =
      w.store.settings.LastHashCheck := by
  unfold SyncToDropbox
  split
  · rfl
  · split
    · rfl
    · split
      · rename_i htok
        exact (GetValidTokens_quiet htok).stamp
      · rename_i tokens w1 htok
        have q1 := GetValidTokens_quiet htok
        split
        · rename_i hmeta
          exact (q1.trans (getRemoteFileMetadata_quiet hmeta)).stamp
        · rename_i hmeta
          exact (q1.trans (getRemoteFileMetadata_quiet hmeta)).stamp
        · rename_i md w2 hmeta
          have q2 : w2.store.settings.LastHashCheck = w.store.settings.LastHashCheck :=
            (q1.trans (getRemoteFileMetadata_quiet hmeta)).stamp
          split
          · exact q2
          · simp only []
            repeat' split
            all_goals first | exact q2 | rw [errOf_snd, DownloadDatabase_stamp, q2] | skip
            all_goals rw [errOf_snd, UploadDatabase_stamp, q2]

/-- The not-due test reads the timestamp and the clock, nothing else. -/
theorem shouldSync_congr {w w1 : World}
    (hstamp : w1.store.settings.LastHashCheck = w.store.settings.LastHashCheck)
    (hnow : w1.now = w.now) : shouldSync w1 = shouldSync w := by
  unfold shouldSync unixMilli Store.Load
  rw [hstamp, hnow]

/-! ## The backoff invariant -/

/-- Every poll iteration with auto-sync enabled succeeds or fails. -/
theorem poll_outcome (X : Externals) (w : World) : PollSucceeds X w ∨ PollFails X w := by
  rcases htok : GetValidTokens w with ⟨rt, w1⟩
  cases rt with
  | error e => exact Or.inr (Or.inl ⟨e, w1, htok⟩)
  | ok tokens =>
    rcases hcheck : checkRemoteChanged tokens w1 with ⟨rc, w2⟩
    cases rc with
    | error e => exact Or.inr (Or.inr (Or.inl ⟨tokens, w1, e, w2, htok, hcheck⟩))
    | ok changed =>
      cases changed with
      | false =>
        exact Or.inl ⟨tokens, w1, false, w2, htok, hcheck, fun h => absurd h (by decide)⟩
      | true =>
        rcases hd : DownloadDatabase X w2 with ⟨rd, w3⟩
        cases rd with
        | error e => exact Or.inr (Or.inr (Or.inr ⟨tokens, w1, w2, e, w3, htok, hcheck, hd⟩))
        | ok r => exact Or.inl ⟨tokens, w1, true, w2, htok, hcheck, fun _ => ⟨r, w3, hd⟩⟩

/-- What a poll iteration does to the stored backoff. -/
theorem checkForChanges_backoff (X : Externals) (w : World) :
    (checkForChanges X w).currentBackoff = w.currentBackoff ∨
    (checkForChanges X w).currentBackoff = initialBackoff ∨
    ∃ a v, v.currentBackoff = w.currentBackoff ∧
      (checkForChanges X w).currentBackoff = (calculateNextBackoff a v).2.currentBackoff := by
  by_cases hauto : GetAutoSync w = true
  · rcases poll_outcome X w with hok | hfail
    · exact Or.inr (Or.inl (checkForChanges_succeeds hauto hok).1)
    · obtain ⟨a, v, hs, hcb, _⟩ := checkForChanges_fails hauto hfail
      exact Or.inr (Or.inr ⟨a, v, hs.1, hcb⟩)
  · left
    unfold checkForChanges
    simp only [hauto, Bool.not_false, if_true]
    rfl

/-- One `calculateNextBackoff` call keeps the stored backoff between one and sixty
minutes. -/
theorem calculateNextBackoff_bounds (a : Bool) {v : World}
    (hlo : initialBackoff ≤ v.currentBackoff) (hhi : v.currentBackoff ≤ maxBackoff) :
    initialBackoff ≤ (calculateNextBackoff a v).2.currentBackoff ∧
    (calculateNextBackoff a v).2.currentBackoff ≤ maxBackoff := by
  have hi : initialBackoff = 60000000000 := rfl
  have hm : maxBackoff = 3600000000000 := rfl
  have hr : regularSyncInterval = 300000000000 := rfl
  rw [hi] at hlo ⊢
  rw [hm] at hhi ⊢
  cases a with
  | true =>
    rw [calculateNextBackoff_true, hm]
    omega
  | false =>
    have h3 : Int.tdiv (v.currentBackoff * 3) 2 = v.currentBackoff * 3 / 2 :=
      Int.tdiv_eq_ediv (by omega) (by decide)
    have h2 : Int.tdiv v.currentBackoff 2 = v.currentBackoff / 2 :=
      Int.tdiv_eq_ediv (by omega) (by decide)
    rw [calculateNextBackoff_false, h3, h2, hr]
    split <;> omega

theorem backoff_bounds {w : World} (h : BackoffReachable w) :
    initialBackoff ≤ w.currentBackoff ∧ w.currentBackoff ≤ maxBackoff := by
  induction h with
  | start w => exact ⟨Int.le_refl _, (by decide : initialBackoff ≤ maxBackoff)⟩
  | rateLimit w _ ih => exact calculateNextBackoff_bounds true ih.1 ih.2
  | failure w _ ih => exact calculateNextBackoff_bounds false ih.1 ih.2
  | success w _ _ => exact ⟨Int.le_refl _, (by decide : initialBackoff ≤ maxBackoff)⟩
  | poll X w _ ih =>
    rcases checkForChanges_backoff X w with h | h | ⟨a, v, hv, h⟩
    · rw [h]
      exact ih
    · rw [h]
      exact ⟨Int.le_refl _, (by decide : initialBackoff ≤ maxBackoff)⟩
    · rw [h]
      exact calculateNextBackoff_bounds a (by rw [hv]; exact ih.1) (by rw [hv]; exact ih.2)
  | other w w1 _ hsame ih =>
    rw [hsame]
    exact ih

/-! ## Writes of the local store -/

theorem MarkAsUnsynced_snd (w : World) :
    ∃ d sf fs, Store.MarkAsUnsynced w =
      { w with store := { settings := { w.store.settings with Synced := false }, dirty := d },
               settingsFile := sf, fsFaults := fs } := by
  unfold Store.MarkAsUnsynced
  exact saveToFile_snd2 _

/-- A successful `data.UpdateFoodItem` marks the ledger unsynced and leaves the upload
timer, the clock and the auto-sync switch alone. -/
theorem data_UpdateFoodItem_ok {P : Platform} {barcode : String}
    {updateData : List (String × Value)} {w w1 : World}
    (h : data.UpdateFoodItem P barcode updateData w = (none, w1)) :
    w1.store.settings.Synced = false ∧ w1.uploadTimer = w.uploadTimer ∧ w1.now = w.now ∧
    GetAutoSync w1 = GetAutoSync w := by
  unfold data.UpdateFoodItem at h
  simp only at h
  split at h
  · cases h
  · split at h
    · cases h
    · rename_i hd
      cases h
      unfold dbExec at hd
      split at hd
      · cases hd
      · rename_i hp
        obtain ⟨fs, rfl⟩ := popFs_snd_ex hp
        cases hd
        unfold markDatabaseAsUnsynced
        obtain ⟨d, sf, fs1, hm⟩ := MarkAsUnsynced_snd
          { w with fsFaults := fs,
                   localDB := (P.exec (Statement.updateFoodItem
                     (updateData.filter fun p => decide (p.1 ∈ foodItemColumns)) w.now barcode)
                     w.localDB).1 }
        rw [hm]
        exact ⟨rfl, rfl, rfl, rfl⟩

/-- A successful `data.DeleteFoodItem` does the same. -/
theorem data_DeleteFoodItem_ok {P : Platform} {barcode : String} {w w1 : World}
    (h : data.DeleteFoodItem P barcode w = (none, w1)) :
    w1.store.settings.Synced = false ∧ w1.uploadTimer = w.uploadTimer ∧ w1.now = w.now ∧
    GetAutoSync w1 = GetAutoSync w := by
  unfold data.DeleteFoodItem at h
  split at h
  · cases h
  · rename_i hd
    split at h
    · cases h
    · cases h
      unfold dbExec at hd
      split at hd
      · cases hd
      · rename_i hp
        obtain ⟨fs, rfl⟩ := popFs_snd_ex hp
        cases hd
        unfold markDatabaseAsUnsynced
        obtain ⟨d, sf, fs1, hm⟩ := MarkAsUnsynced_snd
          { w with fsFaults := fs,
                   localDB := (P.exec (Statement.deleteFoodItem barcode) w.localDB).1 }
        rw [hm]
        exact ⟨rfl, rfl, rfl, rfl⟩

/-- With auto-sync enabled `ScheduleDelayedUpload` leaves the timer due in ten seconds. -/
theorem ScheduleDelayedUpload_armed {w : World} (hauto : GetAutoSync w = true) :
    (ScheduleDelayedUpload w).uploadTimer = some (w.now + 10 * second) ∧
    (ScheduleDelayedUpload w).store = w.store := by
  unfold ScheduleDelayedUpload
  simp [hauto]

/-- A successful `UpdateFoodItem` has marked the ledger unsynced and called
`ScheduleDelayedUpload`. -/
theorem UpdateFoodItem_schedules {X : Externals} {P : Platform} {barcode : String}
    {updateData : List (String × Value)} {w w1 : World}
    (h : UpdateFoodItem X P barcode updateData w = (none, w1)) :
    ∃ w2, w1 = ScheduleDelayedUpload w2 ∧ w2.store.settings.Synced = false ∧
      w1.store.settings.Synced = false ∧
      (GetAutoSync w2 = true → w1.uploadTimer = some (w2.now + 10 * second)) := by
  unfold UpdateFoodItem at h
  split at h
  · cases h
  · split at h
    · cases h
    · split at h
      · cases h
      · split at h
        · cases h
        · rename_i w2 hd
          cases h
          have hs := (data_UpdateFoodItem_ok hd).1
          refine ⟨w2, rfl, hs, ?_, fun hauto => (ScheduleDelayedUpload_armed hauto).1⟩
          unfold ScheduleDelayedUpload
          split
          · exact hs
          · exact hs

/-- A successful `DeleteFoodItem` has marked the ledger unsynced and called
`ScheduleDelayedUpload`. -/
theorem DeleteFoodItem_schedules {X : Externals} {P : Platform} {barcode : String}
    {w w1 : World} (h : DeleteFoodItem X P barcode w = (none, w1)) :
    ∃ w2, w1 = ScheduleDelayedUpload w2 ∧ w2.store.settings.Synced = false ∧
      w1.store.settings.Synced = false ∧
      (GetAutoSync w2 = true → w1.uploadTimer = some (w2.now + 10 * second)) := by
  unfold DeleteFoodItem at h
  split at h
  · cases h
  · split at h
    · cases h
    · split at h
      · cases h
      · rename_i w2 hd
        cases h
        have hs := (data_DeleteFoodItem_ok hd).1
        refine ⟨w2, rfl, hs, ?_, fun hauto => (ScheduleDelayedUpload_armed hauto).1⟩
        unfold ScheduleDelayedUpload
        split
        · exact hs
        · exact hs

/-- A successful `ResetFoodItem` has marked the ledger unsynced, and the upload timer is
what the sync at its start left: it does not call `ScheduleDelayedUpload`. -/
theorem ResetFoodItem_keeps_timer {X : Externals} {P : Platform} {barcode : String}
    {w w1 : World} (h : ResetFoodItem X P barcode w = (none, w1)) :
    w1.store.settings.Synced = false ∧
    w1.uploadTimer = (SyncToDropbox X false w).2.uploadTimer := by
  unfold ResetFoodItem at h
  split at h
  · cases h
  · rename_i ws hsync
    rw [hsync]
    split at h
    · cases h
    · split at h
      · cases h
      · simp only at h
        split at h
        · cases h
        · rename_i w2 hd
          cases h
          exact ⟨(data_UpdateFoodItem_ok hd).1, (data_UpdateFoodItem_ok hd).2.1⟩

theorem PollError.fails {X : Externals} {w : World} {e : String} (h : PollError X w e) :
    PollFails X w := by
  rcases h with ⟨w1, h⟩ | ⟨t, w1, w2, h1, h2⟩ | ⟨t, w1, w2, w3, h1, h2, h3⟩
  · exact Or.inl ⟨e, w1, h⟩
  · exact Or.inr (Or.inl ⟨t, w1, e, w2, h1, h2⟩)
  · exact Or.inr (Or.inr ⟨t, w1, w2, e, w3, h1, h2, h3⟩)

/-- A poll iteration that fails with the error `e` stores and schedules what
`calculateNextBackoff` says for the outcome of the rate-limit test on `e`, from the backoff
stored at its start. -/
theorem checkForChanges_error {X : Externals} {v : World} {e : String}
    (hauto : GetAutoSync v = true) (hfail : PollError X v e) :
    ∃ v1, SameSchedule v v1 ∧
      (checkForChanges X v).currentBackoff =
        (calculateNextBackoff (isRateLimit e) v1).2.currentBackoff ∧
      scheduledInterval (checkForChanges X v) =
        some (calculateNextBackoff (isRateLimit e) v1).1 := by
  unfold checkForChanges
  simp only [hauto, Bool.not_true, Bool.false_eq_true, if_false]
  rcases hfail with ⟨v1, htok⟩ | ⟨tokens, v1, v2, htok, hcheck⟩ |
    ⟨tokens, v1, v2, v3, htok, hcheck, hd⟩
  · simp only [htok]
    exact ⟨v1, (GetValidTokens_quiet htok).sameSchedule, rfl, scheduledInterval_arm _ _⟩
  · simp only [htok, hcheck]
    exact ⟨v2,
      ((GetValidTokens_quiet htok).trans (checkRemoteChanged_quiet hcheck)).sameSchedule, rfl,
      scheduledInterval_arm _ _⟩
  · simp only [htok, hcheck, if_true, hd]
    have hs : SameSchedule v v3 :=
      (((GetValidTokens_quiet htok).trans (checkRemoteChanged_quiet hcheck)).sameSchedule).andThen
        (DownloadDatabase_sameSchedule hd)
    refine ⟨v3, hs, ?_, ?_⟩
    · rw [armSyncTimer_currentBackoff, updateLastCheckTime_currentBackoff]
      cases isRateLimit e <;> rfl
    · rw [scheduledInterval_arm]
      cases isRateLimit e <;> rfl

/-! ## The text of the error of a failed transfer operation -/

/-- An error text that begins differently is not the error of the settings write. -/
theorem not_settings_error (p x : String) (hl : 8 ≤ p.data.length)
    (hne : p.data.take 8 ≠ "error sa".data) :
    ¬ ∃ cause, p ++ x = "error saving settings: " ++ cause := by
  rintro ⟨cause, hc⟩
  have h := congrArg (fun s : String => s.data.take 8) hc
  simp only [String.data_append] at h
  rw [List.take_append_of_le_length hl,
    List.take_append_of_le_length (by decide : 8 ≤ "error saving settings: ".data.length)] at h
  exact hne h

theorem popFs_ledger {w w1 : World} {f : FsFault} (h : popFs w = (f, w1)) :
    ledger w1 = ledger w :=
  (popFs_quiet h).ledger_eq

theorem popNet_ledger {w w1 : World} {f : NetFault} (h : popNet w = (f, w1)) :
    ledger w1 = ledger w :=
  (popNet_quiet h).ledger_eq

/-- A failed installation of a downloaded body: either the error is not the one of the
settings write and the ledger is as before, or it is and the ledger is `(rh, true)`. -/
theorem installDownload_error_text {rh : String} {body : Bytes} {w w1 : World} {e : String}
    (h : installDownload rh body w = (Except.error e, w1)) :
    ((¬ ∃ cause, e = "error saving settings: " ++ cause) ∧ ledger w1 = ledger w) ∨
    ((∃ cause, e = "error saving settings: " ++ cause) ∧ ledger w1 = (rh, true)) := by
  unfold installDownload at h
  split at h
  · rename_i h1
    cases h
    exact Or.inl ⟨not_settings_error _ _ (by decide) (by decide), popFs_ledger h1⟩
  · rename_i h1
    have l1 := popFs_ledger h1
    split at h
    · rename_i h2
      cases h
      exact Or.inl ⟨not_settings_error _ _ (by decide) (by decide),
        (popFs_ledger h2).trans l1⟩
    · rename_i h2
      have l2 := (popFs_ledger h2).trans l1
      split at h
      · rename_i h3
        cases h
        exact Or.inl ⟨not_settings_error _ _ (by decide) (by decide),
          (popFs_ledger h3).trans l2⟩
      · rename_i h3
        have l3 := (popFs_ledger h3).trans l2
        split at h
        · rename_i h4
          cases h
          exact Or.inl ⟨not_settings_error _ _ (by decide) (by decide),
            (popFs_ledger h4).trans l3⟩
        · rename_i h4
          have l4 := (popFs_ledger h4).trans l3
          split at h
          · rename_i h5
            cases h
            exact Or.inl ⟨not_settings_error _ _ (by decide) (by decide),
              (popFs_ledger h5).trans l4⟩
          · rename_i h5
            have l5 := (popFs_ledger h5).trans l4
            split at h
            · rename_i h6
              cases h
              exact Or.inl ⟨not_settings_error _ _ (by decide) (by decide),
                (popFs_ledger h6).trans l5⟩
            · split at h
              · rename_i hs
                cases h
                exact Or.inr ⟨⟨_, rfl⟩, (markSave hs).ledger_marked⟩
              · cases h

/-- A failed `UploadDatabase`: either the error is not the one of the settings write and the
ledger is as before, or it is and the ledger is `(local hash, true)`. -/
theorem UploadDatabase_error_text {X : Externals} {w w1 : World} {e : String}
    (h : UploadDatabase X w = (Except.error e, w1)) :
    ((¬ ∃ cause, e = "error saving settings: " ++ cause) ∧ ledger w1 = ledger w) ∨
    ((∃ cause, e = "error saving settings: " ++ cause) ∧
      ledger w1 = (dropboxHash X w.localDB, true)) := by
  unfold UploadDatabase at h
  simp only [] at h
  split at h
  · rename_i ht
    cases h
    exact Or.inl ⟨not_settings_error _ _ (by decide) (by decide),
      (GetValidTokens_quiet ht).ledger_eq⟩
  · rename_i tok wa ht
    have q1 := GetValidTokens_quiet ht
    split at h
    · rename_i hc
      cases h
      exact Or.inl ⟨not_settings_error _ _ (by decide) (by decide),
        (q1.trans (hashComparison_quiet hc)).ledger_eq⟩
    · rename_i needs lh rh wb hc
      have q2 := q1.trans (hashComparison_quiet hc)
      have l2 : ledger wb = ledger w := q2.ledger_eq
      obtain ⟨hl, _⟩ := hashComparison_ok hc
      rw [q1.localDB] at hl
      simp only [] at hl
      subst hl
      split at h
      · split at h
        · rename_i hs
          cases h
          exact Or.inr ⟨⟨_, rfl⟩, (markSave hs).ledger_marked⟩
        · cases h
      · split at h
        · rename_i hp
          cases h
          exact Or.inl ⟨not_settings_error _ _ (by decide) (by decide),
            (popFs_ledger hp).trans l2⟩
        · rename_i wc hp
          have l3 := (popFs_ledger hp).trans l2
          split at h
          · rename_i hn
            cases h
            exact Or.inl ⟨not_settings_error _ _ (by decide) (by decide),
              (popNet_ledger hn).trans l3⟩
          · rename_i hn
            split at h
            · cases h
              refine Or.inl ⟨?_, (popNet_ledger hn).trans l3⟩
              rw [String.append_assoc, String.append_assoc]
              exact not_settings_error _ _ (by decide) (by decide)
            · split at h
              · rename_i hs
                cases h
                exact Or.inr ⟨⟨_, rfl⟩, (markSave hs).ledger_marked⟩
              · cases h
          · split at h
            · rename_i hs
              cases h
              exact Or.inr ⟨⟨_, rfl⟩, (markSave hs).ledger_marked⟩
            · cases h

/-- A failed `DownloadDatabase`: either the error is not the one of the settings write and
the ledger is as before, or it is and the ledger is `(remote hash, true)`. -/
theorem DownloadDatabase_error_text {X : Externals} {w w1 : World} {e : String}
    (h : DownloadDatabase X w = (Except.error e, w1)) :
    ((¬ ∃ cause, e = "error saving settings: " ++ cause) ∧ ledger w1 = ledger w) ∨
    ((∃ cause, e = "error saving settings: " ++ cause) ∧
      ∃ f, w.remote = some f ∧ ledger w1 = (f.metadata.ContentHash, true)) := by
  unfold DownloadDatabase at h
  simp only [] at h
  split at h
  · rename_i ht
    cases h
    exact Or.inl ⟨not_settings_error _ _ (by decide) (by decide),
      (GetValidTokens_quiet ht).ledger_eq⟩
  · rename_i tok wa ht
    have q1 := GetValidTokens_quiet ht
    split at h
    · rename_i hc
      cases h
      exact Or.inl ⟨not_settings_error _ _ (by decide) (by decide),
        (q1.trans (hashComparison_quiet hc)).ledger_eq⟩
    · rename_i needs lh rh wb hc
      have q2 := q1.trans (hashComparison_quiet hc)
      have l2 : ledger wb = ledger w := q2.ledger_eq
      obtain ⟨_, hrem⟩ := hashComparison_ok hc
      rw [q1.remote] at hrem
      simp only [] at hrem
      split at h
      · cases h
      · rename_i hne
        have hf : ∃ f, w.remote = some f ∧ rh = f.metadata.ContentHash := by
          rcases hrem with ⟨_, _, h0⟩ | ⟨f, hf, hh, _⟩
          · exact absurd h0 hne
          · exact ⟨f, hf, hh⟩
        obtain ⟨f, hf, rfl⟩ := hf
        split at h
        · split at h
          · rename_i hs
            cases h
            exact Or.inr ⟨⟨_, rfl⟩, f, hf, (markSave hs).ledger_marked⟩
          · cases h
        · split at h
          · rename_i hn
            cases h
            exact Or.inl ⟨not_settings_error _ _ (by decide) (by decide),
              (popNet_ledger hn).trans l2⟩
          · rename_i hn
            have l3 := (popNet_ledger hn).trans l2
            split at h
            · cases h
              refine Or.inl ⟨?_, l3⟩
              rw [String.append_assoc, String.append_assoc]
              exact not_settings_error _ _ (by decide) (by decide)
            · rcases installDownload_error_text h with ⟨h1, h2⟩ | ⟨h1, h2⟩
              · exact Or.inl ⟨h1, h2.trans l3⟩
              · exact Or.inr ⟨h1, f, hf, h2⟩
          · rename_i hn
            have l3 := (popNet_ledger hn).trans l2
            split at h
            · cases h
              refine Or.inl ⟨?_, l3⟩
              exact not_settings_error "download failed with status 409: path/not_found/" ""
                (by decide) (by decide)
            · rcases installDownload_error_text h with ⟨h1, h2⟩ | ⟨h1, h2⟩
              · exact Or.inl ⟨h1, h2.trans l3⟩
              · exact Or.inr ⟨h1, f, hf, h2⟩

/-! ## The transfer operations on worlds that differ in the ledger -/

theorem withLedger_self (w : World) :
    withLedger w.store.settings.StoredHash w.store.settings.Synced w = w := rfl

theorem withLedger_twice (s s1 : String) (b b1 : Bool) (w : World) :
    withLedger s b (withLedger s1 b1 w) = withLedger s b w := rfl

theorem MarkAsSynced_withLedger (hash s : String) (b : Bool) (w : World) :
    Store.MarkAsSynced hash (withLedger s b w) = Store.MarkAsSynced hash w := rfl

theorem popFs_withLedger (s : String) (b : Bool) (w : World) :
    popFs (withLedger s b w) = ((popFs w).1, withLedger s b (popFs w).2) := by
  unfold popFs
  have h : (withLedger s b w).fsFaults = w.fsFaults := rfl
  rw [h]
  cases w.fsFaults <;> rfl

theorem popNet_withLedger (s : String) (b : Bool) (w : World) :
    popNet (withLedger s b w) = ((popNet w).1, withLedger s b (popNet w).2) := by
  unfold popNet
  have h : (withLedger s b w).netFaults = w.netFaults := rfl
  rw [h]
  cases w.netFaults <;> rfl

theorem send_withLedger (r : Request) (s : String) (b : Bool) (w : World) :
    send r (withLedger s b w) = withLedger s b (send r w) := rfl

theorem LoadTokens_withLedger (s : String) (b : Bool) (w : World) :
    LoadTokens (withLedger s b w) = ((LoadTokens w).1, withLedger s b (LoadTokens w).2) := by
  unfold LoadTokens
  have h : (withLedger s b w).vault = w.vault := rfl
  rw [h]
  cases w.vault with
  | none => rfl
  | some t =>
    simp only [popFs_withLedger]
    rcases popFs w with ⟨f, w1⟩
    cases f <;> rfl

theorem SaveTokens_withLedger (t : DropboxTokens) (s : String) (b : Bool) (w : World) :
    SaveTokens t (withLedger s b w) = ((SaveTokens t w).1, withLedger s b (SaveTokens t w).2) := by
  unfold SaveTokens
  simp only [popFs_withLedger]
  rcases popFs w with ⟨f, w1⟩
  cases f <;> rfl

theorem refreshAccessToken_withLedger (rt : String) (s : String) (b : Bool) (w : World) :
    refreshAccessToken rt (withLedger s b w) =
      ((refreshAccessToken rt w).1, withLedger s b (refreshAccessToken rt w).2) := by
  unfold refreshAccessToken
  simp only [send_withLedger, popNet_withLedger]
  rcases popNet (send (Request.refreshToken rt) w) with ⟨f, w1⟩
  cases f with
  | served => rfl
  | transport msg => rfl
  | status code body =>
    simp only []
    split <;> rfl

theorem ensureValidToken_withLedger (t : Option DropboxTokens) (s : String) (b : Bool)
    (w : World) :
    ensureValidToken t (withLedger s b w) =
      ((ensureValidToken t w).1, withLedger s b (ensureValidToken t w).2) := by
  unfold ensureValidToken
  cases t with
  | none => rfl
  | some t =>
    simp only []
    have hnow : (withLedger s b w).now = w.now := rfl
    rw [hnow]
    split
    · rfl
    · split
      · rfl
      · split
        · rfl
        · simp only [refreshAccessToken_withLedger]
          rcases refreshAccessToken t.RefreshToken w with ⟨r, w1⟩
          cases r with
          | error e => rfl
          | ok newTokens =>
            simp only []
            have hnow1 : (withLedger s b w1).now = w1.now := rfl
            rw [hnow1]
            simp only [SaveTokens_withLedger]
            generalize SaveTokens _ w1 = p
            rcases p with ⟨r2, w2⟩
            cases r2 <;> rfl

theorem GetValidTokens_withLedger (s : String) (b : Bool) (w : World) :
    GetValidTokens (withLedger s b w) =
      ((GetValidTokens w).1, withLedger s b (GetValidTokens w).2) := by
  unfold GetValidTokens
  simp only [LoadTokens_withLedger]
  rcases LoadTokens w with ⟨r, w1⟩
  cases r with
  | error e => rfl
  | ok tokens =>
    simp only [ensureValidToken_withLedger]
    rcases ensureValidToken tokens w1 with ⟨r2, w2⟩
    cases r2 <;> rfl

theorem calculateDropboxHash_withLedger (X : Externals) (s : String) (b : Bool) (w : World) :
    calculateDropboxHash X (withLedger s b w) =
      ((calculateDropboxHash X w).1, withLedger s b (calculateDropboxHash X w).2) := by
  unfold calculateDropboxHash
  simp only [popFs_withLedger]
  rcases popFs w with ⟨f, w1⟩
  cases f with
  | fail msg n => rfl
  | ok =>
    simp only [popFs_withLedger]
    rcases popFs w1 with ⟨f2, w2⟩
    cases f2 <;> rfl

theorem getRemoteFileMetadata_withLedger (t : DropboxTokens) (path : String) (s : String)
    (b : Bool) (w : World) :
    getRemoteFileMetadata t path (withLedger s b w) =
      ((getRemoteFileMetadata t path w).1,
        withLedger s b (getRemoteFileMetadata t path w).2) := by
  unfold getRemoteFileMetadata
  simp only [send_withLedger, popNet_withLedger]
  rcases popNet (send (Request.getMetadata t.AccessToken path) w) with ⟨f, w1⟩
  cases f with
  | transport msg => rfl
  | status code body =>
    simp only []
    have hd : (withLedger s b w1).decoder = w1.decoder := rfl
    rw [hd]
    split
    · cases w1.decoder.errorSummary body <;> rfl
    · split <;> rfl
  | served =>
    simp only []
    have hr : (withLedger s b w1).remote = w1.remote := rfl
    rw [hr]
    cases w1.remote <;> rfl

theorem hashComparison_withLedger (X : Externals) (t : DropboxTokens) (path : String)
    (s : String) (b : Bool) (w : World) :
    hashComparison X t path (withLedger s b w) =
      ((hashComparison X t path w).1, withLedger s b (hashComparison X t path w).2) := by
  unfold hashComparison
  simp only [calculateDropboxHash_withLedger]
  rcases calculateDropboxHash X w with ⟨r, w1⟩
  cases r with
  | error e => rfl
  | ok lh =>
    simp only [getRemoteFileMetadata_withLedger]
    rcases getRemoteFileMetadata t path w1 with ⟨r2, w2⟩
    cases r2 with
    | error e => rfl
    | ok m => cases m <;> rfl

/-- The installation of a downloaded body does not depend on the ledger: the result is the
same, and the worlds reached differ at most in the ledger. -/
theorem installDownload_withLedger (rh : String) (body : Bytes) (s : String) (b : Bool)
    (w : World) :
    (installDownload rh body (withLedger s b w)).1 = (installDownload rh body w).1 ∧
    ∃ s1 b1, (installDownload rh body (withLedger s b w)).2 =
      withLedger s1 b1 (installDownload rh body w).2 := by
  unfold installDownload
  simp only [popFs_withLedger]
  rcases popFs w with ⟨f1, w1⟩
  cases f1 with
  | fail msg n => exact ⟨rfl, s, b, rfl⟩
  | ok =>
    simp only [popFs_withLedger]
    rcases popFs w1 with ⟨f2, w2⟩
    cases f2 with
    | fail msg n => exact ⟨rfl, s, b, rfl⟩
    | ok =>
      simp only [popFs_withLedger]
      rcases popFs w2 with ⟨f3, w3⟩
      cases f3 with
      | fail msg n => exact ⟨rfl, s, b, rfl⟩
      | ok =>
        simp only [popFs_withLedger]
        rcases popFs w3 with ⟨f4, w4⟩
        cases f4 with
        | fail msg n => exact ⟨rfl, s, b, rfl⟩
        | ok =>
          simp only []
          have h5 : ({ withLedger s b w4 with localDB := [] } : World) =
              withLedger s b { w4 with localDB := [] } := rfl
          rw [h5]
          simp only [popFs_withLedger]
          rcases popFs { w4 with localDB := [] } with ⟨f5, w5⟩
          cases f5 with
          | fail msg n => exact ⟨rfl, s, b, rfl⟩
          | ok =>
            simp only []
            have h6 : ({ withLedger s b w5 with localDB := body } : World) =
                withLedger s b { w5 with localDB := body } := rfl
            rw [h6]
            simp only [popFs_withLedger]
            rcases popFs { w5 with localDB := body } with ⟨f6, w6⟩
            cases f6 with
            | fail msg n => exact ⟨rfl, s, b, rfl⟩
            | ok =>
              simp only []
              rw [MarkAsSynced_withLedger]
              rcases Store.SaveToFile (Store.MarkAsSynced rh w6) with ⟨r7, w7⟩
              cases r7 with
              | some e =>
                exact ⟨rfl, w7.store.settings.StoredHash, w7.store.settings.Synced, rfl⟩
              | none =>
                exact ⟨rfl, w7.store.settings.StoredHash, w7.store.settings.Synced, rfl⟩

/-- The ledger is no input of `DownloadDatabase`: on two worlds that differ only in the
ledger it returns the same result, and the worlds reached differ at most in the ledger. -/
theorem DownloadDatabase_withLedger (X : Externals) (s : String) (b : Bool) (w : World) :
    (DownloadDatabase X (withLedger s b w)).1 = (DownloadDatabase X w).1 ∧
    ∃ s1 b1, (DownloadDatabase X (withLedger s b w)).2 =
      withLedger s1 b1 (DownloadDatabase X w).2 := by
  unfold DownloadDatabase
  simp only []
  have h0 : ({ withLedger s b w with calls := (withLedger s b w).calls ++
      [Call.DownloadDatabase] } : World) =
      withLedger s b { w with calls := w.calls ++ [Call.DownloadDatabase] } := rfl
  rw [h0]
  simp only [GetValidTokens_withLedger]
  rcases GetValidTokens { w with calls := w.calls ++ [Call.DownloadDatabase] } with ⟨r1, w1⟩
  cases r1 with
  | error e => exact ⟨rfl, s, b, rfl⟩
  | ok tokens =>
    simp only [hashComparison_withLedger]
    rcases hashComparison X tokens ("/" ++ dbFileName) w1 with ⟨r2, w2⟩
    cases r2 with
    | error e => exact ⟨rfl, s, b, rfl⟩
    | ok triple =>
      obtain ⟨needs, lh, rh⟩ := triple
      simp only []
      split
      · exact ⟨rfl, s, b, rfl⟩
      · split
        · rw [MarkAsSynced_withLedger]
          rcases Store.SaveToFile (Store.MarkAsSynced rh w2) with ⟨r3, w3⟩
          cases r3 with
          | some e =>
            exact ⟨rfl, w3.store.settings.StoredHash, w3.store.settings.Synced, rfl⟩
          | none =>
            exact ⟨rfl, w3.store.settings.StoredHash, w3.store.settings.Synced, rfl⟩
        · simp only [send_withLedger, popNet_withLedger]
          rcases popNet (send (Request.download tokens.AccessToken ("/" ++ dbFileName)) w2)
            with ⟨f, w3⟩
          cases f with
          | transport msg => exact ⟨rfl, s, b, rfl⟩
          | status code body =>
            simp only []
            split
            · exact ⟨rfl, s, b, rfl⟩
            · exact installDownload_withLedger rh body s b w3
          | served =>
            simp only []
            have hr : (withLedger s b w3).remote = w3.remote := rfl
            rw [hr]
            cases w3.remote with
            | none => exact ⟨rfl, s, b, rfl⟩
            | some f => exact installDownload_withLedger rh f.content s b w3

/-- Without a file-system fault the installation of a downloaded body succeeds. -/
theorem installDownload_calm (rh : String) (body : Bytes) {w : World} (hfs : w.fsFaults = []) :
    (installDownload rh body w).1 = Except.ok { Success := true, Status := "downloaded" } ∧
    (installDownload rh body w).2.localDB = body ∧
    ledger (installDownload rh body w).2 = (rh, true) := by
  unfold installDownload
  have h5 : ({ w with localDB := [] } : World).fsFaults = [] := hfs
  have h6 : ({ w with localDB := body } : World).fsFaults = [] := hfs
  simp only [popFs_calm hfs, popFs_calm h5, popFs_calm h6]
  obtain ⟨w1, hs, _⟩ := markSave_calm rh h6
  have m := markSave hs
  rw [hs]
  exact ⟨rfl, m.localDB, m.ledger_marked⟩

/-- In a calm world whose remote file has a content hash other than that of the local file,
`DownloadDatabase` installs the remote content. -/
theorem DownloadDatabase_calm (X : Externals) {w : World} {f : RemoteFile} (hcalm : Calm w)
    (hf : w.remote = some f) (hne : f.metadata.ContentHash ≠ "")
    (hdiff : f.metadata.ContentHash ≠ dropboxHash X w.localDB) :
    (DownloadDatabase X w).1 = Except.ok { Success := true, Status := "downloaded" } ∧
    (DownloadDatabase X w).2.localDB = f.content ∧
    ledger (DownloadDatabase X w).2 = (f.metadata.ContentHash, true) := by
  obtain ⟨hfs, hnet, t, hv, ht, hexp⟩ := hcalm
  unfold DownloadDatabase
  simp only []
  generalize hw0 : ({ w with calls := w.calls ++ [Call.DownloadDatabase] } : World) = w0
  have hfs0 : w0.fsFaults = [] := by rw [← hw0]; exact hfs
  have hnet0 : w0.netFaults = [] := by rw [← hw0]; exact hnet
  have hv0 : w0.vault = some t := by rw [← hw0]; exact hv
  have hexp0 : t.ExpiresAt - w0.now > 30 * minute := by rw [← hw0]; exact hexp
  have hf0 : w0.remote = some f := by rw [← hw0]; exact hf
  have hl0 : w0.localDB = w.localDB := by rw [← hw0]
  rw [GetValidTokens_calm hfs0 hv0 ht hexp0]
  simp only []
  rw [hashComparison_calm t _ hfs0 hnet0, hf0, hl0]
  simp only [if_neg hne, bne_iff_ne, ne_eq, hdiff, not_false_eq_true, decide_True,
    Bool.not_true, Bool.false_eq_true, if_false]
  generalize hw1 : send (Request.getMetadata t.AccessToken ("/" ++ dbFileName)) w0 = wm
  have hfs1 : wm.fsFaults = [] := by rw [← hw1]; exact hfs0
  have hnet1 : wm.netFaults = [] := by rw [← hw1]; exact hnet0
  have hf1 : wm.remote = some f := by rw [← hw1]; exact hf0
  generalize hw2 : send (Request.download t.AccessToken ("/" ++ dbFileName)) wm = wd
  have hfs2 : wd.fsFaults = [] := by rw [← hw2]; exact hfs1
  have hnet2 : wd.netFaults = [] := by rw [← hw2]; exact hnet1
  have hf2 : wd.remote = some f := by rw [← hw2]; exact hf1
  rw [popNet_calm hnet2]
  have hb : (!(f.metadata.ContentHash != dropboxHash X w.localDB)) = false := by
    simp [bne_iff_ne, hdiff]
  simp only [hf2, hb, Bool.false_eq_true, if_false]
  exact installDownload_calm _ _ hfs2

/-- The operation `DownloadDatabase` is the token check, then `hashComparison`, then
`downloadAfterComparison`. -/
theorem DownloadDatabase_phases (X : Externals) (w0 : World) :
    DownloadDatabase X w0 =
      match GetValidTokens { w0 with calls := w0.calls ++ [Call.DownloadDatabase] } with
      | (Except.error e, w1) => (Except.error ("failed to get valid tokens: " ++ e), w1)
      | (Except.ok tokens, w1) =>
        match hashComparison X tokens ("/" ++ dbFileName) w1 with
        | (Except.error e, w2) =>
          (Except.error ("error checking if download is needed: " ++ e), w2)
        | (Except.ok (needsDownload, _, remoteHash), w2) =>
          downloadAfterComparison tokens needsDownload remoteHash w2 := rfl

/-! ## The claims -/

/-- C1: once `SyncToDropbox` reaches its comparison (auto-sync enabled, check due or
forced, credentials valid, metadata of an existing remote file with a non-empty content
hash fetched) with a non-empty stored hash, it does exactly what the table says: nothing and
no error when the hashes agree and `synced` holds; `UploadDatabase` when they agree and
`synced` does not hold; `DownloadDatabase` when they differ and `synced` holds; the conflict
error and notification, without a transfer, when they differ and `synced` does not hold. -/
theorem syncToDropbox_follows_table (X : Externals) (force : Bool) (w w1 w2 : World)
    (tokens : DropboxTokens) (md : DropboxMetadata)
    (hauto : GetAutoSync w = true) (hdue : force = true ∨ shouldSync w = true)
    (htok : GetValidTokens w = (Except.ok tokens, w1))
    (hmeta : getRemoteFileMetadata tokens ("/" ++ dbFileName) w1 = (Except.ok (some md), w2))
    (hremote : md.ContentHash ≠ "") (hstored : w.store.settings.StoredHash ≠ "") :
    (w.store.settings.StoredHash = md.ContentHash ∧ w.store.settings.Synced = true →
      SyncToDropbox X force w = (none, w2) ∧ w2.calls = w.calls ∧
        transfersSent w2 = transfersSent w) ∧
    (w.store.settings.StoredHash = md.ContentHash ∧ w.store.settings.Synced = false →
      SyncToDropbox X force w = errOf (UploadDatabase X w2) ∧
        (SyncToDropbox X force w).2.calls = w.calls ++ [Call.UploadDatabase]) ∧
    (w.store.settings.StoredHash ≠ md.ContentHash ∧ w.store.settings.Synced = true →
      SyncToDropbox X force w = errOf (DownloadDatabase X w2) ∧
        (SyncToDropbox X force w).2.calls = w.calls ++ [Call.DownloadDatabase]) ∧
    (w.store.settings.StoredHash ≠ md.ContentHash ∧ w.store.settings.Synced = false →
      SyncToDropbox X force w =
        (some "remote file changed but local is not synced",
          BroadcastMessage "SHOW_SYNC_CONFLICT" w2) ∧
        w2.calls = w.calls ∧ transfersSent w2 = transfersSent w) := by
  have q := (GetValidTokens_quiet htok).trans (getRemoteFileMetadata_quiet hmeta)
  have hrun := SyncToDropbox_reached (X := X) hauto hdue htok hmeta hremote
  rw [if_neg hstored] at hrun
  refine ⟨?_, ?_, ?_, ?_⟩
  · rintro ⟨he, hs⟩
    rw [hrun]
    simp [he, hs, q.calls, q.transfers]
  · rintro ⟨he, hs⟩
    rw [hrun]
    simp [he, hs, errOf_snd, UploadDatabase_calls, q.calls]
  · rintro ⟨he, hs⟩
    rw [hrun]
    simp [he, hs, errOf_snd, DownloadDatabase_calls, q.calls]
  · rintro ⟨he, hs⟩
    rw [hrun]
    simp [he, hs, q.calls, q.transfers]

/-- Witness for C1: the two examples of the claim, `(abc, abc, unsynced)` uploads and
`(abc, xyz, unsynced)` is a conflict. -/
theorem syncToDropbox_follows_table_witness :
    SyncToDropbox sampleExternals true (syncingWorld "abc" false (some (sampleRemote "abc" [9])))
        = errOf (UploadDatabase sampleExternals
            (afterMetadata "abc" false (some (sampleRemote "abc" [9])))) ∧
    (SyncToDropbox sampleExternals true
        (syncingWorld "abc" false (some (sampleRemote "abc" [9])))).2.calls
        = [Call.UploadDatabase] ∧
    SyncToDropbox sampleExternals true (syncingWorld "abc" false (some (sampleRemote "xyz" [9])))
        = (some "remote file changed but local is not synced",
            BroadcastMessage "SHOW_SYNC_CONFLICT"
              (afterMetadata "abc" false (some (sampleRemote "xyz" [9])))) :=
  ⟨((syncToDropbox_follows_table sampleExternals true
        (syncingWorld "abc" false (some (sampleRemote "abc" [9])))
        (syncingWorld "abc" false (some (sampleRemote "abc" [9])))
        (afterMetadata "abc" false (some (sampleRemote "abc" [9])))
        sampleTokens (sampleRemote "abc" [9]).metadata rfl (Or.inl rfl) rfl rfl
        (by decide) (by decide)).2.1 ⟨rfl, rfl⟩).1,
   ((syncToDropbox_follows_table sampleExternals true
        (syncingWorld "abc" false (some (sampleRemote "abc" [9])))
        (syncingWorld "abc" false (some (sampleRemote "abc" [9])))
        (afterMetadata "abc" false (some (sampleRemote "abc" [9])))
        sampleTokens (sampleRemote "abc" [9]).metadata rfl (Or.inl rfl) rfl rfl
        (by decide) (by decide)).2.1 ⟨rfl, rfl⟩).2,
   ((syncToDropbox_follows_table sampleExternals true
        (syncingWorld "abc" false (some (sampleRemote "xyz" [9])))
        (syncingWorld "abc" false (some (sampleRemote "xyz" [9])))
        (afterMetadata "abc" false (some (sampleRemote "xyz" [9])))
        sampleTokens (sampleRemote "xyz" [9]).metadata rfl (Or.inl rfl) rfl rfl
        (by decide) (by decide)).2.2.2 ⟨by decide, rfl⟩).1⟩


/-- C2, refuted as stated: with auto-sync on, valid credentials and no remote file, a forced
`SyncToDropbox` returns nil without entering `UploadDatabase` and without sending a
transfer request. -/
theorem syncToDropbox_absent_remote_counterexample :
    (syncingWorld "abc" false none).remote = none ∧
    GetAutoSync (syncingWorld "abc" false none) = true ∧
    GetValidTokens (syncingWorld "abc" false none) =
      (Except.ok sampleTokens, syncingWorld "abc" false none) ∧
    SyncToDropbox sampleExternals true (syncingWorld "abc" false none) =
      (none, afterMetadata "abc" false none) ∧
    Call.UploadDatabase ∉ (SyncToDropbox sampleExternals true
      (syncingWorld "abc" false none)).2.calls ∧
    transfersSent (SyncToDropbox sampleExternals true (syncingWorld "abc" false none)).2 = [] :=
  ⟨rfl, rfl, rfl, rfl, by decide, by decide⟩

/-- C2, amended: when the metadata lookup finds no remote file, `SyncToDropbox` (auto-sync
enabled, check due or forced, valid credentials) returns nil and performs no transfer,
whatever the stored hash and the synced flag: neither primitive is entered, no transfer
request is sent, and the ledger, the local database file and the remote stay as they
were. -/
theorem syncToDropbox_absent_remote (X : Externals) (force : Bool) (w w1 w2 : World)
    (tokens : DropboxTokens)
    (hauto : GetAutoSync w = true) (hdue : force = true ∨ shouldSync w = true)
    (htok : GetValidTokens w = (Except.ok tokens, w1))
    (hmeta : getRemoteFileMetadata tokens ("/" ++ dbFileName) w1 = (Except.ok none, w2)) :
    w.remote = none ∧
    SyncToDropbox X force w = (none, w2) ∧ w2.calls = w.calls ∧
    transfersSent w2 = transfersSent w ∧ w2.store = w.store ∧ w2.localDB = w.localDB ∧
    w2.remote = w.remote := by
  have q1 := GetValidTokens_quiet htok
  have q := q1.trans (getRemoteFileMetadata_quiet hmeta)
  refine ⟨?_, SyncToDropbox_absent hauto hdue htok hmeta, q.calls, q.transfers, q.store,
    q.localDB, q.remote⟩
  have hm := getRemoteFileMetadata_ok hmeta
  rw [q1.remote] at hm
  cases hr : w.remote with
  | none => rfl
  | some f =>
    rw [hr] at hm
    simp at hm

/-- Witness for the amended C2. -/
theorem syncToDropbox_absent_remote_witness :
    (syncingWorld "abc" false none).remote = none ∧
    SyncToDropbox sampleExternals true (syncingWorld "abc" false none) =
      (none, afterMetadata "abc" false none) ∧
    (afterMetadata "abc" false none).calls = (syncingWorld "abc" false none).calls ∧
    transfersSent (afterMetadata "abc" false none) =
      transfersSent (syncingWorld "abc" false none) ∧
    (afterMetadata "abc" false none).store = (syncingWorld "abc" false none).store ∧
    (afterMetadata "abc" false none).localDB = (syncingWorld "abc" false none).localDB ∧
    (afterMetadata "abc" false none).remote = (syncingWorld "abc" false none).remote :=
  syncToDropbox_absent_remote sampleExternals true (syncingWorld "abc" false none)
    (syncingWorld "abc" false none) (afterMetadata "abc" false none) sampleTokens
    rfl (Or.inl rfl) rfl rfl

/-- C3, refuted as stated: on a fresh install (the defaults of `GetStore`, so auto-sync is
off and the stored hash is empty) with valid credentials and a remote file of hash `h1`,
`SyncToDropbox(force = true)` returns at once: no download, and the ledger stays
`("", false)`. -/
theorem syncToDropbox_fresh_install_counterexample :
    (freshInstall (some (sampleRemote "h1" [7, 7]))).store.settings = defaultSettings ∧
    remoteContentHash (freshInstall (some (sampleRemote "h1" [7, 7]))) = some "h1" ∧
    GetValidTokens (freshInstall (some (sampleRemote "h1" [7, 7]))) =
      (Except.ok sampleTokens, freshInstall (some (sampleRemote "h1" [7, 7]))) ∧
    SyncToDropbox sampleExternals true (freshInstall (some (sampleRemote "h1" [7, 7]))) =
      (none, freshInstall (some (sampleRemote "h1" [7, 7]))) ∧
    (SyncToDropbox sampleExternals true
      (freshInstall (some (sampleRemote "h1" [7, 7])))).2.calls = [] ∧
    ledger (SyncToDropbox sampleExternals true
      (freshInstall (some (sampleRemote "h1" [7, 7])))).2 = ("", false) :=
  ⟨rfl, rfl, rfl, rfl, rfl, rfl⟩

/-- C3, amended: with auto-sync enabled, an empty stored hash (whatever the synced flag), a
remote file whose content hash `H1` is not empty, valid credentials, and a
`DownloadDatabase` that returns without error, `SyncToDropbox(force = true)` enters
`DownloadDatabase`, returns nil, and the ledger ends as `(H1, true)`. -/
theorem syncToDropbox_fresh_install (X : Externals) (w w1 w2 w3 : World)
    (tokens : DropboxTokens) (md : DropboxMetadata) (r : OperationResult)
    (hauto : GetAutoSync w = true) (hstored : w.store.settings.StoredHash = "")
    (htok : GetValidTokens w = (Except.ok tokens, w1))
    (hmeta : getRemoteFileMetadata tokens ("/" ++ dbFileName) w1 = (Except.ok (some md), w2))
    (hremote : md.ContentHash ≠ "")
    (hdl : DownloadDatabase X w2 = (Except.ok r, w3)) :
    SyncToDropbox X true w = (none, w3) ∧
    w3.calls = w.calls ++ [Call.DownloadDatabase] ∧
    ledger w3 = (md.ContentHash, true) := by
  have q1 := GetValidTokens_quiet htok
  have q := q1.trans (getRemoteFileMetadata_quiet hmeta)
  have hrun := SyncToDropbox_reached (X := X) hauto (Or.inl rfl) htok hmeta hremote
  rw [if_pos hstored, hdl] at hrun
  refine ⟨hrun, ?_, ?_⟩
  · rw [DownloadDatabase_calls_eq hdl, q.calls]
  · have hm := getRemoteFileMetadata_ok hmeta
    rcases DownloadDatabase_ok hdl with ⟨_, hnone, _⟩ | ⟨f, hf, _, hs, _⟩
    · exfalso
      cases hr : w1.remote with
      | none =>
        rw [hr] at hm
        simp at hm
      | some g =>
        rw [hr] at hm
        simp only [Option.map_some', Option.some.injEq] at hm
        have hg : w2.remote = some g := by
          rw [(getRemoteFileMetadata_quiet hmeta).remote]
          exact hr
        have := hnone g hg
        rw [← hm] at this
        exact hremote this
    · have hf1 : w1.remote = some f := by
        rw [← (getRemoteFileMetadata_quiet hmeta).remote]
        exact hf
      rw [hf1] at hm
      simp only [Option.map_some', Option.some.injEq] at hm
      unfold ledger
      rw [hs, hm]

/-- Witness for the amended C3: the fresh-install world with auto-sync switched on. -/
theorem syncToDropbox_fresh_install_witness :
    SyncToDropbox sampleExternals true (syncingWorld "" false (some (sampleRemote "h1" [7, 7])))
      = (none, (DownloadDatabase sampleExternals
          (afterMetadata "" false (some (sampleRemote "h1" [7, 7])))).2) ∧
    (DownloadDatabase sampleExternals
      (afterMetadata "" false (some (sampleRemote "h1" [7, 7])))).2.calls =
        (syncingWorld "" false (some (sampleRemote "h1" [7, 7]))).calls ++
          [Call.DownloadDatabase] ∧
    ledger (DownloadDatabase sampleExternals
      (afterMetadata "" false (some (sampleRemote "h1" [7, 7])))).2 = ("h1", true) :=
  syncToDropbox_fresh_install sampleExternals
    (syncingWorld "" false (some (sampleRemote "h1" [7, 7])))
    (syncingWorld "" false (some (sampleRemote "h1" [7, 7])))
    (afterMetadata "" false (some (sampleRemote "h1" [7, 7])))
    (DownloadDatabase sampleExternals
      (afterMetadata "" false (some (sampleRemote "h1" [7, 7])))).2
    sampleTokens (sampleRemote "h1" [7, 7]).metadata
    { Success := true, Status := "downloaded" } rfl rfl rfl rfl (by decide) rfl


/-- C4: when `SyncToDropbox` decides Conflict (remote file with a content hash, stored hash
non-empty and different from it, `synced` false), it returns the conflict error, enters
neither transfer primitive, sends no transfer request, publishes exactly
`SHOW_SYNC_CONFLICT`, and leaves the settings store (stored hash, synced flag, last hash
check, auto-sync), the settings file, the local database file and the remote unchanged. -/
theorem syncToDropbox_conflict (X : Externals) (force : Bool) (w w1 w2 : World)
    (tokens : DropboxTokens) (md : DropboxMetadata)
    (hauto : GetAutoSync w = true) (hdue : force = true ∨ shouldSync w = true)
    (htok : GetValidTokens w = (Except.ok tokens, w1))
    (hmeta : getRemoteFileMetadata tokens ("/" ++ dbFileName) w1 = (Except.ok (some md), w2))
    (hremote : md.ContentHash ≠ "") (hstored : w.store.settings.StoredHash ≠ "")
    (hdiff : w.store.settings.StoredHash ≠ md.ContentHash)
    (hsynced : w.store.settings.Synced = false) :
    (SyncToDropbox X force w).1 = some "remote file changed but local is not synced" ∧
    (SyncToDropbox X force w).2.calls = w.calls ∧
    transfersSent (SyncToDropbox X force w).2 = transfersSent w ∧
    (SyncToDropbox X force w).2.bus = w.bus ++ ["SHOW_SYNC_CONFLICT"] ∧
    (SyncToDropbox X force w).2.store = w.store ∧
    (SyncToDropbox X force w).2.settingsFile = w.settingsFile ∧
    (SyncToDropbox X force w).2.localDB = w.localDB ∧
    (SyncToDropbox X force w).2.remote = w.remote := by
  have q := (GetValidTokens_quiet htok).trans (getRemoteFileMetadata_quiet hmeta)
  rw [SyncToDropbox_reached hauto hdue htok hmeta hremote]
  rw [if_neg hstored, if_neg hdiff, hsynced]
  exact ⟨rfl, q.calls, q.transfers, by simp [BroadcastMessage, q.bus], q.store, q.settingsFile,
    q.localDB, q.remote⟩

/-- Witness for C4: stored hash `abc`, remote hash `xyz`, unsynced. -/
theorem syncToDropbox_conflict_witness :
    (SyncToDropbox sampleExternals true
      (syncingWorld "abc" false (some (sampleRemote "xyz" [9])))).1 =
        some "remote file changed but local is not synced" ∧
    (SyncToDropbox sampleExternals true
      (syncingWorld "abc" false (some (sampleRemote "xyz" [9])))).2.bus =
        ["SHOW_SYNC_CONFLICT"] :=
  ⟨(syncToDropbox_conflict sampleExternals true
      (syncingWorld "abc" false (some (sampleRemote "xyz" [9])))
      (syncingWorld "abc" false (some (sampleRemote "xyz" [9])))
      (afterMetadata "abc" false (some (sampleRemote "xyz" [9])))
      sampleTokens (sampleRemote "xyz" [9]).metadata rfl (Or.inl rfl) rfl rfl
      (by decide) (by decide) (by decide) rfl).1,
   (syncToDropbox_conflict sampleExternals true
      (syncingWorld "abc" false (some (sampleRemote "xyz" [9])))
      (syncingWorld "abc" false (some (sampleRemote "xyz" [9])))
      (afterMetadata "abc" false (some (sampleRemote "xyz" [9])))
      sampleTokens (sampleRemote "xyz" [9]).metadata rfl (Or.inl rfl) rfl rfl
      (by decide) (by decide) (by decide) rfl).2.2.2.1⟩


/-- C5, refuted as stated: with ledger `(abc, unsynced)` and a remote file of hash `xyz`,
a call to `DownloadDatabase` returns `downloaded` and has replaced the local database
file by the remote bytes. -/
theorem downloadDatabase_conflict_counterexample :
    (syncingWorld "abc" false (some (sampleRemote "xyz" [7, 7]))).store.settings.Synced = false ∧
    (syncingWorld "abc" false (some (sampleRemote "xyz" [7, 7]))).store.settings.StoredHash
      = "abc" ∧
    remoteContentHash (syncingWorld "abc" false (some (sampleRemote "xyz" [7, 7]))) = some "xyz" ∧
    (syncingWorld "abc" false (some (sampleRemote "xyz" [7, 7]))).localDB = [1, 2, 3] ∧
    (DownloadDatabase sampleExternals
      (syncingWorld "abc" false (some (sampleRemote "xyz" [7, 7])))).1 =
        Except.ok { Success := true, Status := "downloaded" } ∧
    (DownloadDatabase sampleExternals
      (syncingWorld "abc" false (some (sampleRemote "xyz" [7, 7])))).2.localDB = [7, 7] :=
  ⟨rfl, rfl, rfl, rfl, rfl, rfl⟩

/-- C5, amended: `DownloadDatabase` does not consult the ledger, and it downloads under the
conflict ledger as under any other.  First, the ledger is no input of the call: on a world
that differs from `w` only in the ledger (`storedHash`, `synced`), the call returns the same
result, leaves the same local database file, and has sent the same requests and the same
notifications.  Second, whatever the ledger of `w`, the ledger with `synced = false` and a
stored hash different from the remote content hash included: when no fault occurs, the
credentials are valid and the remote file has a non-empty content hash other than that of
the local file, the call returns `downloaded`, the local file has been replaced by the
remote content, and the ledger is `(remoteHash, true)`.  Third, in every run: the call
leaves the local database file unchanged when the remote file is absent, has no content
hash, or has the content hash of the local file; and when it returns `downloaded`, the
remote content hash differs from that of the local file, the local file has been replaced
by the bytes downloaded (the remote content, when every 200 reply comes from the recorded
remote state), and the ledger is `(remoteHash, true)`. -/
theorem downloadDatabase_ignores_ledger (X : Externals) (w : World) :
    (∀ (stored : String) (synced : Bool),
      (DownloadDatabase X (withLedger stored synced w)).1 = (DownloadDatabase X w).1 ∧
      (DownloadDatabase X (withLedger stored synced w)).2.localDB =
        (DownloadDatabase X w).2.localDB ∧
      (DownloadDatabase X (withLedger stored synced w)).2.http =
        (DownloadDatabase X w).2.http ∧
      (DownloadDatabase X (withLedger stored synced w)).2.bus =
        (DownloadDatabase X w).2.bus) ∧
    (∀ f : RemoteFile, Calm w → w.remote = some f → f.metadata.ContentHash ≠ "" →
      f.metadata.ContentHash ≠ dropboxHash X w.localDB →
      (DownloadDatabase X w).1 = Except.ok { Success := true, Status := "downloaded" } ∧
      (DownloadDatabase X w).2.localDB = f.content ∧
      ledger (DownloadDatabase X w).2 = (f.metadata.ContentHash, true)) ∧
    (∀ (r : Except String OperationResult) (w1 : World), DownloadDatabase X w = (r, w1) →
      ((∀ f, w.remote = some f →
          f.metadata.ContentHash = "" ∨ f.metadata.ContentHash = dropboxHash X w.localDB) →
        w1.localDB = w.localDB) ∧
      (r = Except.ok { Success := true, Status := "downloaded" } → NoForgedOk w →
        ∃ f, w.remote = some f ∧ f.metadata.ContentHash ≠ dropboxHash X w.localDB ∧
          w1.localDB = f.content ∧ ledger w1 = (f.metadata.ContentHash, true))) := by
  refine ⟨?_, ?_, ?_⟩
  · intro stored synced
    obtain ⟨h1, s1, b1, h2⟩ := DownloadDatabase_withLedger X stored synced w
    refine ⟨h1, ?_, ?_, ?_⟩ <;> rw [h2] <;> rfl
  · intro f hcalm hf hne hdiff
    exact DownloadDatabase_calm X hcalm hf hne hdiff
  · intro r w1 h
    refine ⟨DownloadDatabase_keeps_localDB h, ?_⟩
    intro hr hforged
    subst hr
    rcases DownloadDatabase_ok h with ⟨h1, _⟩ | ⟨f, hf, _, hs, _, _, h1⟩
    · exact absurd h1 (by decide)
    · rcases h1 with ⟨h1, _⟩ | ⟨_, hneq, hl, _⟩
      · exact absurd h1 (by decide)
      · refine ⟨f, hf, hneq, hl hforged, ?_⟩
        unfold ledger
        rw [hs]

/-- Witness for the amended C5, at the conflict ledger `(abc, unsynced)` against a remote
file of hash `xyz`: the call downloads, exactly as it does from the same world with the
ledger `(xyz, synced)`. -/
theorem downloadDatabase_ignores_ledger_witness :
    ledger conflictWorld = ("abc", false) ∧
    remoteContentHash conflictWorld = some "xyz" ∧
    ((DownloadDatabase sampleExternals conflictWorld).1 =
        Except.ok { Success := true, Status := "downloaded" } ∧
      (DownloadDatabase sampleExternals conflictWorld).2.localDB = [7, 7] ∧
      ledger (DownloadDatabase sampleExternals conflictWorld).2 = ("xyz", true)) ∧
    (DownloadDatabase sampleExternals (withLedger "xyz" true conflictWorld)).1 =
      (DownloadDatabase sampleExternals conflictWorld).1 :=
  ⟨rfl, rfl,
    (downloadDatabase_ignores_ledger sampleExternals conflictWorld).2.1
      (sampleRemote "xyz" [7, 7])
      ⟨rfl, rfl, sampleTokens, rfl, by decide, by decide⟩ rfl (by decide) (by decide),
    ((downloadDatabase_ignores_ledger sampleExternals conflictWorld).1 "xyz" true).1⟩


/-- C6: the poll loop reuses the comparison of the reconciliation table.  In a poll
iteration with auto-sync enabled and valid credentials whose metadata lookup succeeds (an
absent remote file, or one with a non-empty content hash), `checkRemoteChanged` answers
true exactly when the table's action for the ledger and the remote hash is Download
(stored hash empty, or stored hash different from the remote hash with `synced` set), and
the iteration enters `DownloadDatabase` exactly then; so it never downloads with
`synced = false` and a non-empty stored hash, and never when the remote file is absent. -/
theorem poll_follows_table (X : Externals) (w w1 w2 : World) (tokens : DropboxTokens)
    (m : Option DropboxMetadata)
    (hauto : GetAutoSync w = true) (htok : GetValidTokens w = (Except.ok tokens, w1))
    (hmeta : getRemoteFileMetadata tokens ("/" ++ dbFileName) w1 = (Except.ok m, w2))
    (hhash : ∀ md, m = some md → md.ContentHash ≠ "") :
    checkRemoteChanged tokens w1 =
      (Except.ok (tableSaysDownload w.store.settings.StoredHash
        (m.map fun md => md.ContentHash) w.store.settings.Synced), w2) ∧
    (checkForChanges X w).calls =
      w.calls ++ (if tableSaysDownload w.store.settings.StoredHash
        (m.map fun md => md.ContentHash) w.store.settings.Synced
        then [Call.DownloadDatabase] else []) ∧
    (tableSaysDownload w.store.settings.StoredHash (m.map fun md => md.ContentHash)
        w.store.settings.Synced = true ↔
      ∃ md, m = some md ∧ (w.store.settings.StoredHash = "" ∨
        (w.store.settings.StoredHash ≠ md.ContentHash ∧ w.store.settings.Synced = true))) ∧
    (w.store.settings.Synced = false → w.store.settings.StoredHash ≠ "" →
      (checkForChanges X w).calls = w.calls) ∧
    (m = none → (checkForChanges X w).calls = w.calls) := by
  have q1 := GetValidTokens_quiet htok
  have q2 := getRemoteFileMetadata_quiet hmeta
  have hc := checkRemoteChanged_reached hmeta hhash
  rw [q1.store] at hc
  have hcalls := checkForChanges_calls (X := X) hauto htok hc (q1.trans q2).calls
  have hiff : tableSaysDownload w.store.settings.StoredHash (m.map fun md => md.ContentHash)
        w.store.settings.Synced = true ↔
      ∃ md, m = some md ∧ (w.store.settings.StoredHash = "" ∨
        (w.store.settings.StoredHash ≠ md.ContentHash ∧ w.store.settings.Synced = true)) := by
    unfold tableSaysDownload reconcileSpec
    cases m with
    | none => simp
    | some md =>
      simp only [Option.map_some']
      by_cases h0 : w.store.settings.StoredHash = ""
      · simp [h0]
      · by_cases he : w.store.settings.StoredHash = md.ContentHash <;>
          cases hs : w.store.settings.Synced <;> simp [h0, he, hs, hhash md rfl]
  refine ⟨hc, hcalls, hiff, ?_, ?_⟩
  · intro hs h0
    rw [hcalls]
    have : tableSaysDownload w.store.settings.StoredHash (m.map fun md => md.ContentHash)
        w.store.settings.Synced ≠ true := by
      intro ht
      obtain ⟨md, _, h | ⟨_, h⟩⟩ := hiff.mp ht
      · exact h0 h
      · rw [hs] at h
        cases h
    simp [this]
  · intro hm
    rw [hcalls]
    have : tableSaysDownload w.store.settings.StoredHash (m.map fun md => md.ContentHash)
        w.store.settings.Synced ≠ true := by
      intro ht
      obtain ⟨md, h, _⟩ := hiff.mp ht
      rw [hm] at h
      cases h
    simp [this]

/-- Witness for C6: ledger `(abc, synced)` against a remote file of hash `xyz`; the poll
iteration downloads. -/
theorem poll_follows_table_witness :
    checkRemoteChanged sampleTokens (syncingWorld "abc" true (some (sampleRemote "xyz" [7, 7])))
      = (Except.ok true, afterMetadata "abc" true (some (sampleRemote "xyz" [7, 7]))) ∧
    (checkForChanges sampleExternals
      (syncingWorld "abc" true (some (sampleRemote "xyz" [7, 7])))).calls =
        [Call.DownloadDatabase] :=
  ⟨(poll_follows_table sampleExternals
      (syncingWorld "abc" true (some (sampleRemote "xyz" [7, 7])))
      (syncingWorld "abc" true (some (sampleRemote "xyz" [7, 7])))
      (afterMetadata "abc" true (some (sampleRemote "xyz" [7, 7])))
      sampleTokens (some (sampleRemote "xyz" [7, 7]).metadata) rfl rfl rfl
      (by decide)).1,
   (poll_follows_table sampleExternals
      (syncingWorld "abc" true (some (sampleRemote "xyz" [7, 7])))
      (syncingWorld "abc" true (some (sampleRemote "xyz" [7, 7])))
      (afterMetadata "abc" true (some (sampleRemote "xyz" [7, 7])))
      sampleTokens (some (sampleRemote "xyz" [7, 7]).metadata) rfl rfl rfl
      (by decide)).2.1⟩


/-- C7: whenever `UploadDatabase` returns without error, its result has `Success = true`
and status `uploaded` or `upToDate`; the status is `upToDate`, and no upload request has
been sent, exactly when the remote file exists and its content hash equals the content
hash of the local file; otherwise one upload request carrying the whole local file in
overwrite mode has been sent and the status is `uploaded`; in both cases the ledger ends
as `(content hash of the local file, true)`. -/
theorem uploadDatabase_result (X : Externals) (w w1 : World) (r : OperationResult)
    (h : UploadDatabase X w = (Except.ok r, w1)) :
    r.Success = true ∧ (r.Status = "uploaded" ∨ r.Status = "upToDate") ∧
    (r.Status = "upToDate" ↔
      ∃ f, w.remote = some f ∧ f.metadata.ContentHash = dropboxHash X w.localDB) ∧
    (r.Status = "upToDate" → transfersSent w1 = transfersSent w) ∧
    (r.Status = "uploaded" → ∃ tok, transfersSent w1 =
      transfersSent w ++ [Request.upload tok ("/" ++ dbFileName) "overwrite" w.localDB]) ∧
    ledger w1 = (dropboxHash X w.localDB, true) ∧ w1.localDB = w.localDB := by
  obtain ⟨hs, hl, _, _, hc⟩ := UploadDatabase_ok h
  have hled : ledger w1 = (dropboxHash X w.localDB, true) := by
    unfold ledger
    rw [hs]
  rcases hc with ⟨hr, hex, _, ht⟩ | ⟨hr, hnex, _, ht⟩
  · subst hr
    exact ⟨rfl, Or.inr rfl, ⟨fun _ => hex, fun _ => rfl⟩, fun _ => ht,
      fun h0 => absurd h0 (by decide), hled, hl⟩
  · subst hr
    exact ⟨rfl, Or.inl rfl, ⟨fun h0 => absurd h0 (by decide), fun h0 => absurd h0 hnex⟩,
      fun h0 => absurd h0 (by decide), fun _ => ht, hled, hl⟩

/-- Witness for C7: a first upload to an empty remote. -/
theorem uploadDatabase_result_witness :
    (UploadDatabase sampleExternals (syncingWorld "abc" false none)).1 =
      Except.ok { Success := true, Status := "uploaded" } ∧
    ledger (UploadDatabase sampleExternals (syncingWorld "abc" false none)).2 =
      (dropboxHash sampleExternals (syncingWorld "abc" false none).localDB, true) :=
  ⟨rfl, (uploadDatabase_result sampleExternals (syncingWorld "abc" false none)
    (UploadDatabase sampleExternals (syncingWorld "abc" false none)).2
    { Success := true, Status := "uploaded" } rfl).2.2.2.2.2.1⟩


/-- C8: against a remote store that reports for bytes it has stored their content hash,
and whose 200 replies are genuine, a call of `UploadDatabase` that starts from a remote
file that is absent or has another content hash than the local file and returns without
error returns `uploaded`; a second call with the local file and the remote as the first
call left them sends no transfer request, never returns `uploaded`, and returns `upToDate`
if it returns without error.  In a calm world both calls do return without error:
`uploaded`, then `upToDate`. -/
theorem uploadDatabase_twice (X : Externals) (w : World)
    (hhonest : ∀ b : Bytes, (X.stored b).ContentHash = dropboxHash X b)
    (hforged : NoForgedOk w)
    (hstart : ¬ ∃ f, w.remote = some f ∧ f.metadata.ContentHash = dropboxHash X w.localDB) :
    (∀ r1 w1, UploadDatabase X w = (Except.ok r1, w1) →
      r1.Status = "uploaded" ∧
      ∀ w2, w2.localDB = w1.localDB → w2.remote = w1.remote →
        transfersSent (UploadDatabase X w2).2 = transfersSent w2 ∧
        (UploadDatabase X w2).1 ≠ Except.ok { Success := true, Status := "uploaded" } ∧
        ∀ r2, (UploadDatabase X w2).1 = Except.ok r2 → r2.Status = "upToDate") ∧
    (Calm w → ∃ w1 w2,
      UploadDatabase X w = (Except.ok { Success := true, Status := "uploaded" }, w1) ∧
      UploadDatabase X w1 = (Except.ok { Success := true, Status := "upToDate" }, w2)) := by
  have hgen : ∀ r1 w1, UploadDatabase X w = (Except.ok r1, w1) →
      r1 = { Success := true, Status := "uploaded" } ∧
      ∀ w2, w2.localDB = w1.localDB → w2.remote = w1.remote →
        ∀ r w3, UploadDatabase X w2 = (r, w3) →
          transfersSent w3 = transfersSent w2 ∧
          (r = Except.ok { Success := true, Status := "upToDate" } ∨ ∃ e, r = Except.error e) := by
    intro r1 w1 h1
    obtain ⟨_, hl, _, _, hc⟩ := UploadDatabase_ok h1
    rcases hc with ⟨_, hex, _⟩ | ⟨hr, _, hrem, _⟩
    · exact absurd hex hstart
    · refine ⟨hr, ?_⟩
      intro w2 hl2 hr2 r w3 h2
      have hrem2 : w2.remote = some ⟨w.localDB, X.stored w.localDB⟩ := by
        rw [hr2]
        exact hrem hforged
      have hhash2 : (X.stored w.localDB).ContentHash = dropboxHash X w2.localDB := by
        rw [hhonest, hl2, hl]
      exact UploadDatabase_same_hash h2 ⟨⟨w.localDB, X.stored w.localDB⟩, hrem2, hhash2⟩
  constructor
  · intro r1 w1 h1
    obtain ⟨hr1, h2⟩ := hgen r1 w1 h1
    refine ⟨by rw [hr1], ?_⟩
    intro w2 hl2 hr2
    obtain ⟨ht, hres⟩ := h2 w2 hl2 hr2 _ _ Prod.mk.eta.symm
    refine ⟨ht, ?_, ?_⟩
    · rcases hres with hres | ⟨e, hres⟩ <;> rw [hres] <;> simp
    · intro r2 hr
      rcases hres with hres | ⟨e, hres⟩
      · rw [hres] at hr
        cases hr
        rfl
      · rw [hres] at hr
        cases hr
  · intro hcalm
    obtain ⟨r1, w1, h1, hcalm1⟩ := UploadDatabase_calm X hcalm
    obtain ⟨r2, w2, h2, _⟩ := UploadDatabase_calm X hcalm1
    obtain ⟨hr1, hsecond⟩ := hgen r1 w1 h1
    obtain ⟨_, hres⟩ := hsecond w1 rfl rfl _ _ h2
    subst hr1
    refine ⟨w1, w2, h1, ?_⟩
    rcases hres with hres | ⟨e, hres⟩
    · rw [h2, hres]
    · cases hres

/-- Witness for C8: two uploads in a row from the sample install with an empty remote. -/
theorem uploadDatabase_twice_witness :
    ∃ w1 w2,
      UploadDatabase sampleExternals (syncingWorld "abc" false none) =
        (Except.ok { Success := true, Status := "uploaded" }, w1) ∧
      UploadDatabase sampleExternals w1 =
        (Except.ok { Success := true, Status := "upToDate" }, w2) :=
  (uploadDatabase_twice sampleExternals (syncingWorld "abc" false none)
    (fun _ => rfl)
    (by simp [NoForgedOk, syncingWorld, freshInstall])
    (by simp [syncingWorld, freshInstall])).2
    ⟨rfl, rfl, sampleTokens, rfl, by decide, by decide⟩


/-- C9, refuted as stated, at two inputs with valid credentials and a successful metadata
lookup.  First: the remote content hash equals the content hash of the local file but the
settings file cannot be written; `DownloadDatabase` returns an error, not `upToDate`,
although the ledger in memory has become `(remoteHash, true)`.  Second: the remote file
exists but its metadata carries no content hash; `DownloadDatabase` returns `notFound`
and downloads nothing, although nothing stands in the way of the transfer. -/
theorem downloadDatabase_outcome_counterexample :
    (GetValidTokens diskFullWorld).1 = Except.ok sampleTokens ∧
    remoteContentHash diskFullWorld = some (dropboxHash sampleExternals diskFullWorld.localDB) ∧
    (DownloadDatabase sampleExternals diskFullWorld).1 =
      Except.error "error saving settings: error writing settings file: disk full" ∧
    ledger (DownloadDatabase sampleExternals diskFullWorld).2 = ("010203", true) ∧
    (syncingWorld "abc" false (some (sampleRemote "" [7, 7]))).remote =
      some (sampleRemote "" [7, 7]) ∧
    Calm (syncingWorld "abc" false (some (sampleRemote "" [7, 7]))) ∧
    DownloadDatabase sampleExternals (syncingWorld "abc" false (some (sampleRemote "" [7, 7])))
      = (Except.ok { Success := false, Status := "notFound" },
          { afterMetadata "abc" false (some (sampleRemote "" [7, 7])) with
            calls := [Call.DownloadDatabase] }) :=
  ⟨rfl, rfl, rfl, rfl, rfl, ⟨rfl, rfl, sampleTokens, rfl, by decide, by decide⟩, rfl⟩

/-- C9, amended: given valid credentials and a successful hash comparison (local hash
computed, metadata lookup answered), `DownloadDatabase` decides three ways.  If the remote
file is absent or its metadata carries no content hash it returns `notFound` with no error
and changes neither the settings store, the settings file, the local file nor the bus, and
sends no transfer request.  If the remote content hash equals the content hash of the local
file it downloads nothing, the ledger becomes `(remoteHash, true)`, and the result is
`upToDate` when the settings are persisted and the error of the write otherwise.
Otherwise, when the call returns without error, the result is `downloaded`, the ledger is
`(remoteHash, true)`, the three notifications have been published, and the local file
holds the downloaded bytes (the remote content, when 200 replies are genuine). -/
theorem downloadDatabase_outcome (X : Externals) (w wa wb : World) (tok : DropboxTokens)
    (needs : Bool) (lh rh : String)
    (htok : GetValidTokens { w with calls := w.calls ++ [Call.DownloadDatabase] } =
      (Except.ok tok, wa))
    (hcmp : hashComparison X tok ("/" ++ dbFileName) wa = (Except.ok (needs, lh, rh), wb)) :
    lh = dropboxHash X w.localDB ∧ rh = (remoteContentHash w).getD "" ∧
    (rh = "" →
      DownloadDatabase X w = (Except.ok { Success := false, Status := "notFound" }, wb) ∧
      wb.store = w.store ∧ wb.settingsFile = w.settingsFile ∧ wb.localDB = w.localDB ∧
      wb.bus = w.bus ∧ transfersSent wb = transfersSent w) ∧
    (rh ≠ "" → rh = lh →
      ∀ res wc, Store.SaveToFile (Store.MarkAsSynced rh wb) = (res, wc) →
        DownloadDatabase X w =
          ((match res with
            | none => Except.ok { Success := true, Status := "upToDate" }
            | some e => Except.error ("error saving settings: " ++ e)), wc) ∧
        ledger wc = (rh, true) ∧ transfersSent wc = transfersSent w ∧
        wc.localDB = w.localDB ∧ wc.bus = w.bus) ∧
    (rh ≠ "" → rh ≠ lh →
      ∀ r wc, DownloadDatabase X w = (Except.ok r, wc) →
        r = { Success := true, Status := "downloaded" } ∧ ledger wc = (rh, true) ∧
        wc.bus = w.bus ++ ["REMOTE_FILE_UPDATED", "consumed_food_items_updated",
                           "food_items_updated"] ∧
        (NoForgedOk w → ∃ f, w.remote = some f ∧ wc.localDB = f.content)) := by
  have q1 := GetValidTokens_quiet htok
  have q := q1.trans (hashComparison_quiet hcmp)
  obtain ⟨hl, hrem⟩ := hashComparison_ok hcmp
  have q1l : wa.localDB = w.localDB := q1.localDB
  have q1r : wa.remote = w.remote := q1.remote
  rw [q1l] at hl hrem
  rw [q1r] at hrem
  have hrh : rh = (remoteContentHash w).getD "" := by
    unfold remoteContentHash
    rcases hrem with ⟨hn, _, h⟩ | ⟨f, hf, h, _⟩
    · rw [hn, h]
      rfl
    · rw [hf, h]
      rfl
  have hneeds : rh ≠ "" → (needs = false ↔ rh = lh) := by
    intro hne
    rcases hrem with ⟨_, _, h⟩ | ⟨f, _, h, hn⟩
    · exact absurd h hne
    · rw [hn, h, hl]
      simp
  have hrun : DownloadDatabase X w =
      (if rh = "" then (Except.ok { Success := false, Status := "notFound" }, wb)
      else if !needs then
        (match Store.SaveToFile (Store.MarkAsSynced rh wb) with
        | (some e, w3) => (Except.error ("error saving settings: " ++ e), w3)
        | (none, w3) => (Except.ok { Success := true, Status := "upToDate" }, w3))
      else (DownloadDatabase X w)) := by
    by_cases h0 : rh = ""
    · unfold DownloadDatabase
      simp only [htok, hcmp, h0, if_true]
    · cases hn : needs with
      | true => simp [h0]
      | false =>
        unfold DownloadDatabase
        simp only [htok, hcmp, h0, hn, if_false, Bool.not_false, if_true]
  refine ⟨hl, hrh, ?_, ?_, ?_⟩
  · intro h0
    rw [hrun, if_pos h0]
    exact ⟨rfl, q.store, q.settingsFile, q.localDB, q.bus, q.transfers⟩
  · intro hne heq res wc hs
    have hn : needs = false := (hneeds hne).mpr heq
    have m := markSave hs
    rw [hrun, if_neg hne, hn, hs]
    refine ⟨?_, ?_, ?_, ?_, ?_⟩
    · cases res <;> rfl
    · unfold ledger
      rw [m.settings]
    · have := q.transfers
      unfold transfersSent at this ⊢
      rw [m.http]
      exact this
    · rw [m.localDB]
      exact q.localDB
    · rw [m.bus]
      exact q.bus
  · intro hne hneq r wc hd
    rcases DownloadDatabase_ok hd with ⟨_, hnone, _⟩ | ⟨f, hf, _, hs, _, _, hc⟩
    · exfalso
      rcases hrem with ⟨_, _, h⟩ | ⟨f, hf, h, _⟩
      · exact hne h
      · exact hne (h.trans (hnone f hf))
    · have hfh : f.metadata.ContentHash = rh := by
        rcases hrem with ⟨hn, _, _⟩ | ⟨g, hg, h, _⟩
        · rw [hn] at hf
          cases hf
        · rw [hf] at hg
          cases hg
          exact h.symm
      rcases hc with ⟨_, heq, _⟩ | ⟨hr, _, hlocal, _, hbus⟩
      · exact absurd (hfh.symm.trans (heq.trans hl.symm)) hneq
      · refine ⟨hr, ?_, hbus, fun hforged => ⟨f, hf, hlocal hforged⟩⟩
        unfold ledger
        rw [hs, hfh]

/-- Witness for the amended C9: the conflict world, where the download goes through. -/
theorem downloadDatabase_outcome_witness :
    (DownloadDatabase sampleExternals
      (syncingWorld "abc" false (some (sampleRemote "xyz" [7, 7])))).1 =
        Except.ok { Success := true, Status := "downloaded" } ∧
    ledger (DownloadDatabase sampleExternals
      (syncingWorld "abc" false (some (sampleRemote "xyz" [7, 7])))).2 = ("xyz", true) ∧
    (DownloadDatabase sampleExternals
      (syncingWorld "abc" false (some (sampleRemote "xyz" [7, 7])))).2.bus =
        ["REMOTE_FILE_UPDATED", "consumed_food_items_updated", "food_items_updated"] :=
  ⟨rfl,
   ((downloadDatabase_outcome sampleExternals
      (syncingWorld "abc" false (some (sampleRemote "xyz" [7, 7])))
      { syncingWorld "abc" false (some (sampleRemote "xyz" [7, 7])) with
        calls := [Call.DownloadDatabase] }
      { afterMetadata "abc" false (some (sampleRemote "xyz" [7, 7])) with
        calls := [Call.DownloadDatabase] }
      sampleTokens true "010203" "xyz" rfl rfl).2.2.2.2 (by decide) (by decide)
      { Success := true, Status := "downloaded" }
      (DownloadDatabase sampleExternals
        (syncingWorld "abc" false (some (sampleRemote "xyz" [7, 7])))).2 rfl).2.1,
   ((downloadDatabase_outcome sampleExternals
      (syncingWorld "abc" false (some (sampleRemote "xyz" [7, 7])))
      { syncingWorld "abc" false (some (sampleRemote "xyz" [7, 7])) with
        calls := [Call.DownloadDatabase] }
      { afterMetadata "abc" false (some (sampleRemote "xyz" [7, 7])) with
        calls := [Call.DownloadDatabase] }
      sampleTokens true "010203" "xyz" rfl rfl).2.2.2.2 (by decide) (by decide)
      { Success := true, Status := "downloaded" }
      (DownloadDatabase sampleExternals
        (syncingWorld "abc" false (some (sampleRemote "xyz" [7, 7])))).2 rfl).2.2.1⟩

/-- C10, refuted as stated.  `DownloadDatabase` records the content hash of the metadata
reply for the bytes of the later download reply.  In `raceWorld` the remote store is honest
and nothing but the call writes the local file; the metadata request finds the remote file
`[7, 7]` with hash `0707`, a second device then replaces it, and the download request is
answered with `[9, 9]`, whose content hash is `0909`.  The call returns `downloaded`, the
local file is `[9, 9]`, and the ledger it has just written is `(0707, true)`: `synced` is
set and the stored hash is not the content hash of the local file.  The same happens when
the change of the remote file is an explicit step between the two requests: after
`hashComparison` has returned `(true, 010203, 0707)` in `comparedWorld`, the remote file
becomes `[9, 9]` with its true hash (`overtakenWorld`), and the rest of the call, served
from that state, installs `[9, 9]` and records `0707`. -/
theorem synced_invariant_counterexample :
    HonestRemote sampleExternals raceWorld ∧
    raceWorld.store.settings.Synced = false ∧
    (DownloadDatabase sampleExternals raceWorld).1 =
      Except.ok { Success := true, Status := "downloaded" } ∧
    (DownloadDatabase sampleExternals raceWorld).2.localDB = [9, 9] ∧
    ledger (DownloadDatabase sampleExternals raceWorld).2 = ("0707", true) ∧
    (DownloadDatabase sampleExternals raceWorld).2.syncedSnapshot = some [9, 9] ∧
    dropboxHash sampleExternals [9, 9] = "0909" ∧
    ¬ SyncedInvariant sampleExternals (DownloadDatabase sampleExternals raceWorld).2 ∧
    (hashComparison sampleExternals sampleTokens ("/" ++ dbFileName)
      (GetValidTokens
        { syncingWorld "abc" false (some (sampleRemote "0707" [7, 7])) with
          calls := [Call.DownloadDatabase] }).2).1 = Except.ok (true, "010203", "0707") ∧
    HonestRemote sampleExternals overtakenWorld ∧
    overtakenWorld.netFaults = [] ∧
    (downloadAfterComparison sampleTokens true "0707" overtakenWorld).1 =
      Except.ok { Success := true, Status := "downloaded" } ∧
    (downloadAfterComparison sampleTokens true "0707" overtakenWorld).2.localDB = [9, 9] ∧
    ledger (downloadAfterComparison sampleTokens true "0707" overtakenWorld).2 =
      ("0707", true) := by
  have honest : ∀ b : Bytes,
      (sampleExternals.stored b).ContentHash = dropboxHash sampleExternals b := fun _ => rfl
  refine ⟨⟨honest, ?_⟩, rfl, rfl, rfl, rfl, rfl, rfl, ?_, rfl, ⟨honest, ?_⟩, rfl, rfl, rfl, rfl⟩
  · intro f hf
    have h : f = sampleRemote "0707" [7, 7] := (Option.some.inj hf).symm
    subst h
    rfl
  · intro h
    obtain ⟨b, hb, hh⟩ := h rfl
    have h1 : b = [9, 9] := (Option.some.inj hb).symm
    subst h1
    exact absurd hh (by decide)
  · intro f hf
    have h : f = sampleRemote "0909" [9, 9] := (Option.some.inj hf).symm
    subst h
    rfl


/-- C10, amended: the synced invariant, for a remote file that does not change during a
call.  Whatever `UploadDatabase` does, and whatever `DownloadDatabase` does against an
honest remote store whose file stays the same from the metadata request to the download
request of the call (every 200 reply comes from the one remote state the call started
with), either the ledger is as before or `MarkAsSynced` has run and the stored hash it
recorded is the content hash of the local database file as it is then (`synced` is true,
and the history variable holds that file).  Hence in every state reached through these
operations (with arbitrary changes of the environment, the remote file included, and
`MarkAsUnsynced` between the calls), `synced = true` implies that the stored hash is the
content hash of the local file as it was when `synced` was last set. -/
theorem synced_invariant (X : Externals) :
    (∀ w r w1, UploadDatabase X w = (r, w1) → LedgerUntouched w w1 ∨ FreshlyMarked X w1) ∧
    (∀ w r w1, HonestRemote X w → NoForgedOk w → DownloadDatabase X w = (r, w1) →
      LedgerUntouched w w1 ∨ FreshlyMarked X w1) ∧
    (∀ w, Reachable X w → SyncedInvariant X w) := by
  refine ⟨fun w r w1 h => UploadDatabase_marks h,
    fun w r w1 h1 h2 h => DownloadDatabase_marks h h1 h2, ?_⟩
  have hstep : ∀ w w1 : World, SyncedInvariant X w →
      LedgerUntouched w w1 ∨ FreshlyMarked X w1 → SyncedInvariant X w1 := by
    intro w w1 hinv hc hs
    rcases hc with ⟨h1, h2⟩ | ⟨_, h2, h3⟩
    · rw [h1] at hs ⊢
      rw [h2]
      exact hinv hs
    · exact ⟨_, h2, h3⟩
  intro w hw
  induction hw with
  | start w h =>
    intro hs
    rw [h] at hs
    cases hs
  | environment w w1 _ hstore hsnap ih =>
    intro hs
    rw [hstore] at hs ⊢
    rw [hsnap]
    exact ih hs
  | unsynced w _ _ =>
    intro hs
    rw [MarkAsUnsynced_synced] at hs
    cases hs
  | upload w _ ih => exact hstep _ _ ih (UploadDatabase_marks Prod.mk.eta.symm)
  | download w _ hremote hforged ih =>
    exact hstep _ _ ih (DownloadDatabase_marks Prod.mk.eta.symm hremote hforged)

/-- Witness for the amended C10: starting unsynced, a download against an honest remote
whose file does not change during the call reaches a synced state, and the invariant holds
there. -/
theorem synced_invariant_witness :
    (DownloadDatabase sampleExternals
      (syncingWorld "abc" false (some (sampleRemote "0707" [7, 7])))).2.store.settings.Synced
        = true ∧
    SyncedInvariant sampleExternals (DownloadDatabase sampleExternals
      (syncingWorld "abc" false (some (sampleRemote "0707" [7, 7])))).2 :=
  ⟨rfl, (synced_invariant sampleExternals).2.2 _
    (Reachable.download _ (Reachable.start _ rfl)
      ⟨fun _ => rfl, fun f hf => by
        simp only [syncingWorld, freshInstall, Option.some.injEq] at hf
        subst hf
        rfl⟩
      (by simp [NoForgedOk, syncingWorld, freshInstall]))⟩

/-- C11, refuted as stated: both transfer operations can return an error after the ledger
in memory has changed.  In `diskFullWorld` the remote content hash equals the hash of the
local file and the settings file cannot be written: `UploadDatabase` and `DownloadDatabase`
both return the error of the settings write, and the ledger, `("abc", false)` before the
call, is `("010203", true)` after it.  In `diskFullUploadWorld` the upload itself is served
and the settings write fails: again an error, and the ledger has changed. -/
theorem transfer_atomicity_counterexample :
    ledger diskFullWorld = ("abc", false) ∧
    (UploadDatabase sampleExternals diskFullWorld).1 =
      Except.error "error saving settings: error writing settings file: disk full" ∧
    ledger (UploadDatabase sampleExternals diskFullWorld).2 = ("010203", true) ∧
    (DownloadDatabase sampleExternals diskFullWorld).1 =
      Except.error "error saving settings: error writing settings file: disk full" ∧
    ledger (DownloadDatabase sampleExternals diskFullWorld).2 = ("010203", true) ∧
    ledger diskFullUploadWorld = ("abc", false) ∧
    (UploadDatabase sampleExternals diskFullUploadWorld).1 =
      Except.error "error saving settings: error writing settings file: disk full" ∧
    ledger (UploadDatabase sampleExternals diskFullUploadWorld).2 = ("010203", true) :=
  ⟨rfl, rfl, rfl, rfl, rfl, rfl, rfl, rfl⟩

/-- C11, amended: whenever `UploadDatabase` or `DownloadDatabase` returns an error other
than the failure to persist the settings, the ledger in memory (`storedHash`, `synced`) is
the same as before the call.  When the error is the failure to persist the settings
("error saving settings: ..."), it is raised after `MarkAsSynced`, and the ledger in memory
is then `(hash, true)`, where `hash` is the content hash of the local file (upload) or the
content hash reported for the remote file (download). -/
theorem transfer_error_ledger (X : Externals) (w w1 : World) (e : String) :
    (UploadDatabase X w = (Except.error e, w1) →
      ((¬ ∃ cause, e = "error saving settings: " ++ cause) → ledger w1 = ledger w) ∧
      ((∃ cause, e = "error saving settings: " ++ cause) →
        ledger w1 = (dropboxHash X w.localDB, true))) ∧
    (DownloadDatabase X w = (Except.error e, w1) →
      ((¬ ∃ cause, e = "error saving settings: " ++ cause) → ledger w1 = ledger w) ∧
      ((∃ cause, e = "error saving settings: " ++ cause) →
        ∃ f, w.remote = some f ∧ ledger w1 = (f.metadata.ContentHash, true))) := by
  constructor
  · intro h
    rcases UploadDatabase_error_text h with ⟨h1, h2⟩ | ⟨h1, h2⟩
    · exact ⟨fun _ => h2, fun h3 => absurd h3 h1⟩
    · exact ⟨fun h3 => absurd h1 h3, fun _ => h2⟩
  · intro h
    rcases DownloadDatabase_error_text h with ⟨h1, h2⟩ | ⟨h1, h2⟩
    · exact ⟨fun _ => h2, fun h3 => absurd h3 h1⟩
    · exact ⟨fun h3 => absurd h1 h3, fun _ => h2⟩

/-- C11, amended, at three failing calls.  The download and the upload of `diskFullWorld`
fail on the settings write, and the ledger has become `("010203", true)`; the upload of a
world whose first file operation fails returns another error, and the ledger is as it
was. -/
theorem transfer_error_ledger_witness :
    (∃ f, diskFullWorld.remote = some f ∧
      ledger (DownloadDatabase sampleExternals diskFullWorld).2 =
        (f.metadata.ContentHash, true)) ∧
    ledger (UploadDatabase sampleExternals diskFullWorld).2 =
      (dropboxHash sampleExternals diskFullWorld.localDB, true) ∧
    ledger (UploadDatabase sampleExternals
        { diskFullWorld with fsFaults := [FsFault.fail "locked" 0] }).2 =
      ledger { diskFullWorld with fsFaults := [FsFault.fail "locked" 0] } :=
  ⟨((transfer_error_ledger sampleExternals diskFullWorld
      (DownloadDatabase sampleExternals diskFullWorld).2
      "error saving settings: error writing settings file: disk full").2 rfl).2 ⟨_, rfl⟩,
   ((transfer_error_ledger sampleExternals diskFullWorld
      (UploadDatabase sampleExternals diskFullWorld).2
      "error saving settings: error writing settings file: disk full").1 rfl).2 ⟨_, rfl⟩,
   ((transfer_error_ledger sampleExternals
      { diskFullWorld with fsFaults := [FsFault.fail "locked" 0] }
      (UploadDatabase sampleExternals
        { diskFullWorld with fsFaults := [FsFault.fail "locked" 0] }).2
      "failed to get valid tokens: error loading tokens: failed to read tokens: locked").1
        rfl).1 (not_settings_error "failed to get valid tokens: "
          "error loading tokens: failed to read tokens: locked" (by decide) (by decide))⟩


/-- C12: for every content `c` of the file (read without an I/O fault),
`calculateDropboxHash` returns the lowercase hexadecimal encoding of SHA-256 applied to the
concatenation, in file order, of the SHA-256 digests of the consecutive blocks of `c`: the
blocks put end to end are `c`, every block except possibly the last has exactly
`4 * 1024 * 1024` bytes, no block is empty or longer, and their number is `len(c)` divided
by the block size, rounded up.  For the empty content there is no block and the result is
the encoded digest of the empty byte sequence, as the general formula says.  The encoding
writes two digits of `0123456789abcdef` per byte, high half first. -/
theorem calculateDropboxHash_formula (X : Externals) (w : World) (h : w.fsFaults = []) :
    calculateDropboxHash X w =
      (Except.ok (hexEncode (X.sha256 ((readBlocks w.localDB).map X.sha256).flatten)), w) ∧
    (readBlocks w.localDB).flatten = w.localDB ∧
    (∀ b ∈ (readBlocks w.localDB).dropLast, b.length = 4 * 1024 * 1024) ∧
    (∀ b ∈ readBlocks w.localDB, 0 < b.length ∧ b.length ≤ 4 * 1024 * 1024) ∧
    (readBlocks w.localDB).length = (w.localDB.length + 4 * 1024 * 1024 - 1) / (4 * 1024 * 1024) ∧
    (w.localDB = [] → readBlocks w.localDB = [] ∧
      calculateDropboxHash X w = (Except.ok (hexEncode (X.sha256 [])), w)) ∧
    (∀ b : Bytes, (hexEncode b).data =
      b.flatMap fun x => [hexDigit (x.val / 16), hexDigit (x.val % 16)]) ∧
    (∀ n : Fin 16, "0123456789abcdef".data.get? n.val = some (hexDigit n.val)) := by
  have hcalc : calculateDropboxHash X w = (Except.ok (dropboxHash X w.localDB), w) := by
    have hp : popFs w = (FsFault.ok, w) := by
      unfold popFs
      rw [h]
    unfold calculateDropboxHash
    simp only [hp]
  refine ⟨?_, readBlocksAux_flatten _ _ (Nat.le_refl _), readBlocksAux_dropLast _ _,
    readBlocksAux_mem _ _, readBlocksAux_length _ _ (Nat.le_refl _), ?_, fun _ => rfl,
    hexDigit_table⟩
  · rw [hcalc, dropboxHash_eq]
  · intro hnil
    refine ⟨?_, ?_⟩
    · rw [hnil]
      rfl
    · rw [hcalc, dropboxHash_eq, hnil]
      rfl

/-- C12 at the three-byte file of `freshInstall`: one block, the file itself. -/
theorem calculateDropboxHash_formula_witness :
    (freshInstall none).fsFaults = [] ∧
    calculateDropboxHash sampleExternals (freshInstall none) =
      (Except.ok (hexEncode (sampleExternals.sha256
        ((readBlocks (freshInstall none).localDB).map sampleExternals.sha256).flatten)),
        freshInstall none) ∧
    readBlocks (freshInstall none).localDB = [[1, 2, 3]] :=
  ⟨rfl, (calculateDropboxHash_formula sampleExternals (freshInstall none) rfl).1, by decide⟩

/-- C13: the hash `calculateDropboxHash` returns for a file depends only on the bytes of the
file: two files with the same bytes get the same hash string.  And when SHA-256, a digest of
32 bytes, has no collision among the byte strings digested for the two files (their blocks
and the concatenations of their block digests; an injective SHA-256 has none), two files
whose contents differ get different hash strings. -/
theorem calculateDropboxHash_injective (X : Externals) (w1 w2 : World) (h1 h2 : String)
    (hr1 : (calculateDropboxHash X w1).1 = Except.ok h1)
    (hr2 : (calculateDropboxHash X w2).1 = Except.ok h2) :
    (w1.localDB = w2.localDB → h1 = h2) ∧
    ((∀ b, (X.sha256 b).length = 32) →
      CollisionFree X (digestInputs X w1.localDB ++ digestInputs X w2.localDB) →
      w1.localDB ≠ w2.localDB → h1 ≠ h2) ∧
    (Function.Injective X.sha256 →
      CollisionFree X (digestInputs X w1.localDB ++ digestInputs X w2.localDB)) := by
  have e1 : h1 = dropboxHash X w1.localDB :=
    calculateDropboxHash_ok (Prod.ext hr1 rfl : calculateDropboxHash X w1 = (Except.ok h1, _))
  have e2 : h2 = dropboxHash X w2.localDB :=
    calculateDropboxHash_ok (Prod.ext hr2 rfl : calculateDropboxHash X w2 = (Except.ok h2, _))
  refine ⟨?_, ?_, ?_⟩
  · intro h
    rw [e1, e2, h]
  · intro hsize hfree hne heq
    rw [e1, e2] at heq
    exact hne (dropboxHash_injective hsize hfree heq)
  · intro hinj a _ b _ hab
    exact hinj hab

/-- C13 at two three-byte files that differ in the last byte, with the padding digest. -/
theorem calculateDropboxHash_injective_witness :
    (calculateDropboxHash paddedExternals (freshInstall none)).1 =
      Except.ok (dropboxHash paddedExternals [1, 2, 3]) ∧
    (calculateDropboxHash paddedExternals { freshInstall none with localDB := [1, 2, 4] }).1 =
      Except.ok (dropboxHash paddedExternals [1, 2, 4]) ∧
    dropboxHash paddedExternals [1, 2, 3] ≠ dropboxHash paddedExternals [1, 2, 4] :=
  ⟨rfl, rfl,
    (calculateDropboxHash_injective paddedExternals (freshInstall none)
      { freshInstall none with localDB := [1, 2, 4] } _ _ rfl rfl).2.1
      paddedExternals_size (by unfold CollisionFree; decide) (by decide)⟩

/-- C14: for a stored record with a non-empty access token whose expiry is strictly more
than thirty minutes after the current time, `ensureValidToken` returns the same record and
leaves the world as it was (no refresh request, no vault write).  At thirty minutes exactly,
or less, it takes the refresh path: with an empty refresh token it fails without a request,
otherwise it sends the refresh request. -/
theorem ensureValidToken_threshold (t : DropboxTokens) (w : World)
    (hacc : t.AccessToken ≠ "") :
    (t.ExpiresAt - w.now > 30 * minute → ensureValidToken (some t) w = (Except.ok t, w)) ∧
    (t.ExpiresAt - w.now ≤ 30 * minute →
      (t.RefreshToken = "" →
        ensureValidToken (some t) w = (Except.error "no refresh token available", w)) ∧
      (t.RefreshToken ≠ "" →
        (ensureValidToken (some t) w).2.http =
          w.http ++ [Request.refreshToken t.RefreshToken])) := by
  refine ⟨?_, ?_⟩
  · intro hgt
    unfold ensureValidToken
    simp only [if_neg hacc, if_pos hgt]
  · intro hexp
    exact ⟨ensureValidToken_no_refresh hacc hexp, ensureValidToken_http hacc hexp⟩

/-- C14 at three records: valid for two hours (returned as it is, world unchanged), valid
for thirty minutes exactly (a refresh request is sent), and valid for ten minutes (a refresh
request is sent, the refreshed record is returned and stored). -/
theorem ensureValidToken_threshold_witness :
    ensureValidToken (some sampleTokens) (freshInstall none) =
      (Except.ok sampleTokens, freshInstall none) ∧
    (ensureValidToken (some { sampleTokens with ExpiresAt := 30 * minute })
      (freshInstall none)).2.http = [Request.refreshToken "refresh"] ∧
    ensureValidToken expiringWorld.vault expiringWorld =
      (Except.ok { AccessToken := "access2", RefreshToken := "refresh",
                   ExpiresAt := 4 * hour },
        { expiringWorld with
          http := [Request.refreshToken "refresh"]
          vault := some { AccessToken := "access2", RefreshToken := "refresh",
                          ExpiresAt := 4 * hour } }) :=
  ⟨(ensureValidToken_threshold sampleTokens (freshInstall none) (by decide)).1 (by decide),
    ((ensureValidToken_threshold { sampleTokens with ExpiresAt := 30 * minute }
      (freshInstall none) (by decide)).2 (by decide)).2 (by decide), rfl⟩

/-- C15: `GetValidTokens` fails exactly when loading the vault fails, or no credentials are
stored, or the stored access token is empty, or the token expires within thirty minutes and
the refresh token is empty, the refresh request fails, or persisting the refreshed
credentials fails.  With an empty refresh token it fails closed: it sends no request and
leaves the vault as it was. -/
theorem getValidTokens_fails_iff (w : World) :
    ((GetValidTokens w).1.isOk = false ↔
      (LoadTokens w).1.isOk = false ∨
      w.vault = none ∨
      ∃ t, w.vault = some t ∧
        (t.AccessToken = "" ∨
          (t.ExpiresAt - w.now ≤ 30 * minute ∧
            (t.RefreshToken = "" ∨
              (refreshAccessToken t.RefreshToken (LoadTokens w).2).1.isOk = false ∨
              ∃ newTokens,
                (refreshAccessToken t.RefreshToken (LoadTokens w).2).1 = Except.ok newTokens ∧
                (SaveTokens (tokensToSave t newTokens w.now)
                  (refreshAccessToken t.RefreshToken (LoadTokens w).2).2).1 ≠ none)))) ∧
    (∀ t, w.vault = some t → t.AccessToken ≠ "" → t.ExpiresAt - w.now ≤ 30 * minute →
      t.RefreshToken = "" →
      (GetValidTokens w).1.isOk = false ∧ (GetValidTokens w).2.http = w.http ∧
      (GetValidTokens w).2.vault = w.vault) := by
  have hiff := ensureValidToken_isOk w.vault (LoadTokens w).2
  rw [LoadTokens_now] at hiff
  have hok := GetValidTokens_isOk w
  have hmain : (GetValidTokens w).1.isOk = false ↔
      (LoadTokens w).1.isOk = false ∨ (ensureValidToken w.vault (LoadTokens w).2).1.isOk = false := by
    rw [hok]
    cases (LoadTokens w).1.isOk <;> cases (ensureValidToken w.vault (LoadTokens w).2).1.isOk <;>
      simp
  refine ⟨?_, ?_⟩
  · rw [hmain, hiff]
  · intro t hv hacc hexp href
    have hfail : (GetValidTokens w).1.isOk = false :=
      hmain.mpr (Or.inr (hiff.mpr (Or.inr ⟨t, hv, Or.inr ⟨hexp, Or.inl href⟩⟩)))
    obtain ⟨fs, hfs⟩ := LoadTokens_snd w
    have hsnd : (GetValidTokens w).2 = (LoadTokens w).2 := by
      unfold GetValidTokens
      split
      · rename_i hl
        rw [hl]
      · rename_i tokens w1 hl
        have h1 := LoadTokens_fst w
        rw [hl] at h1
        have h2 : tokens = some t := by
          have := h1 rfl
          cases this
          exact hv
        subst h2
        have hw1 : w1 = (LoadTokens w).2 := by rw [hl]
        have hexp1 : t.ExpiresAt - w1.now ≤ 30 * minute := by
          rw [hw1, LoadTokens_now]
          exact hexp
        rw [ensureValidToken_no_refresh hacc hexp1 href, hl]
    rw [hsnd, hfs]
    exact ⟨hfail, rfl, rfl⟩

/-- C15 at a record that expires in ten minutes and has no refresh token. -/
theorem getValidTokens_fails_iff_witness :
    (GetValidTokens { expiringWorld with
      vault := some { AccessToken := "access", RefreshToken := "", ExpiresAt := 10 * minute } }
      ).1.isOk = false ∧
    (GetValidTokens expiringWorld).1.isOk = true :=
  ⟨((getValidTokens_fails_iff { expiringWorld with
      vault := some { AccessToken := "access", RefreshToken := "", ExpiresAt := 10 * minute } }
      ).2 _ rfl (by decide) (by decide) rfl).1, rfl⟩

/-- C16: when the refresh path of `ensureValidToken` succeeds, the record persisted to the
vault is the record returned to the caller; its access token is the access token of the
refresh response, and its refresh token is the one of the response when that is non-empty
and the previously stored one otherwise. -/
theorem refresh_persists (t t1 : DropboxTokens) (w w1 : World) (hacc : t.AccessToken ≠ "")
    (hexp : t.ExpiresAt - w.now ≤ 30 * minute)
    (h : ensureValidToken (some t) w = (Except.ok t1, w1)) :
    (refreshAccessToken t.RefreshToken w).1 = Except.ok w.tokenEndpoint ∧
    w1.vault = some t1 ∧
    t1.AccessToken = w.tokenEndpoint.AccessToken ∧
    (w.tokenEndpoint.RefreshToken ≠ "" → t1.RefreshToken = w.tokenEndpoint.RefreshToken) ∧
    (w.tokenEndpoint.RefreshToken = "" → t1.RefreshToken = t.RefreshToken) := by
  obtain ⟨_, hr, ht, hv⟩ := ensureValidToken_refreshed hacc hexp h
  refine ⟨hr, hv, ?_, ?_, ?_⟩
  · rw [ht]
    rfl
  · intro hne
    rw [ht]
    simp [tokensToSave, hne]
  · intro he
    rw [ht]
    simp [tokensToSave, he]

/-- C16 at `expiringWorld`, where the response carries no refresh token: the stored refresh
token is kept, and the vault holds the returned record. -/
theorem refresh_persists_witness :
    (ensureValidToken expiringWorld.vault expiringWorld).2.vault =
      some { AccessToken := "access2", RefreshToken := "refresh", ExpiresAt := 4 * hour } ∧
    (ensureValidToken expiringWorld.vault expiringWorld).1 =
      Except.ok { AccessToken := "access2", RefreshToken := "refresh", ExpiresAt := 4 * hour } :=
  ⟨(refresh_persists expiringTokens _ expiringWorld _ (by decide) (by decide) rfl).2.1, rfl⟩

/-- C17, refuted as stated, at two refresh responses.  With `expires_in = 0` (the field is
absent) `ensureValidToken` stores `now + 4 h`, not `now + 0 s`, `ExchangeToken` stores
`now + 3 h 36 min`, and the two expiries differ by 24 minutes, not by `0 / 10` seconds.
With `expires_in = 10000000000` the lifetime in nanoseconds does not fit int64 and the
expiry `ensureValidToken` stores lies before `now`. -/
theorem expiry_asymmetry_counterexample :
    (lifetimeWorld 0).now = 0 ∧ (lifetimeWorld 0).tokenEndpoint.ExpiresIn = 0 ∧
    (ensureValidToken (some expiringTokens) (lifetimeWorld 0)).1 =
      Except.ok { AccessToken := "access2", RefreshToken := "refresh", ExpiresAt := 4 * hour } ∧
    (ExchangeToken "code" "verifier" (lifetimeWorld 0)).1 =
      Except.ok (lifetimeWorld 0).tokenEndpoint ∧
    (ExchangeToken "code" "verifier" (lifetimeWorld 0)).2.vault =
      some { AccessToken := "access2", RefreshToken := "", ExpiresAt := 216 * minute } ∧
    (ensureValidToken (some expiringTokens) (lifetimeWorld 10000000000)).1 =
      Except.ok { AccessToken := "access2", RefreshToken := "refresh",
                  ExpiresAt := -8446744073709551616 } :=
  ⟨rfl, rfl, rfl, rfl, rfl, rfl⟩

/-- C17, amended: let a refresh response and an exchange response announce the same
`expires_in = e` seconds, with `9 e` seconds inside the int64 range of nanoseconds, and let
`L` be `e` seconds when `e ≠ 0` and four hours when `e = 0`.  Then the expiry stored by a
successful refresh is exactly `now + L`, with no margin, the expiry stored by a successful
`ExchangeToken` at the same time is `now + 9 L / 10`, and the former is later by exactly
`L / 10`: for `e ≠ 0`, by `e / 10` seconds (`e * 10 ^ 8` nanoseconds). -/
theorem expiry_asymmetry (t t1 : DropboxTokens) (w w1 wx w2 : World)
    (code codeVerifier : String) (resp : TokenResponse) (e : Int)
    (hacc : t.AccessToken ≠ "") (hexp : t.ExpiresAt - w.now ≤ 30 * minute)
    (hrefresh : ensureValidToken (some t) w = (Except.ok t1, w1))
    (hexchange : ExchangeToken code codeVerifier wx = (Except.ok resp, w2))
    (he : w.tokenEndpoint.ExpiresIn = e) (hex : wx.tokenEndpoint.ExpiresIn = e)
    (hnow : wx.now = w.now)
    (hlo : -(2 ^ 63) ≤ e * 9 * second) (hhi : e * 9 * second < 2 ^ 63) :
    w1.vault = some t1 ∧
    ∃ tx, w2.vault = some tx ∧
      (e ≠ 0 →
        t1.ExpiresAt = w.now + e * second ∧
        tx.ExpiresAt = w.now + e * 900000000 ∧
        t1.ExpiresAt - tx.ExpiresAt = e * 100000000 ∧
        10 * (t1.ExpiresAt - tx.ExpiresAt) = e * second) ∧
      (e = 0 →
        t1.ExpiresAt = w.now + 4 * hour ∧
        tx.ExpiresAt = w.now + 216 * minute ∧
        t1.ExpiresAt - tx.ExpiresAt = 24 * minute) := by
  obtain ⟨_, _, ht, hv⟩ := ensureValidToken_refreshed hacc hexp hrefresh
  obtain ⟨hresp, _, hvx⟩ := ExchangeToken_ok hexchange
  have h1 : t1.ExpiresAt = w.now + if e = 0 then 4 * hour else e * second := by
    rw [ht]
    show w.now + (if wrapInt64 (w.tokenEndpoint.ExpiresIn * second) = 0 then 4 * hour
      else wrapInt64 (w.tokenEndpoint.ExpiresIn * second)) = _
    rw [he, lifetime_eq hlo hhi]
  refine ⟨hv, _, hvx, ?_⟩
  have h2 : resp.ExpiresIn = e := by rw [hresp, hex]
  simp only [h2, lifetime_eq hlo hhi, nine_tenths hlo hhi, hnow]
  rw [h1]
  have hs : second = 1000000000 := rfl
  have hm : minute = 60000000000 := rfl
  have hh : hour = 3600000000000 := rfl
  constructor
  · intro hne
    rw [if_neg hne, if_neg hne, hs]
    refine ⟨rfl, rfl, ?_, ?_⟩ <;> omega
  · intro h0
    rw [if_pos h0, if_pos h0, hs, hm, hh]
    refine ⟨rfl, ?_, ?_⟩ <;> omega

/-- C17, amended, at a lifetime of four hours (`expires_in = 14400`): the refresh stores
`now + 4 h`, the exchange `now + 3 h 36 min`, and the difference is 1440 seconds. -/
theorem expiry_asymmetry_witness :
    (ensureValidToken (some expiringTokens) (lifetimeWorld 14400)).1 =
      Except.ok { AccessToken := "access2", RefreshToken := "refresh", ExpiresAt := 4 * hour } ∧
    ∃ tx, (ExchangeToken "code" "verifier" (lifetimeWorld 14400)).2.vault = some tx ∧
      ((14400 : Int) ≠ 0 →
        (4 * hour : Int) = (lifetimeWorld 14400).now + 14400 * second ∧
        tx.ExpiresAt = (lifetimeWorld 14400).now + 14400 * 900000000 ∧
        4 * hour - tx.ExpiresAt = 14400 * 100000000 ∧
        10 * (4 * hour - tx.ExpiresAt) = 14400 * second) ∧
      ((14400 : Int) = 0 →
        (4 * hour : Int) = (lifetimeWorld 14400).now + 4 * hour ∧
        tx.ExpiresAt = (lifetimeWorld 14400).now + 216 * minute ∧
        4 * hour - tx.ExpiresAt = 24 * minute) :=
  ⟨rfl, (expiry_asymmetry expiringTokens
    { AccessToken := "access2", RefreshToken := "refresh", ExpiresAt := 4 * hour }
    (lifetimeWorld 14400) _ (lifetimeWorld 14400) _ "code" "verifier" _ 14400
    (by decide) (by decide) rfl rfl rfl rfl rfl (by decide) (by decide)).2⟩

/-- C18: for every stored backoff `b` with `0 < b ≤ 60 min`, `calculateNextBackoff(true)`
sets the stored backoff to `min(2 b, 60 min)`: it grows strictly while `b` is below 60
minutes and never exceeds 60 minutes.  Starting from the one-minute initial backoff,
consecutive rate-limited failures give 2, 4, 8, 16, 32, 60, 60, ... minutes. -/
theorem rate_limit_backoff (w : World) (hpos : 0 < w.currentBackoff)
    (hle : w.currentBackoff ≤ 60 * minute) :
    (calculateNextBackoff true w).2.currentBackoff = min (2 * w.currentBackoff) (60 * minute) ∧
    (w.currentBackoff < 60 * minute →
      w.currentBackoff < (calculateNextBackoff true w).2.currentBackoff) ∧
    w.currentBackoff ≤ (calculateNextBackoff true w).2.currentBackoff ∧
    (calculateNextBackoff true w).2.currentBackoff ≤ 60 * minute ∧
    (w.currentBackoff = 1 * minute →
      (List.range 8).map (fun n => (rateLimited n w).currentBackoff) =
        [1 * minute, 2 * minute, 4 * minute, 8 * minute, 16 * minute, 32 * minute,
          60 * minute, 60 * minute] ∧
      ∀ n, 6 ≤ n → (rateLimited n w).currentBackoff = 60 * minute) := by
  have hm : maxBackoff = 60 * minute := rfl
  have hmin : minute = 60000000000 := rfl
  have hstep := calculateNextBackoff_true w
  rw [hm] at hstep
  refine ⟨hstep, ?_, ?_, ?_, ?_⟩
  · intro hlt
    rw [hstep]
    omega
  · rw [hstep]
    omega
  · rw [hstep]
    omega
  · intro h1
    refine ⟨?_, ?_⟩
    · simp only [List.range, List.range.loop, List.map, rateLimited_succ, rateLimited_zero, h1,
        hm, hmin]
      decide
    · intro n hn
      obtain ⟨k, rfl⟩ : ∃ k, n = k + 6 := ⟨n - 6, by omega⟩
      exact rateLimited_max w h1 k

/-- C18 from the initial backoff of a fresh install: one rate-limited failure stores two
minutes, and seven of them store sixty. -/
theorem rate_limit_backoff_witness :
    (calculateNextBackoff true (freshInstall none)).2.currentBackoff = 2 * minute ∧
    (rateLimited 7 (freshInstall none)).currentBackoff = 60 * minute :=
  ⟨(rate_limit_backoff (freshInstall none) (by decide) (by decide)).1,
    ((rate_limit_backoff (freshInstall none) (by decide) (by decide)).2.2.2.2 rfl).2 7
      (by decide)⟩

/-- C19, refuted as stated.  In `backedOffWorld` the stored backoff is twenty minutes, above
twice the regular interval, and the poll iteration succeeds: it schedules the next poll
after five minutes and resets the stored backoff to one minute.  A failure right after that
success (the metadata request fails) stores and schedules, with a jitter factor of one,
ninety seconds; a rate-limited failure two minutes.  Both are below the regular interval of
five minutes. -/
theorem backoff_recovery_counterexample :
    backedOffWorld.currentBackoff = 20 * minute ∧
    PollSucceeds sampleExternals backedOffWorld ∧
    scheduledInterval (checkForChanges sampleExternals backedOffWorld) = some (5 * minute) ∧
    (checkForChanges sampleExternals backedOffWorld).currentBackoff = 1 * minute ∧
    PollFails sampleExternals (failingAfterSuccess "timeout") ∧
    (checkForChanges sampleExternals (failingAfterSuccess "timeout")).currentBackoff =
      90 * second ∧
    scheduledInterval (checkForChanges sampleExternals (failingAfterSuccess "timeout")) =
      some (90 * second) ∧
    (checkForChanges sampleExternals (failingAfterSuccess "429")).currentBackoff =
      2 * minute ∧
    scheduledInterval (checkForChanges sampleExternals (failingAfterSuccess "429")) =
      some (2 * minute) := by
  refine ⟨rfl, ⟨sampleTokens, _, false, _, rfl, rfl, fun h => absurd h (by decide)⟩, rfl, rfl,
    Or.inr (Or.inl ⟨sampleTokens, _, _, _, rfl, rfl⟩), rfl, ?_, rfl, ?_⟩
  · set_option maxRecDepth 4000 in decide
  · set_option maxRecDepth 4000 in decide

/-- C19, amended: a successful poll iteration, whatever the stored backoff was before it
(a high backoff included), schedules the next poll after exactly the regular five minutes
and resets the stored backoff to the initial backoff of one minute.  A failure right after
that success, with error text `e`, stores two minutes when the failure is a rate limit
(`e` contains "429" or "too many requests") and ninety seconds when it is not: in both
cases less than the regular interval; with a jitter factor of one the interval stored is
also the interval scheduled.  Only from a stored backoff above ten minutes does a failure
that is not a rate limit move back toward the regular interval without going below it: it
stores half the backoff, at least five minutes. -/
theorem backoff_after_success (X : Externals) (w v : World) (e : String)
    (hauto : GetAutoSync w = true) (hok : PollSucceeds X w)
    (hautov : GetAutoSync v = true)
    (hnext : v.currentBackoff = (checkForChanges X w).currentBackoff)
    (hfail : PollError X v e) :
    scheduledInterval (checkForChanges X w) = some (5 * minute) ∧
    (checkForChanges X w).currentBackoff = 1 * minute ∧
    (stringsContains e "429" = true ∨ stringsContains e "too many requests" = true →
      (checkForChanges X v).currentBackoff = 2 * minute) ∧
    (stringsContains e "429" = false → stringsContains e "too many requests" = false →
      (checkForChanges X v).currentBackoff = 90 * second) ∧
    (checkForChanges X v).currentBackoff < 5 * minute ∧
    (v.jitterDraws = [] →
      scheduledInterval (checkForChanges X v) = some (checkForChanges X v).currentBackoff) ∧
    (∀ u : World, u.currentBackoff > 10 * minute →
      (calculateNextBackoff false u).2.currentBackoff = max (u.currentBackoff / 2) (5 * minute) ∧
      5 * minute ≤ (calculateNextBackoff false u).2.currentBackoff ∧
      (calculateNextBackoff false u).2.currentBackoff < u.currentBackoff) := by
  have hmin : minute = 60000000000 := rfl
  have hsec : second = 1000000000 := rfl
  have hreg : regularSyncInterval = 300000000000 := rfl
  have hmax : maxBackoff = 3600000000000 := rfl
  have hinit : initialBackoff = 60000000000 := rfl
  obtain ⟨hb, hs⟩ := checkForChanges_succeeds hauto hok
  obtain ⟨v1, hsame, hcb, hint⟩ := checkForChanges_error hautov hfail
  have hv1 : v1.currentBackoff = 60000000000 := by
    rw [hsame.1, hnext, hb, hinit]
  have hrate : isRateLimit e = true →
      (checkForChanges X v).currentBackoff = 2 * minute := by
    intro ha
    rw [hcb, ha, calculateNextBackoff_true, hv1, hmax, hmin]
    decide
  have hother : isRateLimit e = false →
      (checkForChanges X v).currentBackoff = 90 * second := by
    intro ha
    rw [hcb, ha, calculateNextBackoff_false, hv1, hreg, hsec]
    decide
  refine ⟨hs, hb, ?_, ?_, ?_, ?_, ?_⟩
  · intro h
    apply hrate
    unfold isRateLimit
    rcases h with h | h <;> simp [h]
  · intro h1 h2
    apply hother
    unfold isRateLimit
    simp [h1, h2]
  · rw [hmin]
    cases ha : isRateLimit e
    · rw [hother ha, hsec]
      decide
    · rw [hrate ha, hmin]
      decide
  · intro hj
    have hj1 : v1.jitterDraws = [] := by rw [hsame.2.2, hj]
    have hsmall : (calculateNextBackoff (isRateLimit e) v1).2.currentBackoff.natAbs < 2 ^ 53 := by
      rw [← hcb]
      cases ha : isRateLimit e
      · rw [hother ha, hsec]
        decide
      · rw [hrate ha, hmin]
        decide
    rw [hint, hcb, calculateNextBackoff_fst _ hj1 hsmall]
  · intro u hu
    rw [hmin] at hu
    have hdiv : Int.tdiv u.currentBackoff 2 = u.currentBackoff / 2 :=
      Int.tdiv_eq_ediv (by omega) (by decide)
    have hstep := calculateNextBackoff_false u
    rw [if_pos (by rw [hreg]; omega), hdiv, hreg] at hstep
    rw [hstep, hmin]
    refine ⟨rfl, ?_, ?_⟩ <;> omega

/-- C19, amended, at the successful poll of `backedOffWorld` followed by a poll whose
metadata request fails: with a timeout the iteration stores ninety seconds, with a 429 two
minutes. -/
theorem backoff_after_success_witness :
    (scheduledInterval (checkForChanges sampleExternals backedOffWorld) = some (5 * minute) ∧
      (checkForChanges sampleExternals backedOffWorld).currentBackoff = 1 * minute ∧
      (checkForChanges sampleExternals (failingAfterSuccess "timeout")).currentBackoff =
        90 * second) ∧
    (checkForChanges sampleExternals (failingAfterSuccess "429")).currentBackoff =
      2 * minute :=
  have h := backoff_after_success sampleExternals backedOffWorld (failingAfterSuccess "timeout")
    "error checking remote file: error making request: timeout"
    rfl ⟨sampleTokens, _, false, _, rfl, rfl, fun h => absurd h (by decide)⟩ rfl rfl
    (Or.inr (Or.inl ⟨sampleTokens, _, _, rfl, rfl⟩))
  have h2 := backoff_after_success sampleExternals backedOffWorld (failingAfterSuccess "429")
    "error checking remote file: error making request: 429"
    rfl ⟨sampleTokens, _, false, _, rfl, rfl, fun h => absurd h (by decide)⟩ rfl rfl
    (Or.inr (Or.inl ⟨sampleTokens, _, _, rfl, rfl⟩))
  ⟨⟨h.1, h.2.1, h.2.2.2.1 (by decide) (by decide)⟩, h2.2.2.1 (Or.inl (by decide))⟩


/-- C20: with the upload timer as explicit state and auto-sync enabled, `N ≥ 1` calls of
`ScheduleDelayedUpload` at times `t1 ≤ ... ≤ tN`, each less than ten seconds after the
previous one, leave exactly one pending timer, due at `tN + 10 s`, and have changed nothing
but the clock and the timer: no upload has run.  When the clock then advances, nothing
fires before `tN + 10 s`; at `tN + 10 s` the callback runs `UploadDatabase` once, and no
further upload follows. -/
theorem debounce_collapse (X : Externals) (w : World) (t1 : Int) (rest : List Int)
    (hauto : GetAutoSync w = true)
    (hpending : ∀ d, w.uploadTimer = some d → t1 < d)
    (hburst : List.Chain Burst t1 rest) :
    scheduleAt X (t1 :: rest) w =
      { w with now := (t1 :: rest).getLast (List.cons_ne_nil _ _),
               uploadTimer := some ((t1 :: rest).getLast (List.cons_ne_nil _ _)
                 + 10 * second) } ∧
    (scheduleAt X (t1 :: rest) w).calls = w.calls ∧
    (∀ t, t < (t1 :: rest).getLast (List.cons_ne_nil _ _) + 10 * second →
      advanceTo X t (scheduleAt X (t1 :: rest) w) =
        { scheduleAt X (t1 :: rest) w with now := t }) ∧
    (∀ t, (t1 :: rest).getLast (List.cons_ne_nil _ _) + 10 * second ≤ t →
      advanceTo X t (scheduleAt X (t1 :: rest) w) =
        { (UploadDatabase X
            { w with now := (t1 :: rest).getLast (List.cons_ne_nil _ _) + 10 * second,
                     uploadTimer := none }).2 with now := t } ∧
      (advanceTo X t (scheduleAt X (t1 :: rest) w)).calls = w.calls ++ [Call.UploadDatabase] ∧
      (advanceTo X t (scheduleAt X (t1 :: rest) w)).uploadTimer = none ∧
      ∀ t2, (advanceTo X t2 (advanceTo X t (scheduleAt X (t1 :: rest) w))).calls =
        w.calls ++ [Call.UploadDatabase]) := by
  have hmain : scheduleAt X (t1 :: rest) w =
      { w with now := (t1 :: rest).getLast (List.cons_ne_nil _ _),
               uploadTimer := some ((t1 :: rest).getLast (List.cons_ne_nil _ _)
                 + 10 * second) } := by
    show scheduleAt X rest (ScheduleDelayedUpload (advanceTo X t1 w)) = _
    rw [schedule_step X w t1 hauto hpending]
    exact scheduleAt_burst X w hauto rest t1 hburst
  refine ⟨hmain, ?_, ?_, ?_⟩
  · rw [hmain]
  · intro t ht
    rw [hmain]
    unfold advanceTo
    simp only [if_neg (not_le.mpr ht)]
  · intro t ht
    have hfire : advanceTo X t (scheduleAt X (t1 :: rest) w) =
        { (UploadDatabase X
            { w with now := (t1 :: rest).getLast (List.cons_ne_nil _ _) + 10 * second,
                     uploadTimer := none }).2 with now := t } := by
      rw [hmain]
      unfold advanceTo fireUploadTimer
      simp only [if_pos ht]
    have htimer : (advanceTo X t (scheduleAt X (t1 :: rest) w)).uploadTimer = none := by
      rw [hfire]
      exact UploadDatabase_uploadTimer X _
    have hcalls : (advanceTo X t (scheduleAt X (t1 :: rest) w)).calls =
        w.calls ++ [Call.UploadDatabase] := by
      rw [hfire]
      exact UploadDatabase_calls X _
    refine ⟨hfire, hcalls, htimer, ?_⟩
    intro t2
    rw [advanceTo_idle X t2 _ htimer]
    exact hcalls

/-- C20 at three calls, at 0 s, 3 s and 9 s: the timer is due at 19 s, nothing has run at
18 s, and at 30 s exactly one upload has run. -/
theorem debounce_collapse_witness :
    (scheduleAt sampleExternals [0, 3 * second, 9 * second]
      (syncingWorld "abc" false none)).uploadTimer = some (19 * second) ∧
    (advanceTo sampleExternals (18 * second) (scheduleAt sampleExternals
      [0, 3 * second, 9 * second] (syncingWorld "abc" false none))).calls = [] ∧
    (advanceTo sampleExternals (30 * second) (scheduleAt sampleExternals
      [0, 3 * second, 9 * second] (syncingWorld "abc" false none))).calls =
        [Call.UploadDatabase] :=
  ⟨rfl, rfl,
    ((debounce_collapse sampleExternals (syncingWorld "abc" false none) 0
      [3 * second, 9 * second] rfl (fun d hd => absurd hd (by simp [syncingWorld, freshInstall]))
      (List.Chain.cons (by unfold Burst; decide)
        (List.Chain.cons (by unfold Burst; decide) List.Chain.nil))).2.2.2
      (30 * second) (by decide)).2.1⟩

/-- C21: with auto-sync disabled, `SyncToDropbox(force)` returns no error and leaves the
world exactly as it was, for `force = true` and for `force = false`: no credential,
metadata, upload or download call, nothing published, the ledger unchanged.  And
`ScheduleDelayedUpload` leaves the world as it was: it arms no timer and does not touch a
pending one. -/
theorem autoSync_master_switch (X : Externals) (w : World) (hoff : GetAutoSync w = false) :
    (∀ force : Bool, SyncToDropbox X force w = (none, w)) ∧
    (∀ force : Bool, (SyncToDropbox X force w).2.http = w.http ∧
      (SyncToDropbox X force w).2.calls = w.calls ∧
      (SyncToDropbox X force w).2.bus = w.bus ∧
      ledger (SyncToDropbox X force w).2 = ledger w ∧
      (SyncToDropbox X force w).2.vault = w.vault) ∧
    ScheduleDelayedUpload w = w ∧
    (ScheduleDelayedUpload w).uploadTimer = w.uploadTimer := by
  have hsync : ∀ force : Bool, SyncToDropbox X force w = (none, w) := by
    intro force
    unfold SyncToDropbox
    simp [hoff]
  have hsched : ScheduleDelayedUpload w = w := by
    unfold ScheduleDelayedUpload
    simp [hoff]
  refine ⟨hsync, ?_, hsched, by rw [hsched]⟩
  intro force
  rw [hsync force]
  exact ⟨rfl, rfl, rfl, rfl, rfl⟩

/-- C21 at a fresh install (auto-sync off) that has a remote file waiting and an upload
timer pending at 7 s. -/
theorem autoSync_master_switch_witness :
    SyncToDropbox sampleExternals true switchedOffWorld = (none, switchedOffWorld) ∧
    SyncToDropbox sampleExternals false switchedOffWorld = (none, switchedOffWorld) ∧
    (ScheduleDelayedUpload switchedOffWorld).uploadTimer = some (7 * second) :=
  ⟨(autoSync_master_switch sampleExternals switchedOffWorld rfl).1 true,
    (autoSync_master_switch sampleExternals switchedOffWorld rfl).1 false, rfl⟩

/-- C23, refuted as stated: from a stored backoff of sixty minutes a failure that is not a
rate limit stores thirty minutes, not `min(1.5 * 60 min, 10 min) = 10 min`. -/
theorem mild_backoff_counterexample :
    maxBackoffWorld.currentBackoff = 60 * minute ∧
    (calculateNextBackoff false maxBackoffWorld).2.currentBackoff = 30 * minute ∧
    min (60 * minute * 3 / 2) (10 * minute) = 10 * minute ∧
    (calculateNextBackoff false maxBackoffWorld).2.currentBackoff ≠
      min (60 * minute * 3 / 2) (10 * minute) := by
  refine ⟨rfl, rfl, by decide, by decide⟩

/-- C23, amended: for a stored backoff `b` of at most ten minutes (twice the regular
interval), `calculateNextBackoff(false)` stores `min(1.5 b, 10 min)`, the product cut
toward zero to whole nanoseconds; for a stored backoff above ten minutes it stores
`max(b / 2, 5 min)` instead, which is below `b`. -/
theorem mild_backoff (w : World) :
    (w.currentBackoff ≤ 10 * minute →
      (calculateNextBackoff false w).2.currentBackoff =
        min (Int.tdiv (w.currentBackoff * 3) 2) (10 * minute)) ∧
    (10 * minute < w.currentBackoff →
      (calculateNextBackoff false w).2.currentBackoff =
        max (w.currentBackoff / 2) (5 * minute) ∧
      (calculateNextBackoff false w).2.currentBackoff < w.currentBackoff) := by
  have hmin : minute = 60000000000 := rfl
  have hreg : regularSyncInterval = 300000000000 := rfl
  have hstep := calculateNextBackoff_false w
  rw [hreg] at hstep
  rw [hmin]
  constructor
  · intro hle
    rw [hstep, if_neg (by omega)]
    rfl
  · intro hgt
    have h2 : Int.tdiv w.currentBackoff 2 = w.currentBackoff / 2 :=
      Int.tdiv_eq_ediv (by omega) (by decide)
    rw [hstep, if_pos (by omega), h2]
    refine ⟨rfl, ?_⟩
    omega

/-- C23, amended, at one minute (stores ninety seconds) and at sixty minutes (stores thirty
minutes). -/
theorem mild_backoff_witness :
    (calculateNextBackoff false (freshInstall none)).2.currentBackoff = 90 * second ∧
    (calculateNextBackoff false maxBackoffWorld).2.currentBackoff = 30 * minute :=
  ⟨(mild_backoff (freshInstall none)).1 (by decide),
    ((mild_backoff maxBackoffWorld).2 (by decide)).1⟩

/-- C24, refuted as stated: the download of `syncingWorld "abc" true` against a remote file
of another hash replaces the local file, answers `downloaded`, and publishes three
messages, `REMOTE_FILE_UPDATED`, `consumed_food_items_updated`, `food_items_updated`, in
that order; `profiles_updated` and `user_settings_updated` are not among them. -/
theorem download_notifications_counterexample :
    (DownloadDatabase sampleExternals
      (syncingWorld "abc" true (some (sampleRemote "xyz" [7, 7])))).1 =
        Except.ok { Success := true, Status := "downloaded" } ∧
    (DownloadDatabase sampleExternals
      (syncingWorld "abc" true (some (sampleRemote "xyz" [7, 7])))).2.localDB = [7, 7] ∧
    (DownloadDatabase sampleExternals
      (syncingWorld "abc" true (some (sampleRemote "xyz" [7, 7])))).2.bus =
        ["REMOTE_FILE_UPDATED", "consumed_food_items_updated", "food_items_updated"] ∧
    (DownloadDatabase sampleExternals
      (syncingWorld "abc" true (some (sampleRemote "xyz" [7, 7])))).2.bus ≠
        ["REMOTE_FILE_UPDATED", "food_items_updated", "consumed_food_items_updated",
          "profiles_updated", "user_settings_updated"] :=
  ⟨rfl, rfl, rfl, by decide⟩

/-- C24, amended: when `DownloadDatabase` answers `downloaded` it has published, in order,
`REMOTE_FILE_UPDATED`, `consumed_food_items_updated` and `food_items_updated`, and nothing
else; on every other outcome (`notFound`, `upToDate`, an error) it has published
nothing. -/
theorem download_notifications (X : Externals) (w w1 : World)
    (r : Except String OperationResult) (h : DownloadDatabase X w = (r, w1)) :
    (r = Except.ok { Success := true, Status := "downloaded" } →
      w1.bus = w.bus ++ ["REMOTE_FILE_UPDATED", "consumed_food_items_updated",
        "food_items_updated"]) ∧
    (r = Except.ok { Success := false, Status := "notFound" } → w1.bus = w.bus) ∧
    (r = Except.ok { Success := true, Status := "upToDate" } → w1.bus = w.bus) ∧
    (r ≠ Except.ok { Success := true, Status := "downloaded" } → w1.bus = w.bus) := by
  rcases DownloadDatabase_bus h with ⟨hr, hb⟩ | ⟨hr, hb⟩
  · refine ⟨fun _ => hb, ?_, ?_, fun hne => absurd hr hne⟩
    · intro h1
      rw [hr] at h1
      simp at h1
    · intro h1
      rw [hr] at h1
      simp at h1
  · exact ⟨fun h1 => absurd h1 hr, fun _ => hb, fun _ => hb, fun _ => hb⟩

/-- C24, amended, at a download that replaces the file and at one that finds it up to
date. -/
theorem download_notifications_witness :
    (DownloadDatabase sampleExternals
      (syncingWorld "abc" true (some (sampleRemote "xyz" [7, 7])))).2.bus =
        (syncingWorld "abc" true (some (sampleRemote "xyz" [7, 7]))).bus ++
          ["REMOTE_FILE_UPDATED", "consumed_food_items_updated", "food_items_updated"] ∧
    (DownloadDatabase sampleExternals
      (syncingWorld "abc" true (some (sampleRemote "010203" [1, 2, 3])))).2.bus =
        (syncingWorld "abc" true (some (sampleRemote "010203" [1, 2, 3]))).bus :=
  ⟨(download_notifications sampleExternals _ _ _ Prod.mk.eta.symm).1 rfl,
    (download_notifications sampleExternals _ _ _ Prod.mk.eta.symm).2.2.1 rfl⟩

/-- C25, refuted as stated: the poll iteration of `conflictWorld` (stored hash `abc`,
unsynced, remote hash `xyz`) publishes nothing: no `SHOW_SYNC_CONFLICT` reaches the bus.
`SyncToDropbox` in the same world does publish it. -/
theorem poll_conflict_counterexample :
    ledger conflictWorld = ("abc", false) ∧
    remoteContentHash conflictWorld = some "xyz" ∧
    (checkRemoteChanged sampleTokens (GetValidTokens conflictWorld).2).1 = Except.ok false ∧
    (checkForChanges sampleExternals conflictWorld).bus = [] ∧
    (SyncToDropbox sampleExternals true conflictWorld).2.bus = ["SHOW_SYNC_CONFLICT"] :=
  ⟨rfl, rfl, rfl, rfl, rfl⟩

/-- C25, amended: a poll iteration that observes a conflict (`synced` false, stored hash
non-empty and different from the remote content hash) does not surface it on the
notification bus: `checkRemoteChanged` answers "not changed", and the iteration publishes
nothing, enters no transfer operation, sends no transfer request, and leaves the local
file, the stored hash and the synced flag as they were. -/
theorem poll_conflict (X : Externals) (w w1 w2 : World) (tokens : DropboxTokens)
    (md : DropboxMetadata)
    (hauto : GetAutoSync w = true) (htok : GetValidTokens w = (Except.ok tokens, w1))
    (hmeta : getRemoteFileMetadata tokens ("/" ++ dbFileName) w1 = (Except.ok (some md), w2))
    (hremote : md.ContentHash ≠ "") (hstored : w.store.settings.StoredHash ≠ "")
    (hdiff : w.store.settings.StoredHash ≠ md.ContentHash)
    (hsynced : w.store.settings.Synced = false) :
    checkRemoteChanged tokens w1 = (Except.ok false, w2) ∧
    (checkForChanges X w).bus = w.bus ∧
    (checkForChanges X w).calls = w.calls ∧
    transfersSent (checkForChanges X w) = transfersSent w ∧
    (checkForChanges X w).localDB = w.localDB ∧
    ledger (checkForChanges X w) = ledger w := by
  have q1 := GetValidTokens_quiet htok
  have q2 := getRemoteFileMetadata_quiet hmeta
  have q := q1.trans q2
  have hc : checkRemoteChanged tokens w1 = (Except.ok false, w2) := by
    have h := checkRemoteChanged_reached hmeta (fun m hm => by cases hm; exact hremote)
    rw [h, q1.store]
    unfold tableSaysDownload reconcileSpec
    simp [hstored, hdiff, hsynced, hremote]
  have hrun : checkForChanges X w =
      armSyncTimer regularSyncInterval
        (updateLastCheckTime { w2 with currentBackoff := initialBackoff }).2 := by
    unfold checkForChanges
    simp only [hauto, htok, hc, Bool.not_true, Bool.false_eq_true, if_false]
  obtain ⟨d, sf, fs, hu⟩ := updateLastCheckTime_snd { w2 with currentBackoff := initialBackoff }
  rw [hrun, hu]
  refine ⟨hc, q.bus, q.calls, q.transfers, q.localDB, ?_⟩
  unfold ledger
  show (w2.store.settings.StoredHash, w2.store.settings.Synced) = _
  rw [q.store]

/-- C25, amended, at `conflictWorld`. -/
theorem poll_conflict_witness :
    (checkForChanges sampleExternals conflictWorld).bus = conflictWorld.bus ∧
    ledger (checkForChanges sampleExternals conflictWorld) = ledger conflictWorld :=
  have h := poll_conflict sampleExternals conflictWorld _ _ sampleTokens
    (sampleRemote "xyz" [7, 7]).metadata rfl rfl rfl (by decide) (by decide) (by decide) rfl
  ⟨h.2.1, h.2.2.2.2.2⟩

/-- C27: on every path through `SyncToDropbox` (disabled, not due, credential or metadata
error, remote absent, no-op, upload, download, conflict) the timestamp `LastHashCheck` is
the same after the call as before it, so the not-due test of a later non-forced call, at
whatever time, is the test it would have been without the call.  The test answers "not due"
exactly when `LastHashCheck ≠ 0` and less than 300000 ms have passed since; the timestamp is
written by `updateLastCheckTime`, which only the poll loop reaches. -/
theorem syncToDropbox_keeps_stamp (X : Externals) (force : Bool) (w : World) :
    (SyncToDropbox X force w).2.store.settings.LastHashCheck =
      w.store.settings.LastHashCheck ∧
    (∀ t : Int, shouldSync { (SyncToDropbox X force w).2 with now := t } =
      shouldSync { w with now := t }) ∧
    (shouldSync w = false ↔
      w.store.settings.LastHashCheck ≠ 0 ∧
        unixMilli w - w.store.settings.LastHashCheck < 300000) ∧
    (updateLastCheckTime w).2.store.settings.LastHashCheck = unixMilli w := by
  refine ⟨SyncToDropbox_stamp X force w, ?_, ?_, ?_⟩
  · intro t
    exact shouldSync_congr (SyncToDropbox_stamp X force w) rfl
  · unfold shouldSync Store.Load
    by_cases h0 : w.store.settings.LastHashCheck = 0
    · simp [h0]
    · have hci : checkInterval / 1000000 = 300000 := by decide
      rw [if_neg h0, hci]
      constructor
      · intro h
        exact ⟨h0, by simpa using h⟩
      · intro h
        simpa using h.2
  · obtain ⟨d, sf, fs, hu⟩ := updateLastCheckTime_snd w
    rw [hu]

/-- C27 at a forced sync that downloads (the ledger becomes `(xyz, true)`) and at a conflict:
the timestamp stays 0. -/
theorem syncToDropbox_keeps_stamp_witness :
    ledger (SyncToDropbox sampleExternals true
      (syncingWorld "abc" true (some (sampleRemote "xyz" [7, 7])))).2 = ("xyz", true) ∧
    (SyncToDropbox sampleExternals true
      (syncingWorld "abc" true (some (sampleRemote "xyz" [7, 7])))).2.store.settings.LastHashCheck
        = 0 ∧
    (SyncToDropbox sampleExternals true conflictWorld).2.store.settings.LastHashCheck = 0 :=
  ⟨rfl, (syncToDropbox_keeps_stamp sampleExternals true
      (syncingWorld "abc" true (some (sampleRemote "xyz" [7, 7])))).1,
    (syncToDropbox_keeps_stamp sampleExternals true conflictWorld).1⟩

/-- C29: `MarkAsUnsynced` sets `synced` to false and leaves every other field of the
settings (stored hash, last hash check, auto-sync and the rest) as it was; `MarkAsSynced h`
sets `synced` to true and the stored hash to `h` and leaves every other field as it was.
`MarkAsUnsynced` twice gives the settings of `MarkAsUnsynced` once, and `MarkAsSynced h`
followed by `MarkAsUnsynced` gives the ledger `(h, false)`. -/
theorem ledger_frame (w : World) (h : String) :
    (Store.MarkAsUnsynced w).store.settings = { w.store.settings with Synced := false } ∧
    (Store.MarkAsSynced h w).store.settings =
      { w.store.settings with Synced := true, StoredHash := h } ∧
    ((Store.MarkAsUnsynced w).store.settings.StoredHash = w.store.settings.StoredHash ∧
      (Store.MarkAsUnsynced w).store.settings.LastHashCheck = w.store.settings.LastHashCheck ∧
      (Store.MarkAsUnsynced w).store.settings.AutoSyncDropbox =
        w.store.settings.AutoSyncDropbox) ∧
    (Store.MarkAsUnsynced (Store.MarkAsUnsynced w)).store.settings =
      (Store.MarkAsUnsynced w).store.settings ∧
    ledger (Store.MarkAsUnsynced (Store.MarkAsSynced h w)) = (h, false) := by
  have hu : ∀ v : World,
      (Store.MarkAsUnsynced v).store.settings = { v.store.settings with Synced := false } := by
    intro v
    unfold Store.MarkAsUnsynced
    obtain ⟨d, sf, fs, h1⟩ := saveToFile_snd2
      { v with store := { settings := { v.store.settings with Synced := false }, dirty := true } }
    rw [h1]
  have hs : (Store.MarkAsSynced h w).store.settings =
      { w.store.settings with Synced := true, StoredHash := h } := by
    obtain ⟨d, sf, fs, h1⟩ := MarkAsSynced_snd h w
    rw [h1]
  refine ⟨hu w, hs, ⟨?_, ?_, ?_⟩, ?_, ?_⟩
  · rw [hu w]
  · rw [hu w]
  · rw [hu w]
  · rw [hu (Store.MarkAsUnsynced w), hu w]
  · unfold ledger
    rw [hu (Store.MarkAsSynced h w), hs]

/-- C29 at the ledger `(abc, true)`: a local edit keeps the stored hash. -/
theorem ledger_frame_witness :
    ledger (Store.MarkAsUnsynced (syncingWorld "abc" true none)) = ("abc", false) ∧
    ledger (Store.MarkAsUnsynced (Store.MarkAsSynced "xyz" (syncingWorld "abc" true none))) =
      ("xyz", false) :=
  ⟨rfl, (ledger_frame (syncingWorld "abc" true none) "xyz").2.2.2.2⟩

/-- C30, at the failing input: the stored token expires in ten minutes and the token
endpoint answers the refresh with status 200 and no access token.  `GetValidTokens` returns
without error a record whose access token is empty, and that record is what it leaves in
the vault; the next call then fails with "no valid tokens available".  `ExchangeToken`
rejects the same response. -/
theorem getValidTokens_empty_access_token :
    emptyAccessWorld.vault = some expiringTokens ∧
    emptyAccessWorld.tokenEndpoint.AccessToken = "" ∧
    (GetValidTokens emptyAccessWorld).1 =
      Except.ok { AccessToken := "", RefreshToken := "refresh", ExpiresAt := 4 * hour } ∧
    (GetValidTokens emptyAccessWorld).2.vault =
      some { AccessToken := "", RefreshToken := "refresh", ExpiresAt := 4 * hour } ∧
    (GetValidTokens (GetValidTokens emptyAccessWorld).2).1 =
      Except.error "error ensuring valid token: no valid tokens available" ∧
    (ExchangeToken "code" "verifier" emptyAccessWorld).1 =
      Except.error "no access token received in response: \x7b\"expires_in\": 14400\x7d" :=
  ⟨rfl, rfl, rfl, rfl, rfl, rfl⟩

/-- C28: in every state reached from the reset of `StartAutoSyncMonitor` by
`calculateNextBackoff(true)`, `calculateNextBackoff(false)`, success resets, whole poll
iterations and steps that do not write the stored backoff, the stored backoff lies between
one minute and sixty minutes; and a `calculateNextBackoff(false)` call from such a state
stores at most the larger of ten minutes and half the previous value. -/
theorem backoff_invariant (w : World) (h : BackoffReachable w) :
    1 * minute ≤ w.currentBackoff ∧ w.currentBackoff ≤ 60 * minute ∧
    (calculateNextBackoff false w).2.currentBackoff ≤
      max (10 * minute) (w.currentBackoff / 2) := by
  obtain ⟨hlo, hhi⟩ := backoff_bounds h
  refine ⟨hlo, hhi, ?_⟩
  have hi : initialBackoff = 60000000000 := rfl
  have hr : regularSyncInterval = 300000000000 := rfl
  have hmin : minute = 60000000000 := rfl
  rw [hi] at hlo
  have h3 : Int.tdiv (w.currentBackoff * 3) 2 = w.currentBackoff * 3 / 2 :=
    Int.tdiv_eq_ediv (by omega) (by decide)
  have h2 : Int.tdiv w.currentBackoff 2 = w.currentBackoff / 2 :=
    Int.tdiv_eq_ediv (by omega) (by decide)
  rw [calculateNextBackoff_false, h3, h2, hr, hmin]
  split <;> omega

/-- C28 after the start of the monitor and seven rate-limited failures: the stored backoff
is sixty minutes, and a further failure that is not a rate limit stores thirty. -/
theorem backoff_invariant_witness :
    1 * minute ≤ (rateLimited 7 (StartAutoSyncMonitor (freshInstall none))).currentBackoff ∧
    (rateLimited 7 (StartAutoSyncMonitor (freshInstall none))).currentBackoff ≤ 60 * minute ∧
    (calculateNextBackoff false
      (rateLimited 7 (StartAutoSyncMonitor (freshInstall none)))).2.currentBackoff ≤
      max (10 * minute)
        ((rateLimited 7 (StartAutoSyncMonitor (freshInstall none))).currentBackoff / 2) :=
  backoff_invariant _
    (BackoffReachable.rateLimit _ (BackoffReachable.rateLimit _ (BackoffReachable.rateLimit _
      (BackoffReachable.rateLimit _ (BackoffReachable.rateLimit _ (BackoffReachable.rateLimit _
        (BackoffReachable.rateLimit _ (BackoffReachable.start (freshInstall none)))))))))

/-- C22, refuted as stated: in `conflictWorld` the local store holds a food item and the
non-forced sync returns the conflict error; `GetAllFoodItems` returns that error, wrapped,
and no food items. -/
theorem getAllFoodItems_sync_error_counterexample :
    samplePlatform.foodItems conflictWorld.localDB = [sampleItem] ∧
    (SyncToDropbox sampleExternals false conflictWorld).1 =
      some "remote file changed but local is not synced" ∧
    (GetAllFoodItems sampleExternals samplePlatform conflictWorld).1 =
      Except.error
        "failed to sync with Dropbox: remote file changed but local is not synced" ∧
    (GetAllFoodItems sampleExternals samplePlatform conflictWorld).1 ≠
      Except.ok [sampleItem] :=
  ⟨rfl, rfl, rfl, fun h => by
    have h1 : (GetAllFoodItems sampleExternals samplePlatform conflictWorld).1 =
        Except.error
          "failed to sync with Dropbox: remote file changed but local is not synced" := rfl
    rw [h1] at h
    cases h⟩

/-- C22, amended: a sync error is fatal to the read.  When the non-forced `SyncToDropbox`
call returns an error `e`, `GetAllFoodItems` returns no food items and the error
"failed to sync with Dropbox: e", and does not read the local store; when the call returns
no error, `GetAllFoodItems` returns what the read of the local store returns, the food
items of the local database when that read succeeds. -/
theorem getAllFoodItems_sync_error (X : Externals) (P : Platform) (w w1 : World)
    (r : Option String) (h : SyncToDropbox X false w = (r, w1)) :
    (∀ e, r = some e →
      GetAllFoodItems X P w = (Except.error ("failed to sync with Dropbox: " ++ e), w1)) ∧
    (r = none → GetAllFoodItems X P w = data.GetAllFoodItems P w1) ∧
    (r = none → w1.fsFaults = [] →
      GetAllFoodItems X P w = (Except.ok (P.foodItems w1.localDB), w1)) := by
  have hread : r = none → GetAllFoodItems X P w = data.GetAllFoodItems P w1 := by
    intro hr
    subst hr
    unfold GetAllFoodItems
    rw [h]
    simp only
    split <;> (rename_i hd; rw [hd])
  refine ⟨?_, hread, ?_⟩
  · intro e hr
    subst hr
    unfold GetAllFoodItems
    rw [h]
  · intro hr hfs
    rw [hread hr]
    have hp : popFs w1 = (FsFault.ok, w1) := by
      unfold popFs
      rw [hfs]
    unfold data.GetAllFoodItems
    simp only [hp]

/-- C22, amended, at the conflict (the error is returned) and at a synced install (the
food item of the local store is returned). -/
theorem getAllFoodItems_sync_error_witness :
    GetAllFoodItems sampleExternals samplePlatform conflictWorld =
      (Except.error
        ("failed to sync with Dropbox: " ++ "remote file changed but local is not synced"),
        (SyncToDropbox sampleExternals false conflictWorld).2) ∧
    (GetAllFoodItems sampleExternals samplePlatform syncedWorld).1 = Except.ok [sampleItem] :=
  ⟨(getAllFoodItems_sync_error sampleExternals samplePlatform conflictWorld _ _
      Prod.mk.eta.symm).1 _ rfl, rfl⟩

/-- C26, at the failing input: auto-sync is enabled, the ledger is synced, no upload timer
is pending, and the sync before the write has nothing to do.  `ResetFoodItem` returns
without error, the data layer has written the local database and marked the ledger
unsynced, and no upload timer is pending: `ScheduleDelayedUpload` was not called.
`UpdateFoodItem` and `DeleteFoodItem` in the same world leave the timer due in ten
seconds. -/
theorem resetFoodItem_schedules_nothing :
    GetAutoSync syncedWorld = true ∧ syncedWorld.uploadTimer = none ∧
    ledger syncedWorld = ("010203", true) ∧
    (ResetFoodItem sampleExternals samplePlatform "4001" syncedWorld).1 = none ∧
    (ResetFoodItem sampleExternals samplePlatform "4001" syncedWorld).2.localDB =
      [1, 2, 3, 9] ∧
    ledger (ResetFoodItem sampleExternals samplePlatform "4001" syncedWorld).2 =
      ("010203", false) ∧
    (ResetFoodItem sampleExternals samplePlatform "4001" syncedWorld).2.bus =
      ["food_items_updated"] ∧
    (ResetFoodItem sampleExternals samplePlatform "4001" syncedWorld).2.uploadTimer = none ∧
    (UpdateFoodItem sampleExternals samplePlatform "4001" [("name", Value.text "Oats")]
      syncedWorld).1 = none ∧
    ledger (UpdateFoodItem sampleExternals samplePlatform "4001" [("name", Value.text "Oats")]
      syncedWorld).2 = ("010203", false) ∧
    (UpdateFoodItem sampleExternals samplePlatform "4001" [("name", Value.text "Oats")]
      syncedWorld).2.uploadTimer = some (10 * second) ∧
    (DeleteFoodItem sampleExternals samplePlatform "4001" syncedWorld).1 = none ∧
    (DeleteFoodItem sampleExternals samplePlatform "4001" syncedWorld).2.uploadTimer =
      some (10 * second) :=
  ⟨rfl, rfl, rfl, rfl, rfl, rfl, rfl, rfl, rfl, rfl, rfl, rfl, rfl⟩

end Nutrack
